import Mathlib

/-!
# logparse: splitting a concatenated container log into one file per container

A shallow embedding of `main.go`.  Go strings and byte slices are lists of
bytes.  The operating system is a small world: a file system that maps paths
to contents, the set of open output handles, and the chronological trace of
the effects the program performs (console output, file creation, writes,
closes, renames).

What `main.go` takes from outside are inputs of the model:

* `json.Unmarshal` into the `message` struct is the function `unmarshal`,
  which gives either the error text or the decoded `log` field;
* the order in which `range contentDetector` visits the map is an `Order`, a
  permutation of the table, drawn afresh for every loop (`iter`);
* the `bufio.Scanner` is the list of its successful scans, and the error, if
  any, that made `Scan` return false;
* whether `os.Create` succeeds is the function `create`, which gives the
  error text for the paths at which the creation fails;
* `os.Args`, `os.Open`, `os.Getwd` and `os.MkdirAll` are the fields of `Env`.

`run` is the loop of `main` with the deferred close of the writer; `main` is
the whole function.

A write to an open handle always succeeds, and `os.Rename` fails only when
the source path does not exist.

For concrete runs `jsonUnmarshal` follows `encoding/json` (the scanner with
its error texts, then the decoding of an object into the struct `message`),
and `linuxCreate` refuses the paths Linux refuses for their form.
-/

set_option autoImplicit false
set_option maxRecDepth 100000

namespace Logparse

/-! ## Bytes and the string functions of the Go library used by `main.go` -/

/-- A Go `string` or `[]byte`. -/
abbrev Bytes := List UInt8

deriving instance DecidableEq for Except

/-- The bytes of an ASCII string literal. -/
def ascii (s : String) : Bytes := s.toList.map (fun c => UInt8.ofNat c.toNat)

/-- Go `bytes.HasPrefix(s, p)` and `strings.HasPrefix(s, p)`. -/
def HasPrefix (s p : Bytes) : Bool := p.isPrefixOf s

/-- Go `strings.TrimPrefix(s, p)`: `s` without the leading `p` when it has it,
else `s` itself. -/
def TrimPrefix (s p : Bytes) : Bytes := if HasPrefix s p then s.drop p.length else s

/-- Go `strings.Split(s, sep)` for a separator of one byte: the pieces of `s`
between the occurrences of `sep`, one more than there are occurrences. -/
def Split (sep : UInt8) : Bytes → List Bytes
  | [] => [[]]
  | c :: cs =>
    if c = sep then [] :: Split sep cs
    else
      match Split sep cs with
      | [] => [[c]]
      | seg :: segs => (c :: seg) :: segs

/-- Go `strings.Contains(s, sub)`: `sub` occurs in `s` as a contiguous run. -/
def Contains : Bytes → Bytes → Bool
  | [], sub => sub.isEmpty
  | c :: cs, sub => sub.isPrefixOf (c :: cs) || Contains cs sub

/-- Go `path.Join(dir, elem)` for a cleaned, non-empty `dir` and an `elem`
that is one path component, which is how `main.go` calls it (the directory is
itself the result of `path.Join`, the element ends in `.log` and holds no
slash). -/
def pathJoin (dir elem : Bytes) : Bytes := dir ++ ascii "/" ++ elem

/-- The verb `%d` of `fmt` on an `int64`. -/
def fmtInt (n : Int) : Bytes := ascii (toString n)

/-- The value an `int64` holds after an arithmetic result `n` is stored in it. -/
def wrapInt64 (n : Int) : Int := (n + 2 ^ 63) % 2 ^ 64 - 2 ^ 63

/-! ## Constants of `main.go` -/

/-- `const containerFileToken = "==>"`. -/
def containerFileToken : Bytes := ascii "==>"

/-- The map literal `contentDetector`, pattern to label, in source order. -/
def contentDetector : List (Bytes × Bytes) :=
  [ (ascii "Starting controllers on", ascii "controllers"),
    (ascii "msg=\"start registry\" distribution_version=", ascii "docker-registry"),
    (ascii "Registered admission plugin", ascii "api-server"),
    (ascii "Starting template router", ascii "router"),
    (ascii "etcdserver: setting up the initial cluster", ascii "etcd") ]

/-- One traversal order of `range contentDetector`: Go visits every entry of
a map once, in an order it does not specify. -/
abbrev Order := { l : List (Bytes × Bytes) // l.Perm contentDetector }

/-- The traversal in source order. -/
def sourceOrder : Order := ⟨contentDetector, List.Perm.refl _⟩

/-! ## The world -/

/-- An effect the program has on its environment. -/
inductive Effect where
  /-- Bytes printed on standard output. -/
  | stdout (s : Bytes)
  /-- Bytes printed on standard error. -/
  | stderr (s : Bytes)
  /-- The call `os.Create(path)` that succeeded. -/
  | create (path : Bytes)
  /-- A write of `data` through the handle opened at `path`. -/
  | write (path data : Bytes)
  /-- The call `Close()` on the handle opened at `path`. -/
  | close (path : Bytes)
  /-- The call `os.Rename(old, new)` that succeeded. -/
  | rename (old new : Bytes)
  /-- The call `os.Open(path)` on the input file. -/
  | openInput (path : Bytes)
  /-- The call `os.MkdirAll(path, 0700)`. -/
  | mkdirAll (path : Bytes)
  /-- The deferred call `file.Close()` on the input file. -/
  | closeInput (path : Bytes)
  deriving DecidableEq, Repr

/-- A file system: paths with their contents, every path at most once. -/
abbrev FS := List (Bytes × Bytes)

/-- What the program can observe and change outside itself. -/
structure World where
  /-- The files. -/
  fs : FS
  /-- The open output handles, each named by the path it was created at. -/
  handles : List Bytes
  /-- The effects so far, oldest first. -/
  trace : List Effect
  deriving DecidableEq, Repr

/-- The content of the file at `path`, when there is one. -/
def FS.content : FS → Bytes → Option Bytes
  | [], _ => none
  | e :: fs, path => if e.1 = path then some e.2 else FS.content fs path

/-- All bytes printed on standard output, in order. -/
def stdoutOf : List Effect → Bytes
  | [] => []
  | Effect.stdout s :: es => s ++ stdoutOf es
  | _ :: es => stdoutOf es

/-- `fmt.Fprintf(os.Stdout, ...)` with the formatted text `s`. -/
def printOut (s : Bytes) (w : World) : World :=
  { w with trace := w.trace ++ [Effect.stdout s] }

/-- `os.Create(path)` when it succeeds: the file is created empty, or
truncated when it exists, and a handle on it is opened. -/
def osCreate (path : Bytes) (w : World) : World :=
  { fs := (path, []) :: w.fs.filter (fun e => e.1 ≠ path)
    handles := path :: w.handles
    trace := w.trace ++ [Effect.create path] }

/-- The files after `data` is appended to the file at `path`. -/
def FS.append (fs : FS) (path data : Bytes) : FS :=
  fs.map (fun e => if e.1 = path then (e.1, e.2 ++ data) else e)

/-- `(*os.File).Write(data)` through the handle `h`: the data is appended;
writing through a handle that is not open is an error. -/
def fileWrite (h data : Bytes) (w : World) : Except Bytes World :=
  if h ∈ w.handles then
    Except.ok
      { w with
        fs := w.fs.append h data
        trace := w.trace ++ [Effect.write h data] }
  else Except.error (ascii "write " ++ h ++ ascii ": file already closed")

/-- `(*os.File).Close()` on the handle `h`; `main.go` drops its error. -/
def fileClose (h : Bytes) (w : World) : World :=
  { w with handles := w.handles.erase h, trace := w.trace ++ [Effect.close h] }

/-- The files after the file at `old`, of content `c`, is moved to `new`. -/
def FS.move (fs : FS) (old new c : Bytes) : FS :=
  (new, c) :: fs.filter (fun e => e.1 ≠ old ∧ e.1 ≠ new)

/-- `os.Rename(old, new)`: fails when `old` does not exist, else moves the
file, replacing what was at `new`. -/
def osRename (old new : Bytes) (w : World) : Except Bytes World :=
  match w.fs.content old with
  | none =>
    Except.error (ascii "rename " ++ old ++ ascii " " ++ new ++ ascii ": no such file or directory")
  | some c =>
    Except.ok
      { w with
        fs := w.fs.move old new c
        trace := w.trace ++ [Effect.rename old new] }

/-- `handleError(err)`: the message goes to standard error; the caller then
stops the run with status 1 (`os.Exit(1)` runs no deferred call). -/
def handleError (err : Bytes) (w : World) : World :=
  { w with trace := w.trace ++ [Effect.stderr (ascii "ERROR: " ++ err ++ ascii "\n")] }

/-! ## The per-container writer -/

/-- The struct `logWriter`. -/
structure logWriter where
  /-- The open `*os.File`, named by the path it was created at. -/
  fileWriter : Bytes
  /-- An `int64`. -/
  count : Int
  /-- The detected label, empty when none. -/
  detectedType : Bytes
  /-- The name of the container. -/
  containerName : Bytes
  /-- The output directory. -/
  dirName : Bytes
  deriving DecidableEq, Repr

/-- A call that either returns with the world it leaves, or ends the process
through `handleError`. -/
inductive Ret where
  /-- The call returned. -/
  | ok (w : World)
  /-- The process exited with status 1. -/
  | exit (w : World)
  deriving DecidableEq, Repr

/-- The loop `for pattern, fileType := range contentDetector` of `Write`,
run in the order `order` on the decoded text: the label of the first entry
visited whose pattern occurs in the text, or the label held before. -/
def detect (order : Order) (log old : Bytes) : Bytes :=
  match order.val.find? (fun e => Contains log e.1) with
  | some e => e.2
  | none => old

/-- The method `(*logWriter).Write`: the writer as the call leaves it, and
either the error returned or the world after the write. -/
def logWriter.Write (unmarshal : Bytes → Except Bytes Bytes) (order : Order)
    (w : logWriter) (p : Bytes) (wd : World) : logWriter × Except Bytes World :=
  if p.length = 0 then (w, Except.ok wd)
  else
    match unmarshal p with
    | Except.error err => (w, Except.error err)
    | Except.ok log =>
      let w1 := { w with count := wrapInt64 (w.count + 1) }
      let w2 := { w1 with detectedType := detect order log w1.detectedType }
      (w2, fileWrite w2.fileWriter log wd)

/-- The text `, detected: <label>` of `Close`, empty without a label. -/
def detectedText (label : Bytes) : Bytes :=
  if label.length > 0 then ascii ", detected: " ++ label else []

/-- The method `(*logWriter).Close`: the count line is printed, then the
deferred calls run last-in first-out: the file handle is closed, and when a
label was detected the file is renamed, a failure of which is fatal. -/
def logWriter.Close (w : logWriter) (wd : World) : Ret :=
  let wd1 := printOut (fmtInt w.count ++ ascii " lines" ++ detectedText w.detectedType ++ ascii "\n") wd
  let wd2 := fileClose w.fileWriter wd1
  if w.detectedType.length > 0 then
    let logFile := pathJoin w.dirName (w.containerName ++ ascii ".log")
    match osRename logFile
        (pathJoin w.dirName (w.containerName ++ ascii "-" ++ w.detectedType ++ ascii ".log")) wd2 with
    | Except.error err => Ret.exit (handleError err wd2)
    | Except.ok wd3 => Ret.ok wd3
  else Ret.ok wd2

/-- The function `newWriter`: the announcement is printed, then the file is
created; when `os.Create` fails its error is returned and there is no writer,
else a writer on the new file is returned.  `create` gives the error of
`os.Create` at a path, `none` when the creation succeeds. -/
def newWriter (create : Bytes → Option Bytes) (dirName containerName : Bytes) (wd : World) :
    Except Bytes logWriter × World :=
  let logFile := pathJoin dirName (containerName ++ ascii ".log")
  let wd1 := printOut (ascii "Writing containers/" ++ containerName ++ ascii ".log ... ") wd
  match create logFile with
  | some err => (Except.error err, wd1)
  | none =>
    (Except.ok { fileWriter := logFile, count := 0, detectedType := [],
                 containerName := containerName, dirName := dirName },
     osCreate logFile wd1)

/-! ## The loop of `main` -/

/-- One successful `scan.Scan()`: the value of `scan.Err()` and the token
`scan.Bytes()`. -/
structure Scanned where
  /-- The error text when `scan.Err()` is not nil. -/
  err : Option Bytes
  /-- The line, without its end-of-line. -/
  bytes : Bytes
  deriving DecidableEq, Repr

/-- The scans of an input read without error: one per line. -/
def scanLines (lines : List Bytes) : List Scanned :=
  lines.map (fun l => { err := none, bytes := l })

/-- The variable `writer` of `main` together with the world. -/
structure State where
  /-- The open session, `none` for the nil interface. -/
  writer : Option logWriter
  /-- The world. -/
  world : World
  deriving DecidableEq, Repr

/-- How control leaves a piece of `main`. -/
inductive Flow where
  /-- Execution goes on. -/
  | running (s : State)
  /-- The process ended in `handleError` with status 1. -/
  | exited (w : World)
  /-- A run-time panic was raised; the deferred calls of `main` are still
  to run, with `writer` as the state holds it. -/
  | panicked (s : State)
  deriving DecidableEq, Repr

/-- The statement `if writer != nil { writer.Close() }`. -/
def closeWriter (writer : Option logWriter) (wd : World) : Ret :=
  match writer with
  | none => Ret.ok wd
  | some w => w.Close wd

/-- The body of the loop `for scan.Scan()` for one scan. -/
def loopBody (unmarshal : Bytes → Except Bytes Bytes) (create : Bytes → Option Bytes)
    (containersDir : Bytes) (order : Order) (s : Scanned) (st : State) : Flow :=
  match s.err with
  | some err => Flow.exited (handleError err st.world)
  | none =>
    let line := s.bytes
    if HasPrefix line containerFileToken then
      match closeWriter st.writer st.world with
      | Ret.exit wd => Flow.exited wd
      | Ret.ok wd =>
        -- 47 is the slash; an index past the end of the slice panics
        match (Split 47 (TrimPrefix line containerFileToken))[5]? with
        | none => Flow.panicked { writer := st.writer, world := wd }
        | some name =>
          match newWriter create containersDir name wd with
          | (Except.error err, wd1) => Flow.exited (handleError err wd1)
          | (Except.ok w, wd1) => Flow.running { writer := some w, world := wd1 }
    else
      match st.writer with
      | none => Flow.panicked st
      | some w =>
        match w.Write unmarshal order line st.world with
        | (_, Except.error err) => Flow.exited (handleError err st.world)
        | (w1, Except.ok wd) => Flow.running { writer := some w1, world := wd }

/-- The loop `for scan.Scan()` over the scans still to come; `iter n` is the
order of the map traversal at the `n`-th of them. -/
def mainLoop (unmarshal : Bytes → Except Bytes Bytes) (create : Bytes → Option Bytes)
    (containersDir : Bytes) : (Nat → Order) → List Scanned → State → Flow
  | _, [], st => Flow.running st
  | iter, s :: rest, st =>
    match loopBody unmarshal create containersDir (iter 0) s st with
    | Flow.running st1 =>
      mainLoop unmarshal create containersDir (fun n => iter (n + 1)) rest st1
    | Flow.exited wd => Flow.exited wd
    | Flow.panicked st1 => Flow.panicked st1

/-- How the process ends: the world it leaves and its exit status. -/
structure Outcome where
  /-- The final world. -/
  world : World
  /-- The exit status: 0, 1 after `handleError`, 2 after a panic (what the Go
  runtime then reports on standard error is not part of the trace). -/
  code : Nat
  deriving DecidableEq, Repr

/-- The deferred call `if writer != nil { writer.Close() }` of `main`, run
when `main` returns or panics. -/
def deferred (st : State) (code : Nat) : Outcome :=
  match closeWriter st.writer st.world with
  | Ret.ok wd => { world := wd, code := code }
  | Ret.exit wd => { world := wd, code := 1 }

/-- The end of `main` after the loop: the deferred close runs on return and
on panic, not after `os.Exit`. -/
def finish : Flow → Outcome
  | Flow.running st => deferred st 0
  | Flow.exited wd => { world := wd, code := 1 }
  | Flow.panicked st => deferred st 2

/-- The part of `main` from the creation of the scanner on: the loop over the
scans, started with no writer in the world `wd`, and the deferred close. -/
def run (unmarshal : Bytes → Except Bytes Bytes) (create : Bytes → Option Bytes)
    (containersDir : Bytes) (iter : Nat → Order) (scans : List Scanned) (wd : World) :
    Outcome :=
  finish (mainLoop unmarshal create containersDir iter scans { writer := none, world := wd })

/-! ## The whole of `main` -/

/-- A `bufio.Scanner` on the input file, as `main` uses it: the scans for
which `scan.Scan()` returns true, and the value of `scan.Err()` once
`scan.Scan()` has returned false, `none` at the end of the input. -/
structure Scanner where
  /-- The successful scans, in order. -/
  scans : List Scanned
  /-- The error that stopped the scanner, when it is not the end of input. -/
  final : Option Bytes
  deriving DecidableEq, Repr

/-- What `main` asks of the operating system before the loop. -/
structure Env where
  /-- The slice `os.Args`. -/
  args : List Bytes
  /-- The call `os.Open(path)` followed by `bufio.NewScanner`: the error of
  the open, or the scanner on the file. -/
  openFile : Bytes → Except Bytes Scanner
  /-- The call `os.Getwd()`. -/
  getwd : Except Bytes Bytes
  /-- The error of `os.MkdirAll(path, 0700)`, when it fails. -/
  mkdirAll : Bytes → Option Bytes
  /-- The error of `os.Create(path)`, when it fails. -/
  create : Bytes → Option Bytes

/-- The value of `path.Join(cwd, "containers")` for the cleaned absolute path
that `os.Getwd` returns. -/
def containersDirOf (cwd : Bytes) : Bytes :=
  if cwd = ascii "/" then ascii "/containers" else pathJoin cwd (ascii "containers")

/-- The function `main`, run in the world `wd`.  The loop ends when
`scan.Scan()` returns false, and `main` does not look at `scan.Err()` then.
The deferred `file.Close()` runs after the deferred close of the writer,
unless the process has left through `os.Exit`. -/
def main (unmarshal : Bytes → Except Bytes Bytes) (iter : Nat → Order) (env : Env)
    (wd : World) : Outcome :=
  if env.args.length ≠ 2 then
    -- the message is built from `os.Args[0]`
    match env.args[0]? with
    | none => { world := wd, code := 2 }
    | some prog =>
      { world := handleError (ascii "usage: " ++ prog ++ ascii " containers.log") wd, code := 1 }
  else
    match env.args[1]? with
    | none => { world := wd, code := 2 }
    | some path =>
      let wd1 : World := { wd with trace := wd.trace ++ [Effect.openInput path] }
      match env.openFile path with
      | Except.error err => { world := handleError err wd1, code := 1 }
      | Except.ok scanner =>
        match env.getwd with
        | Except.error err => { world := handleError err wd1, code := 1 }
        | Except.ok cwd =>
          let containersDir := containersDirOf cwd
          let wd2 : World := { wd1 with trace := wd1.trace ++ [Effect.mkdirAll containersDir] }
          match env.mkdirAll containersDir with
          | some err => { world := handleError err wd2, code := 1 }
          | none =>
            let out := run unmarshal env.create containersDir iter scanner.scans wd2
            if out.code = 1 then out
            else
              { world := { out.world with
                  trace := out.world.trace ++ [Effect.closeInput path] }
                code := out.code }

/-- The empty world: no file, no open handle, nothing done yet. -/
def World.empty : World := { fs := [], handles := [], trace := [] }

/-! ## `json.Unmarshal` into `message`, after `encoding/json` -/

/-- The states of the scanner of `encoding/json` (its `step` functions). -/
inductive JStep where
  | beginValue | beginValueOrEmpty | beginStringOrEmpty | beginString
  | endValue | endTop
  | inString | inStringEsc | inStringEscU | inStringEscU1 | inStringEscU12 | inStringEscU123
  | neg | one | zero | dot | dot0 | exp | expSign | exp0
  | litT | litTr | litTru | litF | litFa | litFal | litFals | litN | litNu | litNul
  deriving DecidableEq, Repr

/-- What the scanner is inside of (its `parseState` entries). -/
inductive JParse where
  | objectKey | objectValue | arrayValue
  deriving DecidableEq, Repr

/-- The scanner: the step function to apply next, the stack of enclosing
composites (innermost first) and whether the top-level value is complete. -/
structure JScanner where
  /-- The field `step`. -/
  step : JStep
  /-- The field `parseState`, innermost first. -/
  parseState : List JParse
  /-- The field `endTop`. -/
  endTop : Bool
  deriving DecidableEq, Repr

/-- The function `isSpace` of the scanner. -/
def jsonIsSpace (c : UInt8) : Bool := c = 32 ∨ c = 9 ∨ c = 13 ∨ c = 10

/-- A lower-case hexadecimal digit. -/
def hexDigit (n : Nat) : UInt8 :=
  if n < 10 then UInt8.ofNat (48 + n) else UInt8.ofNat (87 + n)

/-- The function `quoteChar` of the scanner: the byte as a Go character
literal, the way `strconv.Quote` escapes the rune of that value. -/
def quoteChar (c : UInt8) : Bytes :=
  if c = 39 then ascii "\x27\\\x27\x27"
  else if c = 34 then ascii "\x27\"\x27"
  else if c = 92 then ascii "\x27\\\\\x27"
  else if c = 7 then ascii "\x27\\a\x27"
  else if c = 8 then ascii "\x27\\b\x27"
  else if c = 12 then ascii "\x27\\f\x27"
  else if c = 10 then ascii "\x27\\n\x27"
  else if c = 13 then ascii "\x27\\r\x27"
  else if c = 9 then ascii "\x27\\t\x27"
  else if c = 11 then ascii "\x27\\v\x27"
  else if c < 32 ∨ c = 127 then
    ascii "\x27\\x" ++ [hexDigit (c.toNat / 16), hexDigit (c.toNat % 16)] ++ ascii "\x27"
  else if c < 127 then [39, c, 39]
  else if c < 161 ∨ c = 173 then
    ascii "\x27\\u00" ++ [hexDigit (c.toNat / 16), hexDigit (c.toNat % 16)] ++ ascii "\x27"
  else [39, UInt8.ofNat (192 + c.toNat / 64), UInt8.ofNat (128 + c.toNat % 64), 39]

/-- The method `error` of the scanner: the text of the `SyntaxError`. -/
def jsonError (c : UInt8) (context : String) : Bytes :=
  ascii "invalid character " ++ quoteChar c ++ ascii " " ++ ascii context

/-- The method `popParseState`. -/
def JScanner.pop (s : JScanner) : JScanner :=
  match s.parseState.tail with
  | [] => { step := JStep.endTop, parseState := [], endTop := true }
  | ps => { s with step := JStep.endValue, parseState := ps }

/-- The method `pushParseState`, with `maxNestingDepth = 10000`. -/
def JScanner.push (s : JScanner) (c : UInt8) (p : JParse) (next : JStep) :
    Except Bytes JScanner :=
  if s.parseState.length + 1 ≤ 10000 then
    Except.ok { s with step := next, parseState := p :: s.parseState }
  else Except.error (jsonError c "exceeded max depth")

/-- The function `stateEndTop`. -/
def stateEndTop (s : JScanner) (c : UInt8) : Except Bytes JScanner :=
  if jsonIsSpace c then Except.ok s else Except.error (jsonError c "after top-level value")

/-- The function `stateEndValue`. -/
def stateEndValue (s : JScanner) (c : UInt8) : Except Bytes JScanner :=
  match s.parseState with
  | [] => stateEndTop { s with step := JStep.endTop, endTop := true } c
  | ps :: rest =>
    if jsonIsSpace c then Except.ok { s with step := JStep.endValue }
    else
      match ps with
      | JParse.objectKey =>
        if c = 58 then
          Except.ok { s with step := JStep.beginValue, parseState := JParse.objectValue :: rest }
        else Except.error (jsonError c "after object key")
      | JParse.objectValue =>
        if c = 44 then
          Except.ok { s with step := JStep.beginString, parseState := JParse.objectKey :: rest }
        else if c = 125 then Except.ok s.pop
        else Except.error (jsonError c "after object key:value pair")
      | JParse.arrayValue =>
        if c = 44 then Except.ok { s with step := JStep.beginValue }
        else if c = 93 then Except.ok s.pop
        else Except.error (jsonError c "after array element")

/-- The function `stateBeginValue`. -/
def stateBeginValue (s : JScanner) (c : UInt8) : Except Bytes JScanner :=
  if jsonIsSpace c then Except.ok s
  else if c = 123 then s.push c JParse.objectKey JStep.beginStringOrEmpty
  else if c = 91 then s.push c JParse.arrayValue JStep.beginValueOrEmpty
  else if c = 34 then Except.ok { s with step := JStep.inString }
  else if c = 45 then Except.ok { s with step := JStep.neg }
  else if c = 48 then Except.ok { s with step := JStep.zero }
  else if c = 116 then Except.ok { s with step := JStep.litT }
  else if c = 102 then Except.ok { s with step := JStep.litF }
  else if c = 110 then Except.ok { s with step := JStep.litN }
  else if 49 ≤ c ∧ c ≤ 57 then Except.ok { s with step := JStep.one }
  else Except.error (jsonError c "looking for beginning of value")

/-- The function `stateBeginString`. -/
def stateBeginString (s : JScanner) (c : UInt8) : Except Bytes JScanner :=
  if jsonIsSpace c then Except.ok s
  else if c = 34 then Except.ok { s with step := JStep.inString }
  else Except.error (jsonError c "looking for beginning of object key string")

/-- A decimal digit. -/
def isDigit (c : UInt8) : Bool := 48 ≤ c ∧ c ≤ 57

/-- A hexadecimal digit. -/
def isHex (c : UInt8) : Bool :=
  (48 ≤ c ∧ c ≤ 57) ∨ (97 ≤ c ∧ c ≤ 102) ∨ (65 ≤ c ∧ c ≤ 70)

/-- A step that expects the one byte `want` of a literal. -/
def stateLit (s : JScanner) (c want : UInt8) (next : JStep) (context : String) :
    Except Bytes JScanner :=
  if c = want then Except.ok { s with step := next } else Except.error (jsonError c context)

/-- The function `state0`. -/
def state0 (s : JScanner) (c : UInt8) : Except Bytes JScanner :=
  if c = 46 then Except.ok { s with step := JStep.dot }
  else if c = 101 ∨ c = 69 then Except.ok { s with step := JStep.exp }
  else stateEndValue s c

/-- The function `stateESign`. -/
def stateESign (s : JScanner) (c : UInt8) : Except Bytes JScanner :=
  if isDigit c then Except.ok { s with step := JStep.exp0 }
  else Except.error (jsonError c "in exponent of numeric literal")

/-- One call `s.step(s, c)`. -/
def JScanner.next (s : JScanner) (c : UInt8) : Except Bytes JScanner :=
  match s.step with
  | JStep.beginValue => stateBeginValue s c
  | JStep.beginValueOrEmpty =>
    if jsonIsSpace c then Except.ok s
    else if c = 93 then stateEndValue s c
    else stateBeginValue s c
  | JStep.beginStringOrEmpty =>
    if jsonIsSpace c then Except.ok s
    else if c = 125 then
      stateEndValue { s with parseState := JParse.objectValue :: s.parseState.tail } c
    else stateBeginString s c
  | JStep.beginString => stateBeginString s c
  | JStep.endValue => stateEndValue s c
  | JStep.endTop => stateEndTop s c
  | JStep.inString =>
    if c = 34 then Except.ok { s with step := JStep.endValue }
    else if c = 92 then Except.ok { s with step := JStep.inStringEsc }
    else if c < 32 then Except.error (jsonError c "in string literal")
    else Except.ok s
  | JStep.inStringEsc =>
    if c = 98 ∨ c = 102 ∨ c = 110 ∨ c = 114 ∨ c = 116 ∨ c = 92 ∨ c = 47 ∨ c = 34 then
      Except.ok { s with step := JStep.inString }
    else if c = 117 then Except.ok { s with step := JStep.inStringEscU }
    else Except.error (jsonError c "in string escape code")
  | JStep.inStringEscU =>
    if isHex c then Except.ok { s with step := JStep.inStringEscU1 }
    else Except.error (jsonError c "in \\u hexadecimal character escape")
  | JStep.inStringEscU1 =>
    if isHex c then Except.ok { s with step := JStep.inStringEscU12 }
    else Except.error (jsonError c "in \\u hexadecimal character escape")
  | JStep.inStringEscU12 =>
    if isHex c then Except.ok { s with step := JStep.inStringEscU123 }
    else Except.error (jsonError c "in \\u hexadecimal character escape")
  | JStep.inStringEscU123 =>
    if isHex c then Except.ok { s with step := JStep.inString }
    else Except.error (jsonError c "in \\u hexadecimal character escape")
  | JStep.neg =>
    if c = 48 then Except.ok { s with step := JStep.zero }
    else if 49 ≤ c ∧ c ≤ 57 then Except.ok { s with step := JStep.one }
    else Except.error (jsonError c "in numeric literal")
  | JStep.one => if isDigit c then Except.ok s else state0 s c
  | JStep.zero => state0 s c
  | JStep.dot =>
    if isDigit c then Except.ok { s with step := JStep.dot0 }
    else Except.error (jsonError c "after decimal point in numeric literal")
  | JStep.dot0 =>
    if isDigit c then Except.ok s
    else if c = 101 ∨ c = 69 then Except.ok { s with step := JStep.exp }
    else stateEndValue s c
  | JStep.exp =>
    if c = 43 ∨ c = 45 then Except.ok { s with step := JStep.expSign } else stateESign s c
  | JStep.expSign => stateESign s c
  | JStep.exp0 => if isDigit c then Except.ok s else stateEndValue s c
  | JStep.litT => stateLit s c 114 JStep.litTr "in literal true (expecting \x27r\x27)"
  | JStep.litTr => stateLit s c 117 JStep.litTru "in literal true (expecting \x27u\x27)"
  | JStep.litTru => stateLit s c 101 JStep.endValue "in literal true (expecting \x27e\x27)"
  | JStep.litF => stateLit s c 97 JStep.litFa "in literal false (expecting \x27a\x27)"
  | JStep.litFa => stateLit s c 108 JStep.litFal "in literal false (expecting \x27l\x27)"
  | JStep.litFal => stateLit s c 115 JStep.litFals "in literal false (expecting \x27s\x27)"
  | JStep.litFals => stateLit s c 101 JStep.endValue "in literal false (expecting \x27e\x27)"
  | JStep.litN => stateLit s c 117 JStep.litNu "in literal null (expecting \x27u\x27)"
  | JStep.litNu => stateLit s c 108 JStep.litNul "in literal null (expecting \x27l\x27)"
  | JStep.litNul => stateLit s c 108 JStep.endValue "in literal null (expecting \x27l\x27)"

/-- The loop of `checkValid` over the bytes of the input. -/
def scanBytes : JScanner → Bytes → Except Bytes JScanner
  | s, [] => Except.ok s
  | s, c :: cs =>
    match s.next c with
    | Except.error e => Except.error e
    | Except.ok s1 => scanBytes s1 cs

/-- The method `eof` of the scanner: `none` when the input is a complete
value, else the text of the error. -/
def JScanner.eof (s : JScanner) : Option Bytes :=
  if s.endTop then none
  else
    match s.next 32 with
    | Except.error e => some e
    | Except.ok s1 =>
      if s1.endTop then none else some (ascii "unexpected end of JSON input")

/-- The function `checkValid`: the text of the syntax error of the input,
`none` when it is valid JSON. -/
def checkValid (data : Bytes) : Option Bytes :=
  match scanBytes { step := JStep.beginValue, parseState := [], endTop := false } data with
  | Except.error e => some e
  | Except.ok s => s.eof


/-! ### Decoding into the struct `message` -/

/-- The function `utf8.EncodeRune` on a rune that is not a surrogate. -/
def utf8Encode (r : Nat) : Bytes :=
  if r < 128 then [UInt8.ofNat r]
  else if r < 2048 then [UInt8.ofNat (192 + r / 64), UInt8.ofNat (128 + r % 64)]
  else if r < 65536 then
    [UInt8.ofNat (224 + r / 4096), UInt8.ofNat (128 + r / 64 % 64), UInt8.ofNat (128 + r % 64)]
  else
    [UInt8.ofNat (240 + r / 262144), UInt8.ofNat (128 + r / 4096 % 64),
     UInt8.ofNat (128 + r / 64 % 64), UInt8.ofNat (128 + r % 64)]

/-- The UTF-8 encoding of `U+FFFD`, the replacement character. -/
def replacementChar : Bytes := [239, 191, 189]

/-- A continuation byte of UTF-8. -/
def isCont (c : UInt8) : Bool := 128 ≤ c ∧ c ≤ 191

/-- The width `utf8.DecodeRune` reports for the rune at the head of the bytes
when it is well formed, 0 when it is not (the function then gives
`RuneError` and width 1). -/
def utf8Size : Bytes → Nat
  | [] => 0
  | b0 :: rest =>
    if b0 < 128 then 1
    else if 194 ≤ b0 ∧ b0 ≤ 223 then
      match rest with
      | b1 :: _ => if isCont b1 then 2 else 0
      | _ => 0
    else if 224 ≤ b0 ∧ b0 ≤ 239 then
      match rest with
      | b1 :: b2 :: _ =>
        if (if b0 = 224 then 160 else 128) ≤ b1 ∧ b1 ≤ (if b0 = 237 then 159 else 191) ∧ isCont b2
        then 3 else 0
      | _ => 0
    else if 240 ≤ b0 ∧ b0 ≤ 244 then
      match rest with
      | b1 :: b2 :: b3 :: _ =>
        if (if b0 = 240 then 144 else 128) ≤ b1 ∧ b1 ≤ (if b0 = 244 then 143 else 191) ∧
            isCont b2 ∧ isCont b3
        then 4 else 0
      | _ => 0
    else 0

/-- The value of a hexadecimal digit. -/
def hexVal (c : UInt8) : Nat :=
  if 48 ≤ c ∧ c ≤ 57 then c.toNat - 48
  else if 97 ≤ c ∧ c ≤ 102 then c.toNat - 87
  else c.toNat - 55

/-- The function `getu4`: the code unit of a leading `\uXXXX`. -/
def getu4 : Bytes → Option Nat
  | 92 :: 117 :: a :: b :: c :: d :: _ =>
    if isHex a ∧ isHex b ∧ isHex c ∧ isHex d then
      some (((hexVal a * 16 + hexVal b) * 16 + hexVal c) * 16 + hexVal d)
    else none
  | _ => none

/-- The byte a one-letter escape stands for. -/
def escapeByte (c : UInt8) : UInt8 :=
  if c = 98 then 8 else if c = 102 then 12 else if c = 110 then 10
  else if c = 114 then 13 else if c = 116 then 9 else c

/-- The function `unquoteBytes` on the body of a string literal that the
scanner has accepted: escapes are decoded, a `\u` pair of surrogates gives one
rune, a lone surrogate and every byte that is not well-formed UTF-8 give
`U+FFFD`.  The first argument bounds the number of steps. -/
def unquoteBody : Nat → Bytes → Bytes
  | 0, _ => []
  | _ + 1, [] => []
  | fuel + 1, c :: rest =>
    if c = 92 then
      match rest with
      | [] => []
      | e :: rest1 =>
        if e = 117 then
          match getu4 (c :: rest) with
          | none => []
          | some rr =>
            let after := rest1.drop 4
            if 55296 ≤ rr ∧ rr < 57344 then
              match getu4 after with
              | some rr1 =>
                if rr < 56320 ∧ 56320 ≤ rr1 ∧ rr1 < 57344 then
                  utf8Encode (65536 + (rr - 55296) * 1024 + (rr1 - 56320)) ++
                    unquoteBody fuel (after.drop 6)
                else replacementChar ++ unquoteBody fuel after
              | none => replacementChar ++ unquoteBody fuel after
            else utf8Encode rr ++ unquoteBody fuel after
        else escapeByte e :: unquoteBody fuel rest1
    else if c < 128 then c :: unquoteBody fuel rest
    else
      match utf8Size (c :: rest) with
      | 0 => replacementChar ++ unquoteBody fuel rest
      | n => (c :: rest).take n ++ unquoteBody fuel ((c :: rest).drop n)

/-- The decoded text of the body of a string literal. -/
def unquote (body : Bytes) : Bytes := unquoteBody body.length body

/-- The bytes after the leading white space. -/
def skipSpace : Bytes → Bytes
  | [] => []
  | c :: cs => if jsonIsSpace c then skipSpace cs else c :: cs

/-- The body of a string literal and the bytes after its closing quote, from
the bytes after its opening quote; the flag tells that the last byte was the
backslash of an escape. -/
def stringBody : Bool → Bytes → Bytes × Bytes
  | _, [] => ([], [])
  | true, c :: rest =>
    let r := stringBody false rest
    (c :: r.1, r.2)
  | false, c :: rest =>
    if c = 34 then ([], rest)
    else
      let r := stringBody (c = 92) rest
      (c :: r.1, r.2)

/-- The bytes after the JSON value at the head of the input: `depth` counts
the composites the scan is inside of, the flags tell that it is inside a
string and after the backslash of an escape. -/
def skipValue : Nat → Bool → Bool → Bytes → Bytes
  | _, _, _, [] => []
  | depth, true, true, _ :: rest => skipValue depth true false rest
  | depth, true, false, c :: rest =>
    if c = 92 then skipValue depth true true rest
    else if c = 34 then (if depth = 0 then rest else skipValue depth false false rest)
    else skipValue depth true false rest
  | depth, false, _, c :: rest =>
    if c = 34 then skipValue depth true false rest
    else if c = 123 ∨ c = 91 then skipValue (depth + 1) false false rest
    else if c = 125 ∨ c = 93 then
      (if depth = 0 then c :: rest
       else if depth = 1 then rest
       else skipValue (depth - 1) false false rest)
    else if depth = 0 ∧ (c = 44 ∨ jsonIsSpace c) then c :: rest
    else skipValue depth false false rest

/-- What a JSON value is, as far as the decoding into `message` looks. -/
inductive JKind where
  /-- A string literal, with its body. -/
  | string (body : Bytes)
  /-- The literal `null`. -/
  | null
  /-- The literal `true` or `false`. -/
  | bool
  /-- A number. -/
  | number
  /-- An object. -/
  | object
  /-- An array. -/
  | array
  deriving DecidableEq, Repr

/-- The kind of the value that starts at the head of the input. -/
def valueKind : Bytes → JKind
  | [] => JKind.null
  | c :: rest =>
    if c = 34 then JKind.string (stringBody false rest).1
    else if c = 110 then JKind.null
    else if c = 116 ∨ c = 102 then JKind.bool
    else if c = 123 then JKind.object
    else if c = 91 then JKind.array
    else JKind.number

/-- The name of a kind in an `UnmarshalTypeError`. -/
def JKind.name : JKind → String
  | JKind.string _ => "string"
  | JKind.null => "null"
  | JKind.bool => "bool"
  | JKind.number => "number"
  | JKind.object => "object"
  | JKind.array => "array"

/-- The members of an object, from the bytes after its opening brace: the
decoded key and the kind of the value of each, in order.  The first argument
bounds the number of members. -/
def members : Nat → Bytes → List (Bytes × JKind)
  | 0, _ => []
  | fuel + 1, s =>
    match skipSpace s with
    | 34 :: rest =>
      let key := stringBody false rest
      match skipSpace key.2 with
      | 58 :: rest1 =>
        let v := skipSpace rest1
        (unquote key.1, valueKind v) ::
          (match skipSpace (skipValue 0 false false v) with
           | 44 :: rest2 => members fuel rest2
           | _ => [])
      | _ => []
    | _ => []

/-- The key names the field `Log` of `message`, tagged `json:"log"`: the
match is exact or differs in the case of the letters only. -/
def isLogKey (key : Bytes) : Bool :=
  key.map (fun c => if 65 ≤ c ∧ c ≤ 90 then c + 32 else c) = ascii "log"

/-- The effect of one member of the object on the field `Log` and on the
error the decoder has saved: a string under the key `log` is stored, `null`
under it is ignored, any other value under it is a type error, of which the
first is kept; other keys are skipped. -/
def storeMember (st : Bytes × Option Bytes) (m : Bytes × JKind) : Bytes × Option Bytes :=
  if isLogKey m.1 then
    match m.2 with
    | JKind.string body => (unquote body, st.2)
    | JKind.null => st
    | k =>
      (st.1, st.2.orElse (fun _ => some (ascii "json: cannot unmarshal " ++ ascii k.name ++
        ascii " into Go struct field message.log of type string")))
  else st

/-- The call `json.Unmarshal(p, &m)` on a zero `message`: the text of the
error, or the field `m.Log` after the call.  The input is first checked
whole by the scanner; then an object is decoded member by member, `null`
leaves the struct as it is, and any other value is a type error. -/
def jsonUnmarshal (p : Bytes) : Except Bytes Bytes :=
  match checkValid p with
  | some err => Except.error err
  | none =>
    match skipSpace p with
    | [] => Except.ok []
    | c :: rest =>
      if c = 123 then
        match (members p.length rest).foldl storeMember ([], none) with
        | (_, some err) => Except.error err
        | (log, none) => Except.ok log
      else
        match valueKind (c :: rest) with
        | JKind.null => Except.ok []
        | k =>
          Except.error (ascii "json: cannot unmarshal " ++ ascii k.name ++
            ascii " into Go value of type main.message")

/-! ## Inputs for concrete runs -/

/-- The answer of `os.Create` on Linux as far as the form of the path decides
it: a path that holds a NUL byte is refused (`EINVAL`), so is a path longer
than 4095 bytes or with a last component longer than 255 bytes
(`ENAMETOOLONG`); any other path is created. -/
def linuxCreate (path : Bytes) : Option Bytes :=
  if (0 : UInt8) ∈ path then some (ascii "open " ++ path ++ ascii ": invalid argument")
  else if 4095 < path.length ∨ 255 < ((Split 47 path).getLast?.getD []).length then
    some (ascii "open " ++ path ++ ascii ": file name too long")
  else none

/-- The line `{"log":"<body>"}` for an ASCII body. -/
def jsonLine (body : String) : Bytes :=
  ascii "\x7b\x22log\x22:\x22" ++ ascii body ++ ascii "\x22\x7d"

/-- An output directory for concrete runs. -/
def sampleDir : Bytes := ascii "/w/containers"

/-- The traversal of the table in source order at every line. -/
def sourceIter : Nat → Order := fun _ => sourceOrder

/-- An environment for concrete runs: the arguments `args`, an input file
that opens on the scanner `scanner`, the working directory `/w`, a directory
creation that succeeds, and file creations as `linuxCreate` answers. -/
def sampleEnv (args : List Bytes) (scanner : Scanner) : Env :=
  { args := args
    openFile := fun _ => Except.ok scanner
    getwd := Except.ok (ascii "/w")
    mkdirAll := fun _ => none
    create := linuxCreate }

/-! ## Notions used to state the properties -/

/-- The world a flow of control carries. -/
def Flow.world : Flow → World
  | Flow.running st => st.world
  | Flow.exited wd => wd
  | Flow.panicked st => st.world

/-- Sequencing: the continuation runs when execution goes on. -/
def Flow.andThen (f : Flow) (k : State → Flow) : Flow :=
  match f with
  | Flow.running st => k st
  | Flow.exited wd => Flow.exited wd
  | Flow.panicked st => Flow.panicked st

/-- The decoded texts of the lines of a session that `Write` decodes: those of
its non-empty lines, in order. -/
def decodedLogs (unmarshal : Bytes → Except Bytes Bytes) (payload : List Bytes) : List Bytes :=
  payload.filterMap (fun l =>
    if l.length = 0 then none
    else match unmarshal l with
      | Except.ok log => some log
      | Except.error _ => none)

/-- The writer and the world that `openWriter` returns when the creation
succeeds. -/
def openWriter (dirName containerName : Bytes) (wd : World) : logWriter × World :=
  ({ fileWriter := pathJoin dirName (containerName ++ ascii ".log"), count := 0,
     detectedType := [], containerName := containerName, dirName := dirName },
   osCreate (pathJoin dirName (containerName ++ ascii ".log"))
     (printOut (ascii "Writing containers/" ++ containerName ++ ascii ".log ... ") wd))

/-- The world a call leaves. -/
def Ret.world : Ret → World
  | Ret.ok wd => wd
  | Ret.exit wd => wd

/-- The path of the log file of a writer while it is open. -/
def logWriter.logFile (w : logWriter) : Bytes :=
  pathJoin w.dirName (w.containerName ++ ascii ".log")

/-- The path the log file of a writer is renamed to when it has a label. -/
def logWriter.labelledFile (w : logWriter) : Bytes :=
  pathJoin w.dirName (w.containerName ++ ascii "-" ++ w.detectedType ++ ascii ".log")

/-- The line `Close` prints: the count, and the label when there is one. -/
def logWriter.countLine (w : logWriter) : Bytes :=
  fmtInt w.count ++ ascii " lines" ++ detectedText w.detectedType ++ ascii "\n"

/-- The effects of a `Close` that succeeds, in order. -/
def logWriter.closeEffects (w : logWriter) : List Effect :=
  [Effect.stdout w.countLine, Effect.close w.fileWriter] ++
    (if w.detectedType = [] then [] else [Effect.rename w.logFile w.labelledFile])

/-- The container names of the markers of an input, in order. -/
def markerNames (lines : List Bytes) : List Bytes :=
  lines.filterMap (fun l =>
    if HasPrefix l containerFileToken then (Split 47 (TrimPrefix l containerFileToken))[5]?
    else none)

/-- The paths the session of a container name can leave its file at: the log
file, or the log file renamed for a label of the table. -/
def candidates (dir n : Bytes) : List Bytes :=
  pathJoin dir (n ++ ascii ".log") ::
    contentDetector.map (fun e => pathJoin dir (n ++ ascii "-" ++ e.2 ++ ascii ".log"))

/-- The effect is a file creation. -/
def Effect.isCreate : Effect → Bool
  | Effect.create _ => true
  | _ => false

/-- No name occurs twice and no name ends in `-<label>` for a label of the
table, so that the files of two sessions never meet. -/
def GoodNames (names : List Bytes) : Prop :=
  names.Nodup ∧ ∀ n ∈ names, ∀ e ∈ contentDetector, ¬ (ascii "-" ++ e.2) <:+ n

/-- The files while the sessions of `names` (newest first) have been opened
from an empty world: one creation per session; the file of the open session
comes first, followed by one file for each closed session, at one of the
paths that session can leave it at. -/
def FilesInv (dir : Bytes) (names : List Bytes) (st : State) : Prop :=
  (st.world.trace.filter Effect.isCreate).length = names.length ∧
  match st.writer with
  | none => names = [] ∧ st.world.fs = []
  | some w =>
    ∃ n older c closed, names = n :: older ∧
      w.containerName = n ∧ w.dirName = dir ∧
      w.fileWriter = pathJoin dir (n ++ ascii ".log") ∧
      w.fileWriter ∈ st.world.handles ∧
      (w.detectedType = [] ∨ ∃ e ∈ contentDetector, w.detectedType = e.2) ∧
      st.world.fs = (pathJoin dir (n ++ ascii ".log"), c) :: closed ∧
      closed.length = older.length ∧
      ∀ e ∈ closed, ∃ n1 ∈ older, e.1 ∈ candidates dir n1

/-- The files once the sessions of `names` have all been closed: one creation
and one file per session, at one of the paths the session can leave it at. -/
def ClosedFiles (dir : Bytes) (names : List Bytes) (wd : World) : Prop :=
  (wd.trace.filter Effect.isCreate).length = names.length ∧
  wd.fs.length = names.length ∧
  ∀ e ∈ wd.fs, ∃ n ∈ names, e.1 ∈ candidates dir n

/-- The open output handles after an effect, given those before it. -/
def Effect.onHandles (hs : List Bytes) : Effect → List Bytes
  | Effect.create p => p :: hs
  | Effect.close p => hs.erase p
  | _ => hs

/-- The handles of a state of the loop: none without writer, that of the
writer otherwise. -/
def LoopHandles (st : State) : Prop :=
  (st.writer = none → st.world.handles = []) ∧
  (∀ w, st.writer = some w → st.world.handles = [w.fileWriter])

/-- The output handles open after the effects of a trace: a creation opens a
handle, a close releases the handle of its path. -/
def openHandles (t : List Effect) : List Bytes :=
  t.foldl Effect.onHandles []

/-- The handles of the world are those its trace leaves open, and at no
moment of the trace was more than one handle open. -/
def HandlesOk (wd : World) : Prop :=
  wd.handles = openHandles wd.trace ∧ ∀ t, t <+: wd.trace → (openHandles t).length ≤ 1

/-- The label the table gives a text: that of the first entry, in source
order, whose pattern occurs in the text; empty when there is none. -/
def tableLabel (log : Bytes) : Bytes :=
  match contentDetector.find? (fun e => Contains log e.1) with
  | some e => e.2
  | none => []

/-- The text matches some pattern of the table. -/
def matchesTable (log : Bytes) : Bool := contentDetector.any (fun e => Contains log e.1)

/-- The label after the decoded texts of a session, each of which matches at
most one pattern: a text that matches sets the label of its pattern, a text
that does not keeps the label. -/
def lastLabel : List Bytes → Bytes → Bytes
  | [], old => old
  | log :: logs, old => lastLabel logs (if matchesTable log then tableLabel log else old)

/-- What the handle invariant says of a flow: a running state holds the
handle of its writer only; after a panic no handle is open. -/
def FlowHandles : Flow → Prop
  | Flow.running st => HandlesOk st.world ∧ LoopHandles st
  | Flow.exited wd => HandlesOk wd
  | Flow.panicked st => HandlesOk st.world ∧ st.world.handles = []

/-- The text matches at most one entry of the table. -/
def MatchesOnce (log : Bytes) : Prop :=
  ∀ e ∈ contentDetector, ∀ e1 ∈ contentDetector,
    Contains log e.1 = true → Contains log e1.1 = true → e = e1

/-- The writer of a state agrees with the world: its handle is the path of its
log file, the handle is open and the file exists.  Every state the loop
reaches from a start without writer is of this kind. -/
def Consistent (st : State) : Prop :=
  ∀ w, st.writer = some w →
    w.fileWriter = pathJoin w.dirName (w.containerName ++ ascii ".log") ∧
    w.fileWriter ∈ st.world.handles ∧
    (st.world.fs.content w.fileWriter).isSome = true

section Lemmas

variable (unmarshal : Bytes → Except Bytes Bytes) (create : Bytes → Option Bytes)
  (dir : Bytes)

/-! ## Lemmas on the string functions -/

theorem Split_ne_nil (sep : UInt8) (s : Bytes) : Split sep s ≠ [] := by
  induction s with
  | nil => simp [Split]
  | cons c cs ih =>
    unfold Split
    split
    · simp
    · split <;> simp

theorem Split_cons_sep (sep : UInt8) (s : Bytes) : Split sep (sep :: s) = [] :: Split sep s := by
  simp [Split]

theorem Split_cons_ne (sep c : UInt8) (s : Bytes) (h : c ≠ sep) :
    Split sep (c :: s) = (c :: (Split sep s).headD []) :: (Split sep s).tail := by
  have hne := Split_ne_nil sep s
  rw [Split, if_neg h]
  cases hs : Split sep s with
  | nil => exact absurd hs hne
  | cons seg segs => simp

/-- Splitting `a ++ sep :: b`, where `a` holds no separator, gives `a` and then
the pieces of `b`. -/
theorem Split_append_sep (sep : UInt8) (a b : Bytes) (ha : sep ∉ a) :
    Split sep (a ++ sep :: b) = a :: Split sep b := by
  induction a with
  | nil => simp [Split]
  | cons c cs ih =>
    have hc : c ≠ sep := fun h => ha (by simp [h])
    have hcs : sep ∉ cs := fun h => ha (by simp [h])
    rw [List.cons_append, Split_cons_ne sep c _ hc, ih hcs]
    simp

theorem HasPrefix_append (p s : Bytes) : HasPrefix (p ++ s) p = true := by
  simp [HasPrefix]

theorem TrimPrefix_append (p s : Bytes) : TrimPrefix (p ++ s) p = s := by
  simp [TrimPrefix, HasPrefix]

theorem TrimPrefix_of_HasPrefix (s p : Bytes) (h : HasPrefix s p = true) :
    TrimPrefix s p = s.drop p.length := by
  simp [TrimPrefix, h]

theorem containerFileToken_length : containerFileToken.length = 3 := by decide

theorem Contains_iff (s sub : Bytes) : Contains s sub = true ↔ sub <:+: s := by
  induction s with
  | nil =>
    cases sub <;> simp [Contains]
  | cons c cs ih =>
    rw [Contains, Bool.or_eq_true, ih, List.infix_cons_iff]
    simp [List.isPrefixOf_iff_prefix]


/-! ## Lemmas on the loop -/

theorem scanLines_append (a b : List Bytes) :
    scanLines (a ++ b) = scanLines a ++ scanLines b := by
  simp [scanLines]

theorem scanLines_cons (a : Bytes) (b : List Bytes) :
    scanLines (a :: b) = { err := none, bytes := a } :: scanLines b := by
  simp [scanLines]

theorem mainLoop_append (iter : Nat → Order) (xs ys : List Scanned) (st : State) :
    mainLoop unmarshal create dir iter (xs ++ ys) st =
      (mainLoop unmarshal create dir iter xs st).andThen
        (mainLoop unmarshal create dir (fun n => iter (n + xs.length)) ys) := by
  induction xs generalizing iter st with
  | nil => simp [mainLoop, Flow.andThen]
  | cons x xs ih =>
    simp only [List.cons_append, mainLoop, List.length_cons]
    cases h : loopBody unmarshal create dir (iter 0) x st with
    | running st1 =>
      simp only [List.append_eq]
      rw [ih]
      simp only [Nat.add_assoc]
    | exited wd => simp [Flow.andThen]
    | panicked st1 => simp [Flow.andThen]

theorem Write_empty (order : Order) (w : logWriter) (wd : World) :
    w.Write unmarshal order [] wd = (w, Except.ok wd) := by
  simp [logWriter.Write]

theorem Write_error (order : Order) (w : logWriter) (wd : World) (p err : Bytes)
    (hp : p ≠ []) (hu : unmarshal p = Except.error err) :
    w.Write unmarshal order p wd = (w, Except.error err) := by
  have : p.length ≠ 0 := by simpa using hp
  simp [logWriter.Write, this, hu]

theorem Write_ok (order : Order) (w : logWriter) (wd : World) (p log : Bytes)
    (hp : p ≠ []) (hu : unmarshal p = Except.ok log) :
    w.Write unmarshal order p wd =
      ({ w with count := wrapInt64 (w.count + 1),
                detectedType := detect order log w.detectedType },
       fileWrite w.fileWriter log wd) := by
  have : p.length ≠ 0 := by simpa using hp
  simp [logWriter.Write, this, hu]

theorem fileWrite_open (h data : Bytes) (wd : World) (hh : h ∈ wd.handles) :
    fileWrite h data wd = Except.ok
      { wd with
        fs := wd.fs.append h data
        trace := wd.trace ++ [Effect.write h data] } := by
  simp [fileWrite, hh]

theorem loopBody_empty (order : Order) (w : logWriter) (wd : World) :
    loopBody unmarshal create dir order { err := none, bytes := [] } { writer := some w, world := wd } =
      Flow.running { writer := some w, world := wd } := by
  simp [loopBody, HasPrefix, containerFileToken, ascii, logWriter.Write]

theorem loopBody_error (order : Order) (l err : Bytes) (w : logWriter) (wd : World)
    (hl : HasPrefix l containerFileToken = false) (hne : l ≠ [])
    (hu : unmarshal l = Except.error err) :
    loopBody unmarshal create dir order { err := none, bytes := l } { writer := some w, world := wd } =
      Flow.exited (handleError err wd) := by
  simp [loopBody, hl, Write_error unmarshal order w wd l err hne hu]

theorem loopBody_ok (order : Order) (l log : Bytes) (w : logWriter) (wd : World)
    (hl : HasPrefix l containerFileToken = false) (hne : l ≠ [])
    (hu : unmarshal l = Except.ok log) (hh : w.fileWriter ∈ wd.handles) :
    loopBody unmarshal create dir order { err := none, bytes := l } { writer := some w, world := wd } =
      Flow.running
        { writer := some { w with count := wrapInt64 (w.count + 1),
                                  detectedType := detect order log w.detectedType }
          world := { wd with
            fs := wd.fs.append w.fileWriter log
            trace := wd.trace ++ [Effect.write w.fileWriter log] } } := by
  simp [loopBody, hl, Write_ok unmarshal order w wd l log hne hu, fileWrite_open _ _ _ hh]

theorem loopBody_marker_exit (order : Order) (l : Bytes) (st : State) (wd : World)
    (hl : HasPrefix l containerFileToken = true)
    (hc : closeWriter st.writer st.world = Ret.exit wd) :
    loopBody unmarshal create dir order { err := none, bytes := l } st = Flow.exited wd := by
  simp [loopBody, hl, hc]

theorem loopBody_marker_short (order : Order) (l : Bytes) (st : State) (wd : World)
    (hl : HasPrefix l containerFileToken = true)
    (hc : closeWriter st.writer st.world = Ret.ok wd)
    (hs : (Split 47 (TrimPrefix l containerFileToken))[5]? = none) :
    loopBody unmarshal create dir order { err := none, bytes := l } st =
      Flow.panicked { writer := st.writer, world := wd } := by
  simp [loopBody, hl, hc, hs]

theorem newWriter_ok (name : Bytes) (wd : World)
    (hcr : create (pathJoin dir (name ++ ascii ".log")) = none) :
    newWriter create dir name wd =
      (Except.ok (openWriter dir name wd).1, (openWriter dir name wd).2) := by
  simp [newWriter, openWriter, hcr]

theorem newWriter_error (name err : Bytes) (wd : World)
    (hcr : create (pathJoin dir (name ++ ascii ".log")) = some err) :
    newWriter create dir name wd =
      (Except.error err,
       printOut (ascii "Writing containers/" ++ name ++ ascii ".log ... ") wd) := by
  simp [newWriter, hcr]

theorem loopBody_marker_ok (order : Order) (l name : Bytes) (st : State) (wd : World)
    (hl : HasPrefix l containerFileToken = true)
    (hc : closeWriter st.writer st.world = Ret.ok wd)
    (hs : (Split 47 (TrimPrefix l containerFileToken))[5]? = some name)
    (hcr : create (pathJoin dir (name ++ ascii ".log")) = none) :
    loopBody unmarshal create dir order { err := none, bytes := l } st =
      Flow.running { writer := some (openWriter dir name wd).1, world := (openWriter dir name wd).2 } := by
  simp [loopBody, hl, hc, hs, newWriter_ok create dir name wd hcr]

theorem loopBody_marker_refused (order : Order) (l name err : Bytes) (st : State) (wd : World)
    (hl : HasPrefix l containerFileToken = true)
    (hc : closeWriter st.writer st.world = Ret.ok wd)
    (hs : (Split 47 (TrimPrefix l containerFileToken))[5]? = some name)
    (hcr : create (pathJoin dir (name ++ ascii ".log")) = some err) :
    loopBody unmarshal create dir order { err := none, bytes := l } st =
      Flow.exited (handleError err
        (printOut (ascii "Writing containers/" ++ name ++ ascii ".log ... ") wd)) := by
  simp [loopBody, hl, hc, hs, newWriter_error create dir name err wd hcr]

theorem wrapInt64_of_range (n : Int) (h1 : -(2 ^ 63) ≤ n) (h2 : n < 2 ^ 63) :
    wrapInt64 n = n := by
  unfold wrapInt64
  omega


/-! ## Lemmas on the file system -/

theorem content_cons_self (fs : FS) (p c : Bytes) : FS.content ((p, c) :: fs) p = some c := by
  simp [FS.content]

theorem content_cons_ne (fs : FS) (p q c : Bytes) (h : q ≠ p) :
    FS.content ((q, c) :: fs) p = FS.content fs p := by
  simp [FS.content, h]

theorem content_append (fs : FS) (h data p : Bytes) :
    FS.content (fs.append h data) p =
      (FS.content fs p).map (fun c => if p = h then c ++ data else c) := by
  unfold FS.append
  induction fs with
  | nil => simp [FS.content]
  | cons e es ih =>
    obtain ⟨k, v⟩ := e
    simp only [List.map_cons, FS.content]
    by_cases he : k = h
    · subst he
      by_cases hp : k = p
      · subst hp; simp
      · simp [hp, ih]
    · by_cases hp : k = p
      · subst hp; simp [he]
      · simp [he, hp, ih]

theorem content_filter_ne (fs : FS) (p q : Bytes) (h : p ≠ q) :
    FS.content (fs.filter (fun e => e.1 ≠ q)) p = FS.content fs p := by
  induction fs with
  | nil => simp [FS.content]
  | cons e es ih =>
    obtain ⟨k, v⟩ := e
    by_cases he : k = q
    · subst he
      have hp : ¬ k = p := fun hh => h hh.symm
      simp only [List.filter_cons, ne_eq, not_true_eq_false, decide_False, FS.content, hp,
        if_false]
      simpa using ih
    · simp only [List.filter_cons, ne_eq, he, not_false_eq_true, decide_True, if_true,
        FS.content]
      by_cases hp : k = p
      · simp [hp]
      · simp only [hp, if_false]
        simpa using ih

theorem content_filter_self (fs : FS) (p : Bytes) :
    FS.content (fs.filter (fun e => e.1 ≠ p)) p = none := by
  induction fs with
  | nil => simp [FS.content]
  | cons e es ih =>
    obtain ⟨k, v⟩ := e
    by_cases he : k = p
    · subst he
      simp only [List.filter_cons, ne_eq, not_true_eq_false, decide_False]
      simpa using ih
    · simp only [List.filter_cons, ne_eq, he, not_false_eq_true, decide_True, if_true,
        FS.content, if_false]
      simpa using ih

/-! ## Lemmas on `Close` -/

theorem detectedText_nil : detectedText [] = [] := by simp [detectedText]

theorem detectedText_ne (label : Bytes) (h : label ≠ []) :
    detectedText label = ascii ", detected: " ++ label := by
  have : 0 < label.length := List.length_pos.mpr h
  simp [detectedText, this]

/-- Closing a writer without label: the count line, then the handle. -/
theorem Close_plain (w : logWriter) (wd : World) (hl : w.detectedType = []) :
    w.Close wd = Ret.ok
      { fs := wd.fs
        handles := wd.handles.erase w.fileWriter
        trace := wd.trace ++
          [Effect.stdout (fmtInt w.count ++ ascii " lines" ++ ascii "\n"),
           Effect.close w.fileWriter] } := by
  simp [logWriter.Close, hl, fileClose, printOut, detectedText]

/-- Closing a writer with a label whose log file exists: the count line, the
handle, then the rename. -/
theorem Close_labelled (w : logWriter) (wd : World) (c : Bytes) (hl : w.detectedType ≠ [])
    (hc : wd.fs.content (pathJoin w.dirName (w.containerName ++ ascii ".log")) = some c) :
    w.Close wd = Ret.ok
      { fs := wd.fs.move (pathJoin w.dirName (w.containerName ++ ascii ".log"))
          (pathJoin w.dirName (w.containerName ++ ascii "-" ++ w.detectedType ++ ascii ".log")) c
        handles := wd.handles.erase w.fileWriter
        trace := wd.trace ++
          [Effect.stdout (fmtInt w.count ++ ascii " lines" ++
             (ascii ", detected: " ++ w.detectedType) ++ ascii "\n"),
           Effect.close w.fileWriter,
           Effect.rename (pathJoin w.dirName (w.containerName ++ ascii ".log"))
             (pathJoin w.dirName (w.containerName ++ ascii "-" ++ w.detectedType ++ ascii ".log"))] } := by
  have hpos : 0 < w.detectedType.length := List.length_pos.mpr hl
  simp [logWriter.Close, hpos, fileClose, printOut, detectedText, osRename, hc]

/-! ## Lemmas on the detection of the label -/

/-- Every label of the table is a non-empty string. -/
theorem label_ne_nil (e : Bytes × Bytes) (he : e ∈ contentDetector) : e.2 ≠ [] := by
  have h : ∀ x ∈ contentDetector, x.2 ≠ [] := by decide
  exact h e he

theorem detect_none (order : Order) (log old : Bytes)
    (h : ∀ e ∈ contentDetector, Contains log e.1 = false) : detect order log old = old := by
  unfold detect
  have : order.val.find? (fun e => Contains log e.1) = none := by
    rw [List.find?_eq_none]
    intro x hx
    simp [h x ((order.property.mem_iff).mp hx)]
  rw [this]

theorem detect_some (order : Order) (log old : Bytes)
    (h : ∃ e ∈ contentDetector, Contains log e.1 = true) :
    ∃ e ∈ contentDetector, Contains log e.1 = true ∧ detect order log old = e.2 := by
  obtain ⟨e, he, hc⟩ := h
  unfold detect
  cases hf : order.val.find? (fun e => Contains log e.1) with
  | none =>
    rw [List.find?_eq_none] at hf
    exact absurd hc (hf e ((order.property.mem_iff).mpr he))
  | some x =>
    have hx : Contains log x.1 = true :=
      @List.find?_some _ (fun e : Bytes × Bytes => Contains log e.1) x _ hf
    exact ⟨x, (order.property.mem_iff).mp (List.mem_of_find?_eq_some hf), hx, rfl⟩

theorem matchesTable_iff (log : Bytes) :
    matchesTable log = true ↔ ∃ e ∈ contentDetector, Contains log e.1 = true := by
  simp [matchesTable]

theorem detect_eq_nil_iff (order : Order) (log old : Bytes) :
    detect order log old = [] ↔ old = [] ∧ matchesTable log = false := by
  by_cases hm : matchesTable log = true
  · obtain ⟨e, he, _, hd⟩ := detect_some order log old ((matchesTable_iff log).mp hm)
    rw [hd]
    simp [hm, label_ne_nil e he]
  · have hno : ∀ e ∈ contentDetector, Contains log e.1 = false := by
      intro e he
      by_contra hc
      exact hm ((matchesTable_iff log).mpr ⟨e, he, by simpa using hc⟩)
    rw [detect_none order log old hno]
    simp [hm]

/-! ## The lines of one session -/

theorem FS.append_nil (fs : FS) (h : Bytes) : fs.append h [] = fs := by
  unfold FS.append
  induction fs with
  | nil => rfl
  | cons e es ih =>
    obtain ⟨k, v⟩ := e
    simp only [List.map_cons]
    rw [ih]
    simp

theorem FS.append_append (fs : FS) (h a b : Bytes) :
    (fs.append h a).append h b = fs.append h (a ++ b) := by
  unfold FS.append
  induction fs with
  | nil => rfl
  | cons e es ih =>
    obtain ⟨k, v⟩ := e
    simp only [List.map_cons]
    rw [ih]
    by_cases hk : k = h <;> simp [hk]

theorem FS.append_paths (fs : FS) (h a : Bytes) :
    (fs.append h a).map Prod.fst = fs.map Prod.fst := by
  unfold FS.append
  induction fs with
  | nil => rfl
  | cons e es ih =>
    obtain ⟨k, v⟩ := e
    simp only [List.map_cons]
    rw [ih]
    by_cases hk : k = h <;> simp [hk]

theorem decodedLogs_nil : decodedLogs unmarshal [] = [] := rfl

theorem decodedLogs_cons_empty (ls : List Bytes) :
    decodedLogs unmarshal ([] :: ls) = decodedLogs unmarshal ls := by
  simp [decodedLogs]

theorem decodedLogs_cons_ok (l log : Bytes) (ls : List Bytes) (hne : l ≠ [])
    (hu : unmarshal l = Except.ok log) :
    decodedLogs unmarshal (l :: ls) = log :: decodedLogs unmarshal ls := by
  unfold decodedLogs
  rw [List.filterMap_cons]
  have : l.length ≠ 0 := by simpa using hne
  simp only [this, if_false, hu]

/-- What the loop does on the payload lines of a session that it gets through:
every non-empty line decodes, the decoded texts are written to the handle in
order and nothing else happens; the count grows by their number and the label
is empty exactly when it was empty and no text matched the table. -/
theorem mainLoop_payload (payload : List Bytes) :
    ∀ (iter : Nat → Order) (w : logWriter) (wd : World) (st1 : State),
    (∀ l ∈ payload, HasPrefix l containerFileToken = false) →
    w.fileWriter ∈ wd.handles →
    mainLoop unmarshal create dir iter (scanLines payload) { writer := some w, world := wd } =
      Flow.running st1 →
    (∀ l ∈ payload, l ≠ [] → ∃ log, unmarshal l = Except.ok log) ∧
    ∃ w1, st1.writer = some w1 ∧
      w1.fileWriter = w.fileWriter ∧ w1.containerName = w.containerName ∧
      w1.dirName = w.dirName ∧
      st1.world.handles = wd.handles ∧
      st1.world.fs = wd.fs.append w.fileWriter (decodedLogs unmarshal payload).flatten ∧
      st1.world.trace =
        wd.trace ++ (decodedLogs unmarshal payload).map (Effect.write w.fileWriter) ∧
      (0 ≤ w.count → w.count + (decodedLogs unmarshal payload).length < 2 ^ 63 →
        w1.count = w.count + (decodedLogs unmarshal payload).length) ∧
      (w1.detectedType = [] ↔
        w.detectedType = [] ∧ ∀ log ∈ decodedLogs unmarshal payload, matchesTable log = false) := by
  induction payload with
  | nil =>
    intro iter w wd st1 _ _ hrun
    simp only [scanLines, List.map_nil, mainLoop, Flow.running.injEq] at hrun
    subst hrun
    refine ⟨by simp, w, rfl, rfl, rfl, rfl, rfl, ?_, ?_, ?_, ?_⟩
    · simp [decodedLogs_nil, FS.append_nil]
    · simp [decodedLogs_nil]
    · intro _ _; simp [decodedLogs_nil]
    · simp [decodedLogs_nil]
  | cons l ls ih =>
    intro iter w wd st1 hnm hh hrun
    have hl : HasPrefix l containerFileToken = false := hnm l (by simp)
    have hls : ∀ x ∈ ls, HasPrefix x containerFileToken = false :=
      fun x hx => hnm x (by simp [hx])
    rw [scanLines_cons, mainLoop] at hrun
    by_cases hne : l = []
    · subst hne
      rw [loopBody_empty] at hrun
      simp only [] at hrun
      obtain ⟨hdec, w1, h1, h2, h3, h4, h5, h6, h7, h8, h9⟩ := ih _ w wd st1 hls hh hrun
      refine ⟨?_, w1, h1, h2, h3, h4, h5, ?_, ?_, ?_, ?_⟩
      · intro x hx hxne
        rcases List.mem_cons.mp hx with rfl | hx
        · exact absurd rfl hxne
        · exact hdec x hx hxne
      · rw [decodedLogs_cons_empty]; exact h6
      · rw [decodedLogs_cons_empty]; exact h7
      · rw [decodedLogs_cons_empty]; exact h8
      · rw [decodedLogs_cons_empty]; exact h9
    · cases hu : unmarshal l with
      | error err =>
        rw [loopBody_error unmarshal create dir _ l err w wd hl hne hu] at hrun
        simp at hrun
      | ok log =>
        rw [loopBody_ok unmarshal create dir _ l log w wd hl hne hu hh] at hrun
        simp only [] at hrun
        obtain ⟨hdec, w1, h1, h2, h3, h4, h5, h6, h7, h8, h9⟩ :=
          ih _ _ _ st1 hls (by simpa using hh) hrun
        simp only at h2 h3 h4 h5 h6 h7 h8 h9
        refine ⟨?_, w1, h1, h2, h3, h4, h5, ?_, ?_, ?_, ?_⟩
        · intro x hx hxne
          rcases List.mem_cons.mp hx with rfl | hx
          · exact ⟨log, hu⟩
          · exact hdec x hx hxne
        · rw [decodedLogs_cons_ok unmarshal l log ls hne hu, h6, FS.append_append]
          simp
        · rw [decodedLogs_cons_ok unmarshal l log ls hne hu, h7]
          simp
        · rw [decodedLogs_cons_ok unmarshal l log ls hne hu]
          intro h0 hlt
          simp only [List.length_cons, Nat.cast_add, Nat.cast_one] at hlt ⊢
          have hw : wrapInt64 (w.count + 1) = w.count + 1 :=
            wrapInt64_of_range _ (by omega) (by omega)
          rw [h8 (by rw [hw]; omega) (by rw [hw]; omega), hw]
          omega
        · rw [decodedLogs_cons_ok unmarshal l log ls hne hu, h9, detect_eq_nil_iff]
          simp only [List.mem_cons, forall_eq_or_imp]
          tauto

/-! ## Closing a session -/

/-- A `Close` whose log file exists succeeds, with the effects `closeEffects`;
the file keeps its content, under the labelled name when there is a label. -/
theorem Close_ok (w : logWriter) (wd : World) (c : Bytes)
    (hc : wd.fs.content w.logFile = some c) :
    ∃ wd1, w.Close wd = Ret.ok wd1 ∧
      wd1.trace = wd.trace ++ w.closeEffects ∧
      wd1.handles = wd.handles.erase w.fileWriter ∧
      wd1.fs = (if w.detectedType = [] then wd.fs else wd.fs.move w.logFile w.labelledFile c) := by
  by_cases hl : w.detectedType = []
  · refine ⟨_, Close_plain w wd hl, ?_, rfl, by rw [if_pos hl]⟩
    simp [logWriter.closeEffects, logWriter.countLine, hl, detectedText_nil]
  · refine ⟨_, Close_labelled w wd c hl hc, ?_, rfl, by rw [if_neg hl]; rfl⟩
    simp only [logWriter.closeEffects, logWriter.countLine, hl, detectedText_ne _ hl, if_false,
      logWriter.logFile, logWriter.labelledFile, List.cons_append, List.nil_append]

/-- Whatever the world, `Close` only adds effects, none of them a creation. -/
theorem Close_trace (w : logWriter) (wd : World) :
    ∃ es, (w.Close wd).world.trace = wd.trace ++ es ∧ ∀ p, Effect.create p ∉ es := by
  unfold logWriter.Close
  simp only []
  split
  · split
    · rename_i err _
      refine ⟨[Effect.stdout w.countLine, Effect.close w.fileWriter,
        Effect.stderr (ascii "ERROR: " ++ err ++ ascii "\n")], ?_, by simp⟩
      simp [Ret.world, handleError, fileClose, printOut, logWriter.countLine]
    · rename_i wd3 h3
      unfold osRename at h3
      split at h3
      · simp at h3
      · simp only [Except.ok.injEq] at h3
        subst h3
        refine ⟨[Effect.stdout w.countLine, Effect.close w.fileWriter,
          Effect.rename w.logFile w.labelledFile], ?_, by simp⟩
        simp [Ret.world, fileClose, printOut, logWriter.countLine, logWriter.logFile,
          logWriter.labelledFile]
  · refine ⟨[Effect.stdout w.countLine, Effect.close w.fileWriter], ?_, by simp⟩
    simp [Ret.world, fileClose, printOut, logWriter.countLine]

theorem closeWriter_trace (wr : Option logWriter) (wd : World) :
    ∃ es, (closeWriter wr wd).world.trace = wd.trace ++ es ∧ ∀ p, Effect.create p ∉ es := by
  cases wr with
  | none => exact ⟨[], by simp [closeWriter, Ret.world], by simp⟩
  | some w => exact Close_trace w wd

theorem closeWriter_consistent (st : State) (h : Consistent st) :
    ∃ wd, closeWriter st.writer st.world = Ret.ok wd := by
  cases hw : st.writer with
  | none => exact ⟨_, rfl⟩
  | some w =>
    obtain ⟨h1, _, h3⟩ := h w hw
    obtain ⟨c, hc⟩ := Option.isSome_iff_exists.mp h3
    rw [h1] at hc
    obtain ⟨wd1, hcl, _⟩ := Close_ok w st.world c hc
    exact ⟨wd1, hcl⟩

/-! ## The invariant of the loop -/

theorem Consistent_start (wd : World) : Consistent { writer := none, world := wd } := by
  intro w hw
  simp at hw

theorem newWriter_consistent (name : Bytes) (wd : World) :
    Consistent { writer := some (openWriter dir name wd).1, world := (openWriter dir name wd).2 } := by
  intro w hw
  simp only [Option.some.injEq] at hw
  subst hw
  simp [openWriter, osCreate, printOut, FS.content]

theorem loopBody_consistent (order : Order) (s : Scanned) (st st1 : State)
    (h : Consistent st)
    (hrun : loopBody unmarshal create dir order s st = Flow.running st1) : Consistent st1 := by
  obtain ⟨err, l⟩ := s
  cases err with
  | some e => simp [loopBody] at hrun
  | none =>
    by_cases hm : HasPrefix l containerFileToken = true
    · obtain ⟨wd, hc⟩ := closeWriter_consistent st h
      cases hs : (Split 47 (TrimPrefix l containerFileToken))[5]? with
      | none =>
        rw [loopBody_marker_short unmarshal create dir order l st wd hm hc hs] at hrun
        simp at hrun
      | some name =>
        cases hcr : create (pathJoin dir (name ++ ascii ".log")) with
        | some e =>
          rw [loopBody_marker_refused unmarshal create dir order l name e st wd hm hc hs hcr]
            at hrun
          simp at hrun
        | none =>
          rw [loopBody_marker_ok unmarshal create dir order l name st wd hm hc hs hcr] at hrun
          simp only [Flow.running.injEq] at hrun
          subst hrun
          exact newWriter_consistent dir name wd
    · have hm1 : HasPrefix l containerFileToken = false := by simpa using hm
      obtain ⟨wr, wd⟩ := st
      cases wr with
      | none => simp [loopBody, hm1] at hrun
      | some w =>
        obtain ⟨h1, h2, h3⟩ := h w rfl
        by_cases hne : l = []
        · subst hne
          rw [loopBody_empty] at hrun
          simp only [Flow.running.injEq] at hrun
          subst hrun
          exact h
        · cases hu : unmarshal l with
          | error e =>
            rw [loopBody_error unmarshal create dir order l e w wd hm1 hne hu] at hrun
            simp at hrun
          | ok log =>
            rw [loopBody_ok unmarshal create dir order l log w wd hm1 hne hu h2] at hrun
            simp only [Flow.running.injEq] at hrun
            subst hrun
            intro w1 hw1
            simp only [Option.some.injEq] at hw1
            subst hw1
            refine ⟨h1, h2, ?_⟩
            simp only [content_append]
            simpa using h3

theorem mainLoop_consistent (scans : List Scanned) :
    ∀ (iter : Nat → Order) (st st1 : State), Consistent st →
      mainLoop unmarshal create dir iter scans st = Flow.running st1 → Consistent st1 := by
  induction scans with
  | nil =>
    intro iter st st1 h hrun
    simp only [mainLoop, Flow.running.injEq] at hrun
    subst hrun
    exact h
  | cons s rest ih =>
    intro iter st st1 h hrun
    rw [mainLoop] at hrun
    cases hb : loopBody unmarshal create dir (iter 0) s st with
    | running st2 =>
      rw [hb] at hrun
      exact ih _ st2 st1 (loopBody_consistent unmarshal create dir _ s st st2 h hb) hrun
    | exited wd => rw [hb] at hrun; simp at hrun
    | panicked st2 => rw [hb] at hrun; simp at hrun

/-! ## The trace only grows -/

theorem Flow.andThen_running (f : Flow) (k : State → Flow) (st : State)
    (h : f.andThen k = Flow.running st) : ∃ st1, f = Flow.running st1 ∧ k st1 = Flow.running st := by
  cases f with
  | running st1 => exact ⟨st1, rfl, h⟩
  | exited wd => simp [Flow.andThen] at h
  | panicked st1 => simp [Flow.andThen] at h

theorem loopBody_trace (order : Order) (s : Scanned) (st : State) :
    st.world.trace <+: (loopBody unmarshal create dir order s st).world.trace := by
  obtain ⟨err, l⟩ := s
  cases err with
  | some e => simp [loopBody, Flow.world, handleError]
  | none =>
    by_cases hm : HasPrefix l containerFileToken = true
    · obtain ⟨es, hes, _⟩ := closeWriter_trace st.writer st.world
      cases hc : closeWriter st.writer st.world with
      | exit wd =>
        rw [loopBody_marker_exit unmarshal create dir order l st wd hm hc]
        rw [hc] at hes
        simp only [Ret.world] at hes
        simp [Flow.world, hes]
      | ok wd =>
        rw [hc] at hes
        simp only [Ret.world] at hes
        cases hs : (Split 47 (TrimPrefix l containerFileToken))[5]? with
        | none =>
          rw [loopBody_marker_short unmarshal create dir order l st wd hm hc hs]
          simp [Flow.world, hes]
        | some name =>
          cases hcr : create (pathJoin dir (name ++ ascii ".log")) with
          | some e =>
            rw [loopBody_marker_refused unmarshal create dir order l name e st wd hm hc hs hcr]
            simp only [Flow.world, handleError, printOut, hes, List.append_assoc]
            exact List.prefix_append _ _
          | none =>
            rw [loopBody_marker_ok unmarshal create dir order l name st wd hm hc hs hcr]
            simp only [Flow.world, openWriter, osCreate, printOut, hes, List.append_assoc]
            exact List.prefix_append _ _
    · have hm1 : HasPrefix l containerFileToken = false := by simpa using hm
      obtain ⟨wr, wd⟩ := st
      cases wr with
      | none => simp [loopBody, hm1, Flow.world]
      | some w =>
        by_cases hne : l = []
        · subst hne
          rw [loopBody_empty]
          simp [Flow.world]
        · cases hu : unmarshal l with
          | error e =>
            rw [loopBody_error unmarshal create dir order l e w wd hm1 hne hu]
            simp [Flow.world, handleError]
          | ok log =>
            by_cases hh : w.fileWriter ∈ wd.handles
            · rw [loopBody_ok unmarshal create dir order l log w wd hm1 hne hu hh]
              simp [Flow.world]
            · simp [loopBody, hm1, Write_ok unmarshal order w wd l log hne hu, fileWrite, hh,
                Flow.world, handleError]

theorem mainLoop_trace (scans : List Scanned) :
    ∀ (iter : Nat → Order) (st : State),
      st.world.trace <+: (mainLoop unmarshal create dir iter scans st).world.trace := by
  induction scans with
  | nil => intro iter st; simp [mainLoop, Flow.world]
  | cons s rest ih =>
    intro iter st
    have hb := loopBody_trace unmarshal create dir (iter 0) s st
    rw [mainLoop]
    cases hf : loopBody unmarshal create dir (iter 0) s st with
    | running st1 =>
      rw [hf] at hb
      exact hb.trans (ih _ st1)
    | exited wd => rw [hf] at hb; exact hb
    | panicked st1 => rw [hf] at hb; exact hb

theorem finish_trace (f : Flow) : f.world.trace <+: (finish f).world.trace := by
  have hd : ∀ (st : State) (code : Nat), st.world.trace <+: (deferred st code).world.trace := by
    intro st code
    obtain ⟨es, hes, _⟩ := closeWriter_trace st.writer st.world
    unfold deferred
    cases hc : closeWriter st.writer st.world with
    | ok wd => rw [hc] at hes; simp only [Ret.world] at hes; simp [hes]
    | exit wd => rw [hc] at hes; simp only [Ret.world] at hes; simp [hes]
  cases f with
  | running st => exact hd st 0
  | exited wd => simp [finish, Flow.world]
  | panicked st => exact hd st 2

/-- A run ends with status 0 exactly when the loop gets through all scans and
the deferred close succeeds. -/
theorem finish_code_zero (f : Flow) (h : (finish f).code = 0) :
    ∃ st wd, f = Flow.running st ∧ closeWriter st.writer st.world = Ret.ok wd ∧
      finish f = { world := wd, code := 0 } := by
  cases f with
  | running st =>
    cases hc : closeWriter st.writer st.world with
    | ok wd => exact ⟨st, wd, rfl, hc, by simp [finish, deferred, hc]⟩
    | exit wd => simp [finish, deferred, hc] at h
  | exited wd => simp [finish] at h
  | panicked st =>
    cases hc : closeWriter st.writer st.world with
    | ok wd => simp [finish, deferred, hc] at h
    | exit wd => simp [finish, deferred, hc] at h

/-! ## One session of a run that completes -/

theorem decodedLogs_length (payload : List Bytes)
    (h : ∀ l ∈ payload, l ≠ [] → ∃ log, unmarshal l = Except.ok log) :
    (decodedLogs unmarshal payload).length = (payload.filter (fun l => l ≠ [])).length := by
  induction payload with
  | nil => rfl
  | cons l ls ih =>
    have ih1 := ih (fun x hx => h x (by simp [hx]))
    by_cases hne : l = []
    · subst hne
      rw [decodedLogs_cons_empty]
      simpa using ih1
    · obtain ⟨log, hu⟩ := h l (by simp) hne
      rw [decodedLogs_cons_ok unmarshal l log ls hne hu]
      simp [hne, ih1]

theorem mainLoop_trace_running (scans : List Scanned) (iter : Nat → Order) (st st1 : State)
    (h : mainLoop unmarshal create dir iter scans st = Flow.running st1) :
    st.world.trace <+: st1.world.trace := by
  have := mainLoop_trace unmarshal create dir scans iter st
  rw [h] at this
  exact this

/-- The session opened by the marker `m` in a run that ends with status 0,
where `payload` are the lines up to the next marker or the end of the input:
the states at which the session opens (`st0`) and at which it is closed
(`st`, with writer `w`), what lies between them, and the close itself, whose
effects are part of the trace of the run. -/
theorem session_run (iter : Nat → Order) (pre payload rest : List Bytes) (m : Bytes)
    (wd0 : World)
    (hm : HasPrefix m containerFileToken = true)
    (hpay : ∀ l ∈ payload, HasPrefix l containerFileToken = false)
    (hrest : ∀ l ∈ rest.head?, HasPrefix l containerFileToken = true)
    (hrun : (run unmarshal create dir iter (scanLines (pre ++ m :: payload ++ rest)) wd0).code = 0) :
    ∃ (name : Bytes) (st0 st : State) (w : logWriter) (wd1 : World),
      (Split 47 (m.drop 3))[5]? = some name ∧
      mainLoop unmarshal create dir iter (scanLines (pre ++ [m])) { writer := none, world := wd0 } =
        Flow.running st0 ∧
      st0.writer = some
        { fileWriter := pathJoin dir (name ++ ascii ".log"), count := 0, detectedType := [],
          containerName := name, dirName := dir } ∧
      st0.world.fs.content (pathJoin dir (name ++ ascii ".log")) = some [] ∧
      mainLoop unmarshal create dir iter (scanLines (pre ++ m :: payload))
        { writer := none, world := wd0 } = Flow.running st ∧
      st.writer = some w ∧
      w.fileWriter = pathJoin dir (name ++ ascii ".log") ∧ w.containerName = name ∧
      w.dirName = dir ∧
      (∀ l ∈ payload, l ≠ [] → ∃ log, unmarshal l = Except.ok log) ∧
      st.world.handles = st0.world.handles ∧
      st.world.fs = st0.world.fs.append (pathJoin dir (name ++ ascii ".log"))
        (decodedLogs unmarshal payload).flatten ∧
      st.world.trace = st0.world.trace ++
        (decodedLogs unmarshal payload).map (Effect.write (pathJoin dir (name ++ ascii ".log"))) ∧
      ((decodedLogs unmarshal payload).length < 2 ^ 63 →
        w.count = (decodedLogs unmarshal payload).length) ∧
      (w.detectedType = [] ↔ ∀ log ∈ decodedLogs unmarshal payload, matchesTable log = false) ∧
      w.Close st.world = Ret.ok wd1 ∧
      wd1.trace = st.world.trace ++ w.closeEffects ∧
      wd1.fs = (if w.detectedType = [] then st.world.fs
        else st.world.fs.move w.logFile w.labelledFile (decodedLogs unmarshal payload).flatten) ∧
      wd1.trace <+: (run unmarshal create dir iter (scanLines (pre ++ m :: payload ++ rest)) wd0).world.trace := by
  unfold run at hrun ⊢
  obtain ⟨stE, wdE, hF, hcE, hfin⟩ := finish_code_zero _ hrun
  have hsplit : scanLines (pre ++ m :: payload ++ rest) =
      scanLines pre ++ (scanLines [m] ++ (scanLines payload ++ scanLines rest)) := by
    simp [scanLines]
  rw [hfin]
  rw [hsplit, mainLoop_append] at hF
  obtain ⟨stP, hP, hF⟩ := Flow.andThen_running _ _ _ hF
  rw [mainLoop_append] at hF
  obtain ⟨st0, h0, hF⟩ := Flow.andThen_running _ _ _ hF
  rw [mainLoop_append] at hF
  obtain ⟨st, hS, hR⟩ := Flow.andThen_running _ _ _ hF
  have cP : Consistent stP :=
    mainLoop_consistent unmarshal create dir _ _ _ stP (Consistent_start wd0) hP
  obtain ⟨wdc, hc⟩ := closeWriter_consistent stP cP
  have htrim : TrimPrefix m containerFileToken = m.drop 3 := by
    rw [TrimPrefix_of_HasPrefix m _ hm, containerFileToken_length]
  -- the marker opens the session
  simp only [scanLines, List.map_cons, List.map_nil, mainLoop] at h0
  cases hs : (Split 47 (TrimPrefix m containerFileToken))[5]? with
  | none =>
    rw [loopBody_marker_short unmarshal create dir _ m stP wdc hm hc hs] at h0
    simp at h0
  | some name =>
    have hcr : create (pathJoin dir (name ++ ascii ".log")) = none := by
      cases hcr : create (pathJoin dir (name ++ ascii ".log")) with
      | none => rfl
      | some e =>
        rw [loopBody_marker_refused unmarshal create dir _ m name e stP wdc hm hc hs hcr] at h0
        simp at h0
    rw [loopBody_marker_ok unmarshal create dir _ m name stP wdc hm hc hs hcr] at h0
    simp only [Flow.running.injEq] at h0
    subst h0
    have h0full : mainLoop unmarshal create dir iter (scanLines (pre ++ [m]))
        { writer := none, world := wd0 } = Flow.running
          { writer := some (openWriter dir name wdc).1, world := (openWriter dir name wdc).2 } := by
      rw [scanLines_append, mainLoop_append, hP]
      simp only [Flow.andThen, scanLines, List.map_cons, List.map_nil, mainLoop]
      rw [loopBody_marker_ok unmarshal create dir _ m name stP wdc hm hc hs hcr]
    have hfs0 : (openWriter dir name wdc).2.fs.content (pathJoin dir (name ++ ascii ".log")) =
        some [] := by
      simp [openWriter, osCreate, FS.content]
    have hh0 : (openWriter dir name wdc).1.fileWriter ∈ (openWriter dir name wdc).2.handles := by
      simp [openWriter, osCreate]
    -- the payload
    obtain ⟨hdec, w, hw, hf1, hf2, hf3, hhd, hfs, htr, hcnt, hlab⟩ :=
      mainLoop_payload unmarshal create dir payload _ _ _ st hpay hh0 hS
    have hf1 : w.fileWriter = pathJoin dir (name ++ ascii ".log") := hf1
    have hf2 : w.containerName = name := hf2
    have hf3 : w.dirName = dir := hf3
    have hfs : st.world.fs = (openWriter dir name wdc).2.fs.append
        (pathJoin dir (name ++ ascii ".log")) (decodedLogs unmarshal payload).flatten := hfs
    have htr : st.world.trace = (openWriter dir name wdc).2.trace ++
        (decodedLogs unmarshal payload).map (Effect.write (pathJoin dir (name ++ ascii ".log"))) :=
      htr
    have hSfull : mainLoop unmarshal create dir iter (scanLines (pre ++ m :: payload))
        { writer := none, world := wd0 } = Flow.running st := by
      have : scanLines (pre ++ m :: payload) =
          scanLines pre ++ (scanLines [m] ++ scanLines payload) := by simp [scanLines]
      rw [this, mainLoop_append, hP]
      simp only [Flow.andThen]
      rw [mainLoop_append]
      simp only [scanLines, List.map_cons, List.map_nil, mainLoop]
      rw [loopBody_marker_ok unmarshal create dir _ m name stP wdc hm hc hs hcr]
      simp only [Flow.andThen]
      exact hS
    -- the close
    have hcont : st.world.fs.content w.logFile = some (decodedLogs unmarshal payload).flatten := by
      rw [logWriter.logFile, hf3, hf2, hfs, content_append, hfs0]
      simp
    obtain ⟨wd1, hcl, hcl1, _, hcl3⟩ := Close_ok w st.world _ hcont
    have hpre : wd1.trace <+: wdE.trace := by
      cases rest with
      | nil =>
        simp only [scanLines, List.map_nil, mainLoop, Flow.running.injEq] at hR
        subst hR
        rw [hw] at hcE
        simp only [closeWriter] at hcE
        rw [hcl] at hcE
        simp only [Ret.ok.injEq] at hcE
        subst hcE
        exact List.prefix_refl _
      | cons m1 rest1 =>
        have hm1 : HasPrefix m1 containerFileToken = true := hrest m1 (by simp)
        have hcw : closeWriter st.writer st.world = Ret.ok wd1 := by
          rw [hw]; exact hcl
        simp only [scanLines, List.map_cons, mainLoop] at hR
        cases hs1 : (Split 47 (TrimPrefix m1 containerFileToken))[5]? with
        | none =>
          rw [loopBody_marker_short unmarshal create dir _ m1 st wd1 hm1 hcw hs1] at hR
          simp at hR
        | some name1 =>
          have hcr1 : create (pathJoin dir (name1 ++ ascii ".log")) = none := by
            cases hcr1 : create (pathJoin dir (name1 ++ ascii ".log")) with
            | none => rfl
            | some e =>
              rw [loopBody_marker_refused unmarshal create dir _ m1 name1 e st wd1 hm1 hcw hs1
                hcr1] at hR
              simp at hR
          rw [loopBody_marker_ok unmarshal create dir _ m1 name1 st wd1 hm1 hcw hs1 hcr1] at hR
          simp only at hR
          have h1 := mainLoop_trace_running unmarshal create dir _ _ _ _ hR
          simp only at h1
          have h2 : wd1.trace <+: (openWriter dir name1 wd1).2.trace := by
            simp only [openWriter, osCreate, printOut, List.append_assoc]
            exact List.prefix_append _ _
          obtain ⟨es, hes, _⟩ := closeWriter_trace stE.writer stE.world
          rw [hcE] at hes
          simp only [Ret.world] at hes
          exact (h2.trans h1).trans (by rw [hes]; exact List.prefix_append _ _)
    refine ⟨name, _, st, w, wd1, ?_, h0full, rfl, hfs0, hSfull, hw, hf1, hf2, hf3, hdec, hhd,
      hfs, htr, ?_, ?_, hcl, hcl1, hcl3, hpre⟩
    · rw [← htrim]; exact hs
    · intro hlt
      have hz : (openWriter dir name wdc).1.count = 0 := rfl
      rw [hz] at hcnt
      have := hcnt (le_refl _) (by omega)
      omega
    · have hz : (openWriter dir name wdc).1.detectedType = [] := rfl
      rw [hz] at hlab
      simpa using hlab

/-! ## Lemmas for the claims -/

theorem detect_unique (order : Order) (log old label : Bytes)
    (h1 : ∃ e ∈ contentDetector, Contains log e.1 = true)
    (h2 : ∀ e ∈ contentDetector, Contains log e.1 = true → e.2 = label) :
    detect order log old = label := by
  obtain ⟨e, he, hc, hd⟩ := detect_some order log old h1
  rw [hd]
  exact h2 e he hc

theorem logFile_ne_labelledFile (d n l : Bytes) :
    pathJoin d (n ++ ascii ".log") ≠ pathJoin d (n ++ ascii "-" ++ l ++ ascii ".log") := by
  intro h
  have := congrArg List.length h
  simp [pathJoin, ascii] at this

theorem content_move_new (fs : FS) (old new c : Bytes) :
    FS.content (fs.move old new c) new = some c := by
  simp [FS.move, FS.content]

theorem content_filter_and (fs : FS) (p q : Bytes) :
    FS.content (fs.filter (fun e => e.1 ≠ p ∧ e.1 ≠ q)) p = none := by
  induction fs with
  | nil => simp [FS.content]
  | cons e es ih =>
    obtain ⟨k, v⟩ := e
    by_cases he : k = p
    · subst he
      simp only [List.filter_cons, ne_eq, not_true_eq_false, false_and, decide_False]
      simpa using ih
    · by_cases hq : k = q
      · subst hq
        simp only [List.filter_cons, ne_eq, not_true_eq_false, and_false, decide_False]
        simpa using ih
      · simp only [List.filter_cons, ne_eq, he, not_false_eq_true, hq, and_self, decide_True,
          if_true, FS.content, if_false]
        simpa using ih

theorem content_move_old (fs : FS) (old new c : Bytes) (h : old ≠ new) :
    FS.content (fs.move old new c) old = none := by
  unfold FS.move
  rw [content_cons_ne _ _ _ _ (Ne.symm h)]
  exact content_filter_and fs old new

/-! ## The files of distinct sessions do not meet -/

/-- No label of the table ends in `-<label>` for a label of the table. -/
theorem label_no_suffix :
    ∀ e ∈ contentDetector, ∀ e1 ∈ contentDetector, ¬ (ascii "-" ++ e.2) <:+ e1.2 := by
  decide

theorem pathJoin_log_inj (a b : Bytes)
    (h : pathJoin dir (a ++ ascii ".log") = pathJoin dir (b ++ ascii ".log")) : a = b := by
  unfold pathJoin at h
  exact List.append_cancel_right (List.append_cancel_left h)

/-- Two names that do not end in `-<label>` and differ have no candidate path
in common. -/
theorem candidates_disjoint (n n1 : Bytes) (hne : n ≠ n1)
    (hn : ∀ e ∈ contentDetector, ¬ (ascii "-" ++ e.2) <:+ n)
    (hn1 : ∀ e ∈ contentDetector, ¬ (ascii "-" ++ e.2) <:+ n1) :
    ∀ p ∈ candidates dir n, p ∉ candidates dir n1 := by
  have key : ∀ (a b : Bytes) (e e1 : Bytes × Bytes), e ∈ contentDetector →
      e1 ∈ contentDetector → a ++ ascii "-" ++ e.2 = b ++ ascii "-" ++ e1.2 → a = b := by
    intro a b e e1 he he1 h
    rw [List.append_assoc, List.append_assoc, List.append_eq_append_iff] at h
    rcases h with ⟨c, hb, hc⟩ | ⟨c, ha, hc⟩
    · cases c with
      | nil => simpa using hb.symm
      | cons x xs =>
        exfalso
        have hx : ascii "-" ++ e.2 = x :: (xs ++ (ascii "-" ++ e1.2)) := by simpa using hc
        have hd : ascii "-" = [45] := by decide
        rw [hd] at hx
        simp only [List.singleton_append, List.cons.injEq] at hx
        refine label_no_suffix e1 he1 e he ?_
        rw [hx.2, hd]
        exact List.suffix_append _ _
    · cases c with
      | nil => simpa using ha
      | cons x xs =>
        exfalso
        have hx : ascii "-" ++ e1.2 = x :: (xs ++ (ascii "-" ++ e.2)) := by simpa using hc
        have hd : ascii "-" = [45] := by decide
        rw [hd] at hx
        simp only [List.singleton_append, List.cons.injEq] at hx
        refine label_no_suffix e he e1 he1 ?_
        rw [hx.2, hd]
        exact List.suffix_append _ _
  intro p hp hp1
  simp only [candidates, List.mem_cons, List.mem_map] at hp hp1
  rcases hp with rfl | ⟨e, he, rfl⟩
  · rcases hp1 with h | ⟨e1, he1, h⟩
    · exact hne (pathJoin_log_inj dir _ _ h)
    · have h2 := pathJoin_log_inj dir _ _ h.symm
      refine hn e1 he1 ?_
      rw [h2, List.append_assoc]
      exact List.suffix_append _ _
  · rcases hp1 with h | ⟨e1, he1, h⟩
    · have h2 := pathJoin_log_inj dir _ _ h.symm
      refine hn1 e he ?_
      rw [h2, List.append_assoc]
      exact List.suffix_append _ _
    · have h2 := pathJoin_log_inj dir _ _ h
      exact hne (key n1 n e1 e he1 he h2).symm

theorem GoodNames_sublist (l1 l2 : List Bytes) (hs : l1.Sublist l2) (h : GoodNames l2) :
    GoodNames l1 :=
  ⟨h.1.sublist hs, fun n hn => h.2 n (hs.subset hn)⟩

theorem mem_candidates_log (n : Bytes) : pathJoin dir (n ++ ascii ".log") ∈ candidates dir n := by
  simp [candidates]

theorem mem_candidates_label (n : Bytes) (e : Bytes × Bytes) (he : e ∈ contentDetector) :
    pathJoin dir (n ++ ascii "-" ++ e.2 ++ ascii ".log") ∈ candidates dir n := by
  unfold candidates
  exact List.mem_cons_of_mem _ (List.mem_map.mpr ⟨e, he, rfl⟩)

/-- The files of closed sessions are not touched by a session of a new name. -/
theorem closed_ne_candidate (names : List Bytes) (n p : Bytes) (fs : FS)
    (hgood : GoodNames (n :: names)) (hp : p ∈ candidates dir n)
    (hfs : ∀ e ∈ fs, ∃ n1 ∈ names, e.1 ∈ candidates dir n1) :
    ∀ e ∈ fs, e.1 ≠ p := by
  intro e he heq
  obtain ⟨n1, hn1, hc⟩ := hfs e he
  have hne : n ≠ n1 := by
    intro h
    subst h
    exact (List.nodup_cons.mp hgood.1).1 hn1
  refine candidates_disjoint dir n n1 hne (hgood.2 n (by simp)) (hgood.2 n1 (by simp [hn1])) p hp ?_
  rw [← heq]
  exact hc

theorem filter_isCreate_closeEffects (w : logWriter) :
    w.closeEffects.filter Effect.isCreate = [] := by
  by_cases hl : w.detectedType = [] <;>
    simp [logWriter.closeEffects, hl, Effect.isCreate]

/-- Closing the open session keeps one file per session. -/
theorem close_files (names : List Bytes) (st : State)
    (hinv : FilesInv dir names st) (hgood : GoodNames names) :
    ∃ wd, closeWriter st.writer st.world = Ret.ok wd ∧ ClosedFiles dir names wd := by
  obtain ⟨wr, wd0⟩ := st
  obtain ⟨htr, hw⟩ := hinv
  cases wr with
  | none =>
    obtain ⟨hn, hfs⟩ := hw
    refine ⟨wd0, rfl, htr, ?_, ?_⟩
    · simp only at hfs; rw [hfs, hn]; rfl
    · simp only at hfs; rw [hfs]; simp
  | some w =>
    obtain ⟨n, older, c, closed, hn, hwn, hwd, hwf, _, hlab, hfs, hlen, hkeys⟩ := hw
    simp only at hfs htr
    subst hn
    have hlog : w.logFile = pathJoin dir (n ++ ascii ".log") := by
      rw [logWriter.logFile, hwn, hwd]
    have hcont : wd0.fs.content w.logFile = some c := by
      rw [hlog, hfs]
      exact content_cons_self _ _ _
    obtain ⟨wd1, hcl, htr1, _, hfs1⟩ := Close_ok w wd0 c hcont
    refine ⟨wd1, hcl, ?_, ?_⟩
    · rw [htr1, List.filter_append, filter_isCreate_closeEffects]
      simpa using htr
    · by_cases hl : w.detectedType = []
      · rw [if_pos hl] at hfs1
        rw [hfs1, hfs]
        refine ⟨by simp [hlen], ?_⟩
        intro e he
        rcases List.mem_cons.mp he with rfl | he
        · exact ⟨n, by simp, mem_candidates_log dir n⟩
        · obtain ⟨n1, hn1, hc⟩ := hkeys e he
          exact ⟨n1, by simp [hn1], hc⟩
      · rw [if_neg hl] at hfs1
        obtain ⟨e0, he0, hlabel⟩ := hlab.resolve_left hl
        have hnew : w.labelledFile = pathJoin dir (n ++ ascii "-" ++ e0.2 ++ ascii ".log") := by
          rw [logWriter.labelledFile, hwn, hwd, hlabel]
        have hclosed : closed.filter
            (fun x => x.1 ≠ w.logFile ∧ x.1 ≠ w.labelledFile) = closed := by
          rw [List.filter_eq_self]
          intro x hx
          have h1 := closed_ne_candidate dir older n _ closed hgood (mem_candidates_log dir n)
            hkeys x hx
          have h2 := closed_ne_candidate dir older n _ closed hgood
            (mem_candidates_label dir n e0 he0) hkeys x hx
          rw [hlog, hnew]
          exact decide_eq_true ⟨h1, h2⟩
        have hmove : wd0.fs.move w.logFile w.labelledFile c = (w.labelledFile, c) :: closed := by
          rw [hfs, FS.move, List.filter_cons]
          have : ¬ ((pathJoin dir (n ++ ascii ".log"), c).1 ≠ w.logFile ∧
              (pathJoin dir (n ++ ascii ".log"), c).1 ≠ w.labelledFile) := by
            rw [hlog]; simp
          simp only [this, decide_False, Bool.false_eq_true, if_false]
          rw [hclosed]
        rw [hfs1, hmove]
        refine ⟨by simp [hlen], ?_⟩
        intro e he
        rcases List.mem_cons.mp he with rfl | he
        · exact ⟨n, by simp, by rw [hnew]; exact mem_candidates_label dir n e0 he0⟩
        · obtain ⟨n1, hn1, hc⟩ := hkeys e he
          exact ⟨n1, by simp [hn1], hc⟩

/-- Opening the session of a new name adds one file. -/
theorem open_files (names : List Bytes) (n : Bytes) (wd : World)
    (hcl : ClosedFiles dir names wd) (hgood : GoodNames (n :: names)) :
    FilesInv dir (n :: names)
      { writer := some (openWriter dir n wd).1, world := (openWriter dir n wd).2 } := by
  obtain ⟨htr, hlen, hkeys⟩ := hcl
  have hfilter : wd.fs.filter (fun e => e.1 ≠ pathJoin dir (n ++ ascii ".log")) = wd.fs := by
    rw [List.filter_eq_self]
    intro x hx
    simpa using closed_ne_candidate dir names n _ wd.fs hgood (mem_candidates_log dir n) hkeys x hx
  refine ⟨?_, ?_⟩
  · simp [openWriter, osCreate, printOut, List.filter_append, Effect.isCreate, htr]
  · refine ⟨n, names, [], wd.fs, rfl, rfl, rfl, rfl, ?_, Or.inl rfl, ?_, hlen, hkeys⟩
    · simp [openWriter, osCreate]
    · simp only [openWriter, osCreate, printOut]
      rw [hfilter]

/-- Writing a decoded text keeps the files of the sessions in place. -/
theorem write_files (names : List Bytes) (order : Order) (w : logWriter) (wd : World)
    (log : Bytes) (hinv : FilesInv dir names { writer := some w, world := wd }) :
    FilesInv dir names
      { writer := some { w with count := wrapInt64 (w.count + 1),
                                detectedType := detect order log w.detectedType }
        world := { wd with fs := wd.fs.append w.fileWriter log,
                           trace := wd.trace ++ [Effect.write w.fileWriter log] } } := by
  obtain ⟨htr, n, older, c, closed, hn, hwn, hwd, hwf, hh, hlab, hfs, hlen, hkeys⟩ := hinv
  simp only at htr hfs hh
  refine ⟨?_, n, older, c ++ log, FS.append closed w.fileWriter log, hn, hwn, hwd, hwf, hh, ?_, ?_,
    ?_, ?_⟩
  · simp [List.filter_append, Effect.isCreate, htr]
  · by_cases hm : matchesTable log = true
    · obtain ⟨e, he, _, hd⟩ := detect_some order log w.detectedType ((matchesTable_iff log).mp hm)
      exact Or.inr ⟨e, he, hd⟩
    · have hd : detect order log w.detectedType = w.detectedType := by
        refine detect_none order log _ ?_
        intro e he
        by_contra hc
        exact hm ((matchesTable_iff log).mpr ⟨e, he, by simpa using hc⟩)
      simp only [hd]
      exact hlab
  · simp only [hfs, FS.append, List.map_cons, hwf, if_true]
  · simp [FS.append, hlen]
  · intro e he
    simp only [FS.append, List.mem_map] at he
    obtain ⟨x, hx, rfl⟩ := he
    obtain ⟨n1, hn1, hc⟩ := hkeys x hx
    refine ⟨n1, hn1, ?_⟩
    by_cases hk : x.1 = w.fileWriter <;> simpa [hk] using hc

theorem markerNames_cons_marker (l n : Bytes) (ls : List Bytes)
    (hm : HasPrefix l containerFileToken = true)
    (hs : (Split 47 (TrimPrefix l containerFileToken))[5]? = some n) :
    markerNames (l :: ls) = n :: markerNames ls := by
  unfold markerNames
  rw [List.filterMap_cons]
  simp only [hm, if_true, hs]

theorem markerNames_cons_payload (l : Bytes) (ls : List Bytes)
    (hm : HasPrefix l containerFileToken = false) :
    markerNames (l :: ls) = markerNames ls := by
  unfold markerNames
  rw [List.filterMap_cons]
  simp [hm]

theorem markerNames_length (lines : List Bytes)
    (hseg : ∀ l ∈ lines, HasPrefix l containerFileToken = true →
      6 ≤ (Split 47 (l.drop 3)).length) :
    (markerNames lines).length = (lines.filter (fun l => HasPrefix l containerFileToken)).length := by
  induction lines with
  | nil => rfl
  | cons l ls ih =>
    have ih1 := ih (fun x hx => hseg x (by simp [hx]))
    by_cases hm : HasPrefix l containerFileToken = true
    · have h6 := hseg l (by simp) hm
      have htrim : TrimPrefix l containerFileToken = l.drop 3 := by
        rw [TrimPrefix_of_HasPrefix l _ hm, containerFileToken_length]
      have hs : (Split 47 (TrimPrefix l containerFileToken))[5]? =
          some ((Split 47 (l.drop 3))[5]) := by
        rw [htrim]
        exact List.getElem?_eq_getElem (by omega)
      rw [markerNames_cons_marker l _ ls hm hs]
      simp [hm, ih1]
    · have hm1 : HasPrefix l containerFileToken = false := by simpa using hm
      rw [markerNames_cons_payload l ls hm1]
      simp [hm1, ih1]

/-- On a valid input whose names are good the loop gets through every line
and keeps one file per session. -/
theorem files_loop (lines : List Bytes) :
    ∀ (iter : Nat → Order) (st : State) (names : List Bytes),
      FilesInv dir names st →
      (st.writer = none → ∀ l ∈ lines.head?, HasPrefix l containerFileToken = true) →
      (∀ l ∈ lines, HasPrefix l containerFileToken = true → 6 ≤ (Split 47 (l.drop 3)).length) →
      (∀ l ∈ lines, HasPrefix l containerFileToken = false → l ≠ [] →
        ∃ log, unmarshal l = Except.ok log) →
      (∀ n ∈ markerNames lines, create (pathJoin dir (n ++ ascii ".log")) = none) →
      GoodNames ((markerNames lines).reverse ++ names) →
      ∃ st1, mainLoop unmarshal create dir iter (scanLines lines) st = Flow.running st1 ∧
        FilesInv dir ((markerNames lines).reverse ++ names) st1 := by
  induction lines with
  | nil =>
    intro iter st names hinv _ _ _ _ _
    exact ⟨st, rfl, by simpa [markerNames] using hinv⟩
  | cons l ls ih =>
    intro iter st names hinv hfirst hseg hdec hcre hgood
    have hseg1 : ∀ x ∈ ls, HasPrefix x containerFileToken = true →
        6 ≤ (Split 47 (x.drop 3)).length := fun x hx => hseg x (by simp [hx])
    have hdec1 : ∀ x ∈ ls, HasPrefix x containerFileToken = false → x ≠ [] →
        ∃ log, unmarshal x = Except.ok log := fun x hx => hdec x (by simp [hx])
    rw [scanLines_cons, mainLoop]
    by_cases hm : HasPrefix l containerFileToken = true
    · have h6 := hseg l (by simp) hm
      have htrim : TrimPrefix l containerFileToken = l.drop 3 := by
        rw [TrimPrefix_of_HasPrefix l _ hm, containerFileToken_length]
      have hs : (Split 47 (TrimPrefix l containerFileToken))[5]? =
          some ((Split 47 (l.drop 3))[5]) := by
        rw [htrim]
        exact List.getElem?_eq_getElem (by omega)
      rw [markerNames_cons_marker l _ ls hm hs] at hgood hcre ⊢
      have hcr : create (pathJoin dir ((Split 47 (l.drop 3))[5] ++ ascii ".log")) = none :=
        hcre _ (by simp)
      have hcre1 : ∀ n ∈ markerNames ls, create (pathJoin dir (n ++ ascii ".log")) = none :=
        fun n hn => hcre n (by simp [hn])
      have hre : ((Split 47 (l.drop 3))[5] :: markerNames ls).reverse ++ names =
          (markerNames ls).reverse ++ ((Split 47 (l.drop 3))[5] :: names) := by simp
      rw [hre] at hgood ⊢
      have hgood1 : GoodNames ((Split 47 (l.drop 3))[5] :: names) :=
        GoodNames_sublist _ _ (List.sublist_append_right _ _) hgood
      have hgood0 : GoodNames names :=
        GoodNames_sublist _ _ (List.sublist_cons_self _ _) hgood1
      obtain ⟨wd, hc, hcl⟩ := close_files dir names st hinv hgood0
      rw [loopBody_marker_ok unmarshal create dir _ l _ st wd hm hc hs hcr]
      exact ih _ _ _ (open_files dir names _ wd hcl hgood1) (by simp) hseg1 hdec1 hcre1 hgood
    · have hm1 : HasPrefix l containerFileToken = false := by simpa using hm
      rw [markerNames_cons_payload l ls hm1] at hgood hcre ⊢
      obtain ⟨wr, wd⟩ := st
      cases wr with
      | none =>
        have := hfirst rfl l (by simp)
        rw [hm1] at this
        exact absurd this (by decide)
      | some w =>
        have hh : w.fileWriter ∈ wd.handles := by
          obtain ⟨_, n, older, c, closed, _, _, _, _, hh, _⟩ := hinv
          exact hh
        by_cases hne : l = []
        · subst hne
          rw [loopBody_empty]
          exact ih _ _ _ hinv (by simp) hseg1 hdec1 hcre hgood
        · obtain ⟨log, hu⟩ := hdec l (by simp) hm1 hne
          rw [loopBody_ok unmarshal create dir _ l log w wd hm1 hne hu hh]
          exact ih _ _ _ (write_files dir names _ w wd log hinv) (by simp) hseg1 hdec1 hcre hgood

/-! ## At most one open handle -/

theorem openHandles_concat (t : List Effect) (e : Effect) :
    openHandles (t ++ [e]) = Effect.onHandles (openHandles t) e := by
  simp [openHandles, List.foldl_append]

theorem HandlesOk_empty : HandlesOk World.empty :=
  ⟨rfl, fun t ht => by
    have : t = [] := List.prefix_nil.mp ht
    subst this
    simp [openHandles]⟩

/-- One more effect keeps the handles in step with the trace, as long as it
leaves at most one handle open. -/
theorem HandlesOk_concat (wd : World) (e : Effect) (fs : FS) (h : HandlesOk wd)
    (hlen : (Effect.onHandles wd.handles e).length ≤ 1) :
    HandlesOk { fs := fs, handles := Effect.onHandles wd.handles e, trace := wd.trace ++ [e] } := by
  obtain ⟨h1, h2⟩ := h
  refine ⟨?_, ?_⟩
  · simp only [openHandles_concat, ← h1]
  · intro t ht
    rcases List.prefix_concat_iff.mp ht with rfl | ht
    · rw [openHandles_concat, ← h1]
      exact hlen
    · exact h2 t ht

theorem HandlesOk_length (wd : World) (h : HandlesOk wd) : wd.handles.length ≤ 1 := by
  rw [h.1]
  exact h.2 _ (List.prefix_refl _)

theorem HandlesOk_handleError (wd : World) (err : Bytes) (h : HandlesOk wd) :
    HandlesOk (handleError err wd) :=
  HandlesOk_concat wd (Effect.stderr _) wd.fs h (HandlesOk_length wd h)

theorem HandlesOk_printOut (wd : World) (s : Bytes) (h : HandlesOk wd) :
    HandlesOk (printOut s wd) :=
  HandlesOk_concat wd (Effect.stdout _) wd.fs h (HandlesOk_length wd h)

theorem HandlesOk_fileClose (wd : World) (p : Bytes) (h : HandlesOk wd) :
    HandlesOk (fileClose p wd) :=
  HandlesOk_concat wd (Effect.close p) wd.fs h
    ((List.length_erase_le _ _).trans (HandlesOk_length wd h))

/-- `Close` keeps the handles in step and releases the handle of the writer. -/
theorem Close_handles (w : logWriter) (wd : World) (h : HandlesOk wd) :
    HandlesOk (w.Close wd).world ∧ (w.Close wd).world.handles = wd.handles.erase w.fileWriter := by
  have h2 := HandlesOk_fileClose _ w.fileWriter (HandlesOk_printOut wd w.countLine h)
  unfold logWriter.Close
  simp only []
  split
  · split
    · exact ⟨HandlesOk_handleError _ _ h2, rfl⟩
    · rename_i wd3 h3
      unfold osRename at h3
      split at h3
      · simp at h3
      · rename_i c hc
        simp only [Except.ok.injEq] at h3
        subst h3
        exact ⟨HandlesOk_concat _ (Effect.rename _ _) _ h2 (HandlesOk_length _ h2), rfl⟩
  · exact ⟨h2, rfl⟩

theorem closeWriter_handles (st : State) (h : HandlesOk st.world) (hl : LoopHandles st) :
    HandlesOk (closeWriter st.writer st.world).world ∧
      (closeWriter st.writer st.world).world.handles = [] := by
  cases hw : st.writer with
  | none => exact ⟨h, hl.1 hw⟩
  | some w =>
    obtain ⟨h1, h2⟩ := Close_handles w st.world h
    refine ⟨h1, ?_⟩
    simp only [closeWriter]
    rw [h2, hl.2 w hw]
    simp

theorem newWriter_handles (name : Bytes) (wd : World) (h : HandlesOk wd) (h0 : wd.handles = []) :
    HandlesOk (openWriter dir name wd).2 ∧
      (openWriter dir name wd).2.handles = [(openWriter dir name wd).1.fileWriter] := by
  have h1 := HandlesOk_printOut wd (ascii "Writing containers/" ++ name ++ ascii ".log ... ") h
  have h2 := HandlesOk_concat _ (Effect.create (pathJoin dir (name ++ ascii ".log")))
    ((pathJoin dir (name ++ ascii ".log"), []) ::
      wd.fs.filter (fun e => e.1 ≠ pathJoin dir (name ++ ascii ".log"))) h1
    (by simp [Effect.onHandles, printOut, h0])
  refine ⟨h2, ?_⟩
  simp [openWriter, osCreate, printOut, h0]

theorem loopBody_handles (order : Order) (s : Scanned) (st : State)
    (h : HandlesOk st.world) (hl : LoopHandles st) :
    FlowHandles (loopBody unmarshal create dir order s st) := by
  obtain ⟨err, l⟩ := s
  cases err with
  | some e =>
    simp only [loopBody, FlowHandles]
    exact HandlesOk_handleError _ _ h
  | none =>
    by_cases hm : HasPrefix l containerFileToken = true
    · obtain ⟨hc1, hc2⟩ := closeWriter_handles st h hl
      cases hc : closeWriter st.writer st.world with
      | exit wd =>
        rw [loopBody_marker_exit unmarshal create dir order l st wd hm hc]
        rw [hc] at hc1
        exact hc1
      | ok wd =>
        rw [hc] at hc1 hc2
        simp only [Ret.world] at hc1 hc2
        cases hs : (Split 47 (TrimPrefix l containerFileToken))[5]? with
        | none =>
          rw [loopBody_marker_short unmarshal create dir order l st wd hm hc hs]
          exact ⟨hc1, hc2⟩
        | some name =>
          cases hcr : create (pathJoin dir (name ++ ascii ".log")) with
          | some e =>
            rw [loopBody_marker_refused unmarshal create dir order l name e st wd hm hc hs hcr]
            exact HandlesOk_handleError _ _ (HandlesOk_printOut wd _ hc1)
          | none =>
            rw [loopBody_marker_ok unmarshal create dir order l name st wd hm hc hs hcr]
            obtain ⟨hn1, hn2⟩ := newWriter_handles dir name wd hc1 hc2
            refine ⟨hn1, ?_, ?_⟩
            · intro hw; simp at hw
            · intro w hw
              simp only [Option.some.injEq] at hw
              subst hw
              exact hn2
    · have hm1 : HasPrefix l containerFileToken = false := by simpa using hm
      obtain ⟨wr, wd⟩ := st
      cases wr with
      | none =>
        simp only [loopBody, hm1, FlowHandles]
        exact ⟨h, hl.1 rfl⟩
      | some w =>
        have hh : wd.handles = [w.fileWriter] := hl.2 w rfl
        by_cases hne : l = []
        · subst hne
          rw [loopBody_empty]
          exact ⟨h, hl⟩
        · cases hu : unmarshal l with
          | error e =>
            rw [loopBody_error unmarshal create dir order l e w wd hm1 hne hu]
            exact HandlesOk_handleError _ _ h
          | ok log =>
            rw [loopBody_ok unmarshal create dir order l log w wd hm1 hne hu (by simp [hh])]
            refine ⟨?_, ?_, ?_⟩
            · exact HandlesOk_concat wd (Effect.write w.fileWriter log) _ h
                (HandlesOk_length wd h)
            · intro hw; simp at hw
            · intro w1 hw1
              simp only [Option.some.injEq] at hw1
              subst hw1
              exact hh

theorem mainLoop_handles (scans : List Scanned) :
    ∀ (iter : Nat → Order) (st : State), HandlesOk st.world → LoopHandles st →
      FlowHandles (mainLoop unmarshal create dir iter scans st) := by
  induction scans with
  | nil => intro iter st h hl; exact ⟨h, hl⟩
  | cons s rest ih =>
    intro iter st h hl
    have hb := loopBody_handles unmarshal create dir (iter 0) s st h hl
    rw [mainLoop]
    cases hf : loopBody unmarshal create dir (iter 0) s st with
    | running st1 =>
      rw [hf] at hb
      exact ih _ st1 hb.1 hb.2
    | exited wd => rw [hf] at hb; exact hb
    | panicked st1 => rw [hf] at hb; exact hb

theorem finish_handles (f : Flow) (h : FlowHandles f) :
    HandlesOk (finish f).world ∧ ((finish f).code ≠ 1 → (finish f).world.handles = []) := by
  cases f with
  | running st =>
    obtain ⟨h1, h2⟩ := closeWriter_handles st h.1 h.2
    simp only [finish, deferred]
    cases hc : closeWriter st.writer st.world with
    | ok wd => rw [hc] at h1 h2; exact ⟨h1, fun _ => h2⟩
    | exit wd => rw [hc] at h1; exact ⟨h1, fun hcode => absurd rfl hcode⟩
  | exited wd => exact ⟨h, fun hcode => absurd rfl hcode⟩
  | panicked st =>
    obtain ⟨h1, h2⟩ := h
    simp only [finish, deferred]
    cases hw : st.writer with
    | none => simp only [closeWriter]; exact ⟨h1, fun _ => h2⟩
    | some w =>
      obtain ⟨hc1, hc2⟩ := Close_handles w st.world h1
      rw [h2] at hc2
      simp only [closeWriter]
      cases hc : w.Close st.world with
      | ok wd => rw [hc] at hc1 hc2; exact ⟨hc1, fun _ => by simpa using hc2⟩
      | exit wd => rw [hc] at hc1; exact ⟨hc1, fun hcode => absurd rfl hcode⟩

/-! ## The label of a session whose lines match at most one pattern -/

theorem tableLabel_of_mem (log : Bytes) (e : Bytes × Bytes) (he : e ∈ contentDetector)
    (hc : Contains log e.1 = true) (hone : MatchesOnce log) : tableLabel log = e.2 := by
  unfold tableLabel
  cases hf : contentDetector.find? (fun x => Contains log x.1) with
  | none =>
    rw [List.find?_eq_none] at hf
    exact absurd hc (hf e he)
  | some x =>
    have hx : Contains log x.1 = true :=
      @List.find?_some _ (fun x : Bytes × Bytes => Contains log x.1) x _ hf
    rw [hone x (List.mem_of_find?_eq_some hf) e he hx hc]

theorem detect_of_once (order : Order) (log old : Bytes) (hone : MatchesOnce log) :
    detect order log old = if matchesTable log then tableLabel log else old := by
  by_cases hm : matchesTable log = true
  · obtain ⟨e, he, hc, hd⟩ := detect_some order log old ((matchesTable_iff log).mp hm)
    rw [hd, if_pos hm, tableLabel_of_mem log e he hc hone]
  · have hno : ∀ e ∈ contentDetector, Contains log e.1 = false := by
      intro e he
      by_contra hc
      exact hm ((matchesTable_iff log).mpr ⟨e, he, by simpa using hc⟩)
    rw [detect_none order log old hno, if_neg hm]

theorem lastLabel_eq (logs : List Bytes) :
    ∀ old, lastLabel logs old =
      (((logs.filter matchesTable).getLast?).map tableLabel).getD old := by
  induction logs with
  | nil => intro old; rfl
  | cons log logs ih =>
    intro old
    rw [lastLabel, ih]
    by_cases hm : matchesTable log = true
    · simp only [hm, if_true, List.filter_cons, List.getLast?_cons, Option.map_some',
        Option.getD_some]
      cases (logs.filter matchesTable).getLast? <;> simp
    · simp [hm]

/-- The label of the writer after the payload lines of a session, each of
whose decoded texts matches at most one pattern. -/
theorem mainLoop_payload_label (payload : List Bytes) :
    ∀ (iter : Nat → Order) (w : logWriter) (wd : World) (st1 : State) (w1 : logWriter),
    (∀ l ∈ payload, HasPrefix l containerFileToken = false) →
    w.fileWriter ∈ wd.handles →
    (∀ log ∈ decodedLogs unmarshal payload, MatchesOnce log) →
    mainLoop unmarshal create dir iter (scanLines payload) { writer := some w, world := wd } =
      Flow.running st1 →
    st1.writer = some w1 →
    w1.detectedType = lastLabel (decodedLogs unmarshal payload) w.detectedType := by
  induction payload with
  | nil =>
    intro iter w wd st1 w1 _ _ _ hrun hw1
    simp only [scanLines, List.map_nil, mainLoop, Flow.running.injEq] at hrun
    subst hrun
    simp only [Option.some.injEq] at hw1
    subst hw1
    rfl
  | cons l ls ih =>
    intro iter w wd st1 w1 hnm hh hone hrun hw1
    have hl : HasPrefix l containerFileToken = false := hnm l (by simp)
    have hls : ∀ x ∈ ls, HasPrefix x containerFileToken = false :=
      fun x hx => hnm x (by simp [hx])
    rw [scanLines_cons, mainLoop] at hrun
    by_cases hne : l = []
    · subst hne
      rw [loopBody_empty] at hrun
      rw [decodedLogs_cons_empty] at hone ⊢
      exact ih _ w wd st1 w1 hls hh hone hrun hw1
    · cases hu : unmarshal l with
      | error err =>
        rw [loopBody_error unmarshal create dir _ l err w wd hl hne hu] at hrun
        simp at hrun
      | ok log =>
        rw [loopBody_ok unmarshal create dir _ l log w wd hl hne hu hh] at hrun
        rw [decodedLogs_cons_ok unmarshal l log ls hne hu] at hone ⊢
        have h1 := ih _ _ _ st1 w1 hls (by simpa using hh)
          (fun x hx => hone x (by simp [hx])) hrun hw1
        rw [h1, lastLabel]
        simp only []
        rw [detect_of_once _ log _ (hone log (by simp))]

/-- The label of the writer that is closed at the end of a session. -/
theorem session_label (iter : Nat → Order) (pre payload : List Bytes) (m name : Bytes)
    (wd0 : World) (st0 st : State) (w : logWriter)
    (hpay : ∀ l ∈ payload, HasPrefix l containerFileToken = false)
    (hone : ∀ log ∈ decodedLogs unmarshal payload, MatchesOnce log)
    (h0 : mainLoop unmarshal create dir iter (scanLines (pre ++ [m])) { writer := none, world := wd0 } =
      Flow.running st0)
    (hw0 : st0.writer = some
      { fileWriter := pathJoin dir (name ++ ascii ".log"), count := 0, detectedType := [],
        containerName := name, dirName := dir })
    (hS : mainLoop unmarshal create dir iter (scanLines (pre ++ m :: payload))
      { writer := none, world := wd0 } = Flow.running st)
    (hw : st.writer = some w) :
    w.detectedType = lastLabel (decodedLogs unmarshal payload) [] := by
  have hcons : Consistent st0 :=
    mainLoop_consistent unmarshal create dir _ iter _ st0 (Consistent_start wd0) h0
  obtain ⟨_, hh, _⟩ := hcons _ hw0
  have hsplit : scanLines (pre ++ m :: payload) = scanLines (pre ++ [m]) ++ scanLines payload := by
    simp [scanLines]
  rw [hsplit, mainLoop_append, h0] at hS
  simp only [Flow.andThen] at hS
  obtain ⟨wr0, wdS⟩ := st0
  simp only at hw0 hh
  subst hw0
  exact mainLoop_payload_label unmarshal create dir payload _ _ wdS st w hpay hh hone hS hw

/-! ## Payload lines that all decode -/

/-- The loop gets through payload lines that are empty or decode. -/
theorem mainLoop_payload_total (payload : List Bytes) :
    ∀ (iter : Nat → Order) (w : logWriter) (wd : World),
    (∀ l ∈ payload, HasPrefix l containerFileToken = false) →
    w.fileWriter ∈ wd.handles →
    (∀ l ∈ payload, l ≠ [] → ∃ log, unmarshal l = Except.ok log) →
    ∃ st1, mainLoop unmarshal create dir iter (scanLines payload) { writer := some w, world := wd } =
      Flow.running st1 := by
  induction payload with
  | nil => intro iter w wd _ _ _; exact ⟨_, rfl⟩
  | cons l ls ih =>
    intro iter w wd hnm hh hdec
    have hl : HasPrefix l containerFileToken = false := hnm l (by simp)
    have hls : ∀ x ∈ ls, HasPrefix x containerFileToken = false :=
      fun x hx => hnm x (by simp [hx])
    have hdec1 : ∀ x ∈ ls, x ≠ [] → ∃ log, unmarshal x = Except.ok log :=
      fun x hx => hdec x (by simp [hx])
    rw [scanLines_cons, mainLoop]
    by_cases hne : l = []
    · subst hne
      rw [loopBody_empty]
      exact ih _ w wd hls hh hdec1
    · obtain ⟨log, hu⟩ := hdec l (by simp) hne
      rw [loopBody_ok unmarshal create dir _ l log w wd hl hne hu hh]
      exact ih _ _ _ hls (by simpa using hh) hdec1

end Lemmas

/-! ## Lemmas on `main` -/

theorem run_trace (unmarshal : Bytes → Except Bytes Bytes)
    (create : Bytes → Option Bytes) (dir : Bytes) (iter : Nat → Order)
    (scans : List Scanned) (wd : World) :
    wd.trace <+: (run unmarshal create dir iter scans wd).world.trace := by
  unfold run
  have h1 := mainLoop_trace unmarshal create dir scans iter { writer := none, world := wd }
  exact h1.trans (finish_trace _)

/-- With two entries in `os.Args` the first thing `main` does is to open the
input file. -/
theorem main_trace_of_two (unmarshal : Bytes → Except Bytes Bytes) (iter : Nat → Order)
    (env : Env) (wd : World) (prog path : Bytes) (h : env.args = [prog, path]) :
    ∃ es, (main unmarshal iter env wd).world.trace = wd.trace ++ Effect.openInput path :: es := by
  unfold main
  simp only [h, List.length_cons, List.length_nil, ne_eq, not_true_eq_false, if_false,
    List.getElem?_cons_succ, List.getElem?_cons_zero]
  cases hop : env.openFile path with
  | error err =>
    exact ⟨[Effect.stderr (ascii "ERROR: " ++ err ++ ascii "\n")], by simp [handleError]⟩
  | ok scanner =>
    cases hcwd : env.getwd with
    | error err =>
      exact ⟨[Effect.stderr (ascii "ERROR: " ++ err ++ ascii "\n")], by simp [handleError]⟩
    | ok cwd =>
      cases hmk : env.mkdirAll (containersDirOf cwd) with
      | some err =>
        exact ⟨[Effect.mkdirAll (containersDirOf cwd),
          Effect.stderr (ascii "ERROR: " ++ err ++ ascii "\n")], by simp [handleError, hmk]⟩
      | none =>
        simp only [hmk]
        obtain ⟨es, hes⟩ := run_trace unmarshal env.create (containersDirOf cwd) iter scanner.scans
          { fs := wd.fs, handles := wd.handles,
            trace := wd.trace ++ [Effect.openInput path] ++
              [Effect.mkdirAll (containersDirOf cwd)] }
        simp only at hes
        split
        · exact ⟨Effect.mkdirAll (containersDirOf cwd) :: es, by rw [← hes]; simp⟩
        · exact ⟨Effect.mkdirAll (containersDirOf cwd) :: (es ++ [Effect.closeInput path]),
            by simp only []; rw [← hes]; simp⟩

theorem run_handles (unmarshal : Bytes → Except Bytes Bytes)
    (create : Bytes → Option Bytes) (dir : Bytes) (iter : Nat → Order)
    (scans : List Scanned) (wd : World) (h : HandlesOk wd) (h0 : wd.handles = []) :
    HandlesOk (run unmarshal create dir iter scans wd).world := by
  have hstart : LoopHandles { writer := none, world := wd } :=
    ⟨fun _ => h0, fun w hw => by simp at hw⟩
  exact (finish_handles _ (mainLoop_handles unmarshal create dir scans iter
    { writer := none, world := wd } h hstart)).1

/-- In the whole of `main`, started with no open handle, at most one output
handle is open at any moment. -/
theorem main_handles (unmarshal : Bytes → Except Bytes Bytes) (iter : Nat → Order) (env : Env)
    (wd : World) (h : HandlesOk wd) (h0 : wd.handles = []) :
    HandlesOk (main unmarshal iter env wd).world := by
  unfold main
  split
  · split
    · exact h
    · exact HandlesOk_handleError _ _ h
  · split
    · exact h
    · rename_i path _
      have h1 : HandlesOk { wd with trace := wd.trace ++ [Effect.openInput path] } :=
        HandlesOk_concat wd (Effect.openInput path) wd.fs h (HandlesOk_length wd h)
      simp only []
      cases hop : env.openFile path with
      | error err => exact HandlesOk_handleError _ _ h1
      | ok scanner =>
        cases hcwd : env.getwd with
        | error err => exact HandlesOk_handleError _ _ h1
        | ok cwd =>
          have h2 : HandlesOk
              { fs := wd.fs, handles := wd.handles,
                trace := wd.trace ++ [Effect.openInput path] ++
                  [Effect.mkdirAll (containersDirOf cwd)] } :=
            HandlesOk_concat _ (Effect.mkdirAll (containersDirOf cwd)) wd.fs h1
              (HandlesOk_length _ h1)
          simp only []
          cases hmk : env.mkdirAll (containersDirOf cwd) with
          | some err => exact HandlesOk_handleError _ _ h2
          | none =>
            have h3 := run_handles unmarshal env.create (containersDirOf cwd) iter scanner.scans _ h2 h0
            simp only []
            split
            · exact h3
            · exact HandlesOk_concat _ (Effect.closeInput path) _ h3 (HandlesOk_length _ h3)

/-! ## The claims -/

/-- C1 (counterexample): two markers of seven segments for which no session
is opened and no file is created.  With a segment of 300 bytes at index 5, and
with a segment that holds a NUL byte, `os.Create` refuses the path: the run
prints the announcement, then the error, and ends with status 1. -/
theorem C1_counterexample :
    (HasPrefix (ascii "==> a/b/c/d/e/" ++ List.replicate 300 97 ++ ascii "/0.log <==")
      containerFileToken = true ∧
    (Split 47 ((ascii "==> a/b/c/d/e/" ++ List.replicate 300 97 ++
      ascii "/0.log <==").drop 3)).length = 7 ∧
    mainLoop jsonUnmarshal linuxCreate sampleDir sourceIter
      (scanLines [ascii "==> a/b/c/d/e/" ++ List.replicate 300 97 ++ ascii "/0.log <=="])
      { writer := none, world := World.empty } =
    Flow.exited
      { fs := []
        handles := []
        trace :=
          [Effect.stdout (ascii "Writing containers/" ++ List.replicate 300 97 ++
             ascii ".log ... "),
           Effect.stderr (ascii "ERROR: open /w/containers/" ++ List.replicate 300 97 ++
             ascii ".log: file name too long\n")] } ∧
    run jsonUnmarshal linuxCreate sampleDir sourceIter
      (scanLines [ascii "==> a/b/c/d/e/" ++ List.replicate 300 97 ++ ascii "/0.log <=="])
      World.empty =
    { world :=
        { fs := []
          handles := []
          trace :=
            [Effect.stdout (ascii "Writing containers/" ++ List.replicate 300 97 ++
               ascii ".log ... "),
             Effect.stderr (ascii "ERROR: open /w/containers/" ++ List.replicate 300 97 ++
               ascii ".log: file name too long\n")] }
      code := 1 }) ∧
    (HasPrefix (ascii "==> a/b/c/d/e/N" ++ [0] ++ ascii "M/0.log <==")
      containerFileToken = true ∧
    (Split 47 ((ascii "==> a/b/c/d/e/N" ++ [0] ++ ascii "M/0.log <==").drop 3)).length = 7 ∧
    run jsonUnmarshal linuxCreate sampleDir sourceIter
      (scanLines [ascii "==> a/b/c/d/e/N" ++ [0] ++ ascii "M/0.log <=="])
      World.empty =
    { world :=
        { fs := []
          handles := []
          trace :=
            [Effect.stdout (ascii "Writing containers/N" ++ [0] ++ ascii "M.log ... "),
             Effect.stderr (ascii "ERROR: open /w/containers/N" ++ [0] ++
               ascii "M.log: invalid argument\n")] }
      code := 1 }) := by
  decide

/-- C1 (amended): in a run, after any lines the loop has got through, a line
that starts with the token and whose remainder (the line without its first
three bytes) splits on the slash into at least six segments closes the open
writer, and the announcement for the segment at index 5 is printed.  When
`os.Create` succeeds on `<dir>/<segment>.log` the loop goes on with a fresh
writer whose container name is that segment and the file is created, empty
and open, in the output directory.  When `os.Create` fails the run ends in
`handleError` with the error of the creation: no session is opened, no file
is created and no handle opened. -/
theorem C1_marker_opens_session (unmarshal : Bytes → Except Bytes Bytes)
    (create : Bytes → Option Bytes) (dir : Bytes)
    (iter : Nat → Order) (pre : List Scanned) (line : Bytes) (wd0 : World) (st : State)
    (hpre : mainLoop unmarshal create dir iter pre { writer := none, world := wd0 } = Flow.running st)
    (hm : HasPrefix line containerFileToken = true)
    (hseg : 6 ≤ (Split 47 (line.drop 3)).length) :
    ∃ name wd,
      (Split 47 (line.drop 3))[5]? = some name ∧
      closeWriter st.writer st.world = Ret.ok wd ∧
      (create (pathJoin dir (name ++ ascii ".log")) = none →
        ∃ st1,
          mainLoop unmarshal create dir iter (pre ++ [{ err := none, bytes := line }])
            { writer := none, world := wd0 } = Flow.running st1 ∧
          st1.writer = some
            { fileWriter := pathJoin dir (name ++ ascii ".log"), count := 0, detectedType := [],
              containerName := name, dirName := dir } ∧
          st1.world.trace = wd.trace ++
            [Effect.stdout (ascii "Writing containers/" ++ name ++ ascii ".log ... "),
             Effect.create (pathJoin dir (name ++ ascii ".log"))] ∧
          st1.world.fs.content (pathJoin dir (name ++ ascii ".log")) = some [] ∧
          pathJoin dir (name ++ ascii ".log") ∈ st1.world.handles) ∧
      (∀ err, create (pathJoin dir (name ++ ascii ".log")) = some err →
        mainLoop unmarshal create dir iter (pre ++ [{ err := none, bytes := line }])
          { writer := none, world := wd0 } =
        Flow.exited
          { fs := wd.fs
            handles := wd.handles
            trace := wd.trace ++
              [Effect.stdout (ascii "Writing containers/" ++ name ++ ascii ".log ... "),
               Effect.stderr (ascii "ERROR: " ++ err ++ ascii "\n")] }) := by
  have hst : Consistent st :=
    mainLoop_consistent unmarshal create dir pre iter _ st (Consistent_start wd0) hpre
  obtain ⟨wd, hc⟩ := closeWriter_consistent st hst
  have htrim : TrimPrefix line containerFileToken = line.drop 3 := by
    rw [TrimPrefix_of_HasPrefix line _ hm, containerFileToken_length]
  have hlt : 5 < (Split 47 (line.drop 3)).length := by omega
  have hs : (Split 47 (TrimPrefix line containerFileToken))[5]? =
      some ((Split 47 (line.drop 3))[5]) := by
    rw [htrim]
    exact List.getElem?_eq_getElem hlt
  refine ⟨(Split 47 (line.drop 3))[5], wd, List.getElem?_eq_getElem hlt, hc, ?_, ?_⟩
  · intro hcr
    refine ⟨{ writer := some (openWriter dir ((Split 47 (line.drop 3))[5]) wd).1,
              world := (openWriter dir ((Split 47 (line.drop 3))[5]) wd).2 }, ?_, rfl, ?_, ?_, ?_⟩
    · rw [mainLoop_append, hpre]
      simp only [Flow.andThen, mainLoop]
      rw [loopBody_marker_ok unmarshal create dir _ line _ st wd hm hc hs hcr]
    · simp [openWriter, osCreate, printOut]
    · simp [openWriter, osCreate, FS.content]
    · simp [openWriter, osCreate]
  · intro err hcr
    rw [mainLoop_append, hpre]
    simp only [Flow.andThen, mainLoop]
    rw [loopBody_marker_refused unmarshal create dir _ line _ err st wd hm hc hs hcr]
    simp [handleError, printOut]

/-- C1 (amended) at the line `==> a/b/c/d/e/NAME/0.log <==`, read after a
session of one line: the session `NAME` is opened on the empty file
`/w/containers/NAME.log`. -/
theorem C1_marker_opens_session_witness :
    ∃ st1,
      mainLoop jsonUnmarshal linuxCreate sampleDir sourceIter
        (scanLines [ascii "==> a/b/c/d/e/OLD/0.log <==", jsonLine "x"] ++
          [{ err := none, bytes := ascii "==> a/b/c/d/e/NAME/0.log <==" }])
        { writer := none, world := World.empty } = Flow.running st1 ∧
      st1.writer = some
        { fileWriter := ascii "/w/containers/NAME.log", count := 0,
          detectedType := [], containerName := ascii "NAME", dirName := sampleDir } ∧
      st1.world.trace =
        [Effect.stdout (ascii "Writing containers/OLD.log ... "),
         Effect.create (ascii "/w/containers/OLD.log"),
         Effect.write (ascii "/w/containers/OLD.log") (ascii "x"),
         Effect.stdout (ascii "1 lines\n"),
         Effect.close (ascii "/w/containers/OLD.log"),
         Effect.stdout (ascii "Writing containers/NAME.log ... "),
         Effect.create (ascii "/w/containers/NAME.log")] ∧
      st1.world.fs.content (ascii "/w/containers/NAME.log") = some [] ∧
      ascii "/w/containers/NAME.log" ∈ st1.world.handles := by
  obtain ⟨name, wd, hs, hc, hok, _⟩ :=
    C1_marker_opens_session jsonUnmarshal linuxCreate sampleDir sourceIter
      (scanLines [ascii "==> a/b/c/d/e/OLD/0.log <==", jsonLine "x"])
      (ascii "==> a/b/c/d/e/NAME/0.log <==") World.empty
      { writer := some
          { fileWriter := ascii "/w/containers/OLD.log", count := 1, detectedType := [],
            containerName := ascii "OLD", dirName := sampleDir }
        world :=
          { fs := [(ascii "/w/containers/OLD.log", ascii "x")]
            handles := [ascii "/w/containers/OLD.log"]
            trace :=
              [Effect.stdout (ascii "Writing containers/OLD.log ... "),
               Effect.create (ascii "/w/containers/OLD.log"),
               Effect.write (ascii "/w/containers/OLD.log") (ascii "x")] } }
      (by decide) (by decide) (by decide)
  have hname : (Split 47 ((ascii "==> a/b/c/d/e/NAME/0.log <==").drop 3))[5]? =
      some (ascii "NAME") := by decide
  rw [hname] at hs
  simp only [Option.some.injEq] at hs
  subst hs
  have hwd : closeWriter (some
        { fileWriter := ascii "/w/containers/OLD.log", count := 1, detectedType := [],
          containerName := ascii "OLD", dirName := sampleDir })
        { fs := [(ascii "/w/containers/OLD.log", ascii "x")]
          handles := [ascii "/w/containers/OLD.log"]
          trace :=
            [Effect.stdout (ascii "Writing containers/OLD.log ... "),
             Effect.create (ascii "/w/containers/OLD.log"),
             Effect.write (ascii "/w/containers/OLD.log") (ascii "x")] } =
      Ret.ok
        { fs := [(ascii "/w/containers/OLD.log", ascii "x")]
          handles := []
          trace :=
            [Effect.stdout (ascii "Writing containers/OLD.log ... "),
             Effect.create (ascii "/w/containers/OLD.log"),
             Effect.write (ascii "/w/containers/OLD.log") (ascii "x"),
             Effect.stdout (ascii "1 lines\n"),
             Effect.close (ascii "/w/containers/OLD.log")] } := by decide
  rw [hwd] at hc
  simp only [Ret.ok.injEq] at hc
  subst hc
  obtain ⟨st1, h1, h2, h3, h4, h5⟩ := hok (by decide)
  exact ⟨st1, h1, h2, h3, h4, h5⟩

/-- C2 (counterexample): three runs of Scenario A.  On the scenario itself the
run creates `e.log`, named after the fifth component of the path, and no
`pod1.log`; the console shows `Writing containers/e.log ... ` and `1 lines`.
With the payload text `Starting template router` the console line is
`1 lines, detected: router` and the file is left as `e-router.log`, not
`e.log`.  With a fifth component of 300 bytes `os.Create` refuses the path:
the run prints the announcement and the error, ends with status 1 and leaves
no file. -/
theorem C2_counterexample :
    (run jsonUnmarshal linuxCreate sampleDir sourceIter
      (scanLines [ascii "==> /a/b/c/d/e/pod1/0.log <==", jsonLine "hello\\n"]) World.empty =
    { world :=
        { fs := [(ascii "/w/containers/e.log", ascii "hello\n")]
          handles := []
          trace :=
            [Effect.stdout (ascii "Writing containers/e.log ... "),
             Effect.create (ascii "/w/containers/e.log"),
             Effect.write (ascii "/w/containers/e.log") (ascii "hello\n"),
             Effect.stdout (ascii "1 lines\n"),
             Effect.close (ascii "/w/containers/e.log")] }
      code := 0 } ∧
    (run jsonUnmarshal linuxCreate sampleDir sourceIter
      (scanLines [ascii "==> /a/b/c/d/e/pod1/0.log <==", jsonLine "hello\\n"])
      World.empty).world.fs.content (ascii "/w/containers/pod1.log") = none) ∧
    (jsonUnmarshal (jsonLine "Starting template router\\n") =
      Except.ok (ascii "Starting template router\n") ∧
    run jsonUnmarshal linuxCreate sampleDir sourceIter
      (scanLines [ascii "==> /a/b/c/d/e/pod1/0.log <==",
        jsonLine "Starting template router\\n"]) World.empty =
    { world :=
        { fs := [(ascii "/w/containers/e-router.log", ascii "Starting template router\n")]
          handles := []
          trace :=
            [Effect.stdout (ascii "Writing containers/e.log ... "),
             Effect.create (ascii "/w/containers/e.log"),
             Effect.write (ascii "/w/containers/e.log") (ascii "Starting template router\n"),
             Effect.stdout (ascii "1 lines, detected: router\n"),
             Effect.close (ascii "/w/containers/e.log"),
             Effect.rename (ascii "/w/containers/e.log") (ascii "/w/containers/e-router.log")] }
      code := 0 }) ∧
    (jsonUnmarshal (jsonLine "hello\\n") = Except.ok (ascii "hello\n") ∧
    run jsonUnmarshal linuxCreate sampleDir sourceIter
      (scanLines [ascii "==> /a/b/c/d/" ++ List.replicate 300 101 ++ ascii "/pod1/0.log <==",
        jsonLine "hello\\n"]) World.empty =
    { world :=
        { fs := []
          handles := []
          trace :=
            [Effect.stdout (ascii "Writing containers/" ++ List.replicate 300 101 ++
               ascii ".log ... "),
             Effect.stderr (ascii "ERROR: open /w/containers/" ++ List.replicate 300 101 ++
               ascii ".log: file name too long\n")] }
      code := 1 }) := by
  decide

/-- C2 (amended): for a marker `==> /s1/s2/s3/s4/s5/<name>/<rest>`, whose
`s1` to `s5` hold no slash, followed by one line without the token whose
decoded text is `T`, and when `os.Create` succeeds on `<dir>/<s5>.log`: the
run ends with status 0 and adds to the trace the announcement
`Writing containers/<s5>.log ... `, the creation of `<dir>/<s5>.log`, the
write of `T`, the line `1 lines` and the close of the handle, in this order.
When `T` holds no pattern of the table that is all, and the file
`<dir>/<s5>.log` holds exactly `T`.  When `T` holds a pattern, the line
`1 lines` goes on with `, detected: <label>` for the label of a pattern that
`T` holds, a rename to `<dir>/<s5>-<label>.log` follows the close, and that
file holds exactly `T`. -/
theorem C2_scenario_A (unmarshal : Bytes → Except Bytes Bytes)
    (create : Bytes → Option Bytes) (dir : Bytes)
    (iter : Nat → Order) (s1 s2 s3 s4 s5 name rest p T : Bytes) (wd0 : World)
    (h1 : (47 : UInt8) ∉ s1) (h2 : (47 : UInt8) ∉ s2) (h3 : (47 : UInt8) ∉ s3)
    (h4 : (47 : UInt8) ∉ s4) (h5 : (47 : UInt8) ∉ s5)
    (hp : HasPrefix p containerFileToken = false)
    (hT : decodedLogs unmarshal [p] = [T])
    (hcr : create (pathJoin dir (s5 ++ ascii ".log")) = none) :
    (run unmarshal create dir iter
      (scanLines [ascii "==> /" ++ s1 ++ ascii "/" ++ s2 ++ ascii "/" ++ s3 ++ ascii "/" ++ s4 ++
        ascii "/" ++ s5 ++ ascii "/" ++ name ++ ascii "/" ++ rest, p]) wd0).code = 0 ∧
    (matchesTable T = false →
      (run unmarshal create dir iter
        (scanLines [ascii "==> /" ++ s1 ++ ascii "/" ++ s2 ++ ascii "/" ++ s3 ++ ascii "/" ++ s4 ++
          ascii "/" ++ s5 ++ ascii "/" ++ name ++ ascii "/" ++ rest, p]) wd0).world.trace =
        wd0.trace ++
          [Effect.stdout (ascii "Writing containers/" ++ s5 ++ ascii ".log ... "),
           Effect.create (pathJoin dir (s5 ++ ascii ".log")),
           Effect.write (pathJoin dir (s5 ++ ascii ".log")) T,
           Effect.stdout (ascii "1 lines\n"),
           Effect.close (pathJoin dir (s5 ++ ascii ".log"))] ∧
      (run unmarshal create dir iter
        (scanLines [ascii "==> /" ++ s1 ++ ascii "/" ++ s2 ++ ascii "/" ++ s3 ++ ascii "/" ++ s4 ++
          ascii "/" ++ s5 ++ ascii "/" ++ name ++ ascii "/" ++ rest, p]) wd0).world.fs.content
          (pathJoin dir (s5 ++ ascii ".log")) = some T) ∧
    (matchesTable T = true →
      ∃ e ∈ contentDetector, Contains T e.1 = true ∧
      (run unmarshal create dir iter
        (scanLines [ascii "==> /" ++ s1 ++ ascii "/" ++ s2 ++ ascii "/" ++ s3 ++ ascii "/" ++ s4 ++
          ascii "/" ++ s5 ++ ascii "/" ++ name ++ ascii "/" ++ rest, p]) wd0).world.trace =
        wd0.trace ++
          [Effect.stdout (ascii "Writing containers/" ++ s5 ++ ascii ".log ... "),
           Effect.create (pathJoin dir (s5 ++ ascii ".log")),
           Effect.write (pathJoin dir (s5 ++ ascii ".log")) T,
           Effect.stdout (ascii "1 lines, detected: " ++ e.2 ++ ascii "\n"),
           Effect.close (pathJoin dir (s5 ++ ascii ".log")),
           Effect.rename (pathJoin dir (s5 ++ ascii ".log"))
             (pathJoin dir (s5 ++ ascii "-" ++ e.2 ++ ascii ".log"))] ∧
      (run unmarshal create dir iter
        (scanLines [ascii "==> /" ++ s1 ++ ascii "/" ++ s2 ++ ascii "/" ++ s3 ++ ascii "/" ++ s4 ++
          ascii "/" ++ s5 ++ ascii "/" ++ name ++ ascii "/" ++ rest, p]) wd0).world.fs.content
          (pathJoin dir (s5 ++ ascii "-" ++ e.2 ++ ascii ".log")) = some T ∧
      (run unmarshal create dir iter
        (scanLines [ascii "==> /" ++ s1 ++ ascii "/" ++ s2 ++ ascii "/" ++ s3 ++ ascii "/" ++ s4 ++
          ascii "/" ++ s5 ++ ascii "/" ++ name ++ ascii "/" ++ rest, p]) wd0).world.fs.content
          (pathJoin dir (s5 ++ ascii ".log")) = none) := by
  obtain ⟨body, hmarker, hseg0⟩ : ∃ body : Bytes,
      ascii "==> /" ++ s1 ++ ascii "/" ++ s2 ++ ascii "/" ++ s3 ++ ascii "/" ++ s4 ++
        ascii "/" ++ s5 ++ ascii "/" ++ name ++ ascii "/" ++ rest = containerFileToken ++ body ∧
      (Split 47 body)[5]? = some s5 := by
    refine ⟨ascii " " ++ 47 :: (s1 ++ 47 :: (s2 ++ 47 :: (s3 ++ 47 :: (s4 ++ 47 ::
      (s5 ++ 47 :: (name ++ 47 :: rest)))))), ?_, ?_⟩
    · have ha : ascii "==> /" = containerFileToken ++ (ascii " " ++ [47]) := by decide
      have hs : ascii "/" = [47] := by decide
      rw [ha, hs]
      simp
    · have hsp : (47 : UInt8) ∉ ascii " " := by decide
      rw [Split_append_sep _ _ _ hsp, Split_append_sep _ _ _ h1, Split_append_sep _ _ _ h2,
        Split_append_sep _ _ _ h3, Split_append_sep _ _ _ h4, Split_append_sep _ _ _ h5]
      simp
  rw [hmarker]
  have hm : HasPrefix (containerFileToken ++ body) containerFileToken = true :=
    HasPrefix_append _ _
  have hseg : (Split 47 (TrimPrefix (containerFileToken ++ body) containerFileToken))[5]? =
      some s5 := by
    rw [TrimPrefix_append]
    exact hseg0
  -- the line is not empty and decodes to `T`
  have hne : p ≠ [] := by
    intro h
    subst h
    simp [decodedLogs] at hT
  have hu : unmarshal p = Except.ok T := by
    have hlen : p.length ≠ 0 := by simpa using hne
    cases hup : unmarshal p with
    | error e => simp [decodedLogs, hlen, hup] at hT
    | ok log =>
      simp only [decodedLogs, List.filterMap_cons, hlen, if_false, hup, List.filterMap_nil,
        List.cons.injEq, and_true] at hT
      rw [hT]
  have hone : fmtInt (wrapInt64 (0 + 1)) = ascii "1" := by decide
  have hloop : mainLoop unmarshal create dir iter (scanLines [containerFileToken ++ body, p])
      { writer := none, world := wd0 } =
      Flow.running
        { writer := some
            { fileWriter := pathJoin dir (s5 ++ ascii ".log"), count := wrapInt64 (0 + 1),
              detectedType := detect (iter 1) T [], containerName := s5, dirName := dir }
          world :=
            { fs := FS.append ((pathJoin dir (s5 ++ ascii ".log"), []) ::
                wd0.fs.filter (fun e => e.1 ≠ pathJoin dir (s5 ++ ascii ".log")))
                (pathJoin dir (s5 ++ ascii ".log")) T
              handles := pathJoin dir (s5 ++ ascii ".log") :: wd0.handles
              trace := wd0.trace ++
                [Effect.stdout (ascii "Writing containers/" ++ s5 ++ ascii ".log ... "),
                 Effect.create (pathJoin dir (s5 ++ ascii ".log")),
                 Effect.write (pathJoin dir (s5 ++ ascii ".log")) T] } } := by
    simp only [scanLines, List.map_cons, List.map_nil, mainLoop]
    rw [loopBody_marker_ok unmarshal create dir _ _ s5 { writer := none, world := wd0 } wd0 hm rfl
      hseg hcr]
    simp only []
    rw [loopBody_ok unmarshal create dir _ p T _ _ hp hne hu (by simp [openWriter, osCreate])]
    simp only [openWriter, osCreate, printOut, List.append_assoc, List.cons_append,
      List.nil_append]
  have hcont : FS.content (FS.append ((pathJoin dir (s5 ++ ascii ".log"), []) ::
      wd0.fs.filter (fun e => e.1 ≠ pathJoin dir (s5 ++ ascii ".log")))
      (pathJoin dir (s5 ++ ascii ".log")) T) (pathJoin dir (s5 ++ ascii ".log")) = some T := by
    simp only [content_append, content_cons_self]
    simp
  unfold run
  rw [hloop]
  simp only [finish, deferred, closeWriter]
  by_cases hmt : matchesTable T = true
  · obtain ⟨e, he, hce, hd⟩ := detect_some (iter 1) T [] ((matchesTable_iff T).mp hmt)
    have hlab : detect (iter 1) T [] ≠ [] := by
      rw [hd]; exact label_ne_nil e he
    rw [Close_labelled _ _ T (by simpa using hlab) (by simpa using hcont)]
    simp only [hd, hone]
    refine ⟨trivial, fun h => by rw [hmt] at h; exact absurd h (by decide), fun _ => ?_⟩
    refine ⟨e, he, hce, ?_, ?_, ?_⟩
    · have h2 : ascii "1" ++ ascii " lines" ++ (ascii ", detected: " ++ e.2) ++ ascii "\n" =
          ascii "1 lines, detected: " ++ e.2 ++ ascii "\n" := by
        have : ascii "1 lines, detected: " = ascii "1" ++ ascii " lines" ++ ascii ", detected: " := by
          decide
        rw [this]
        simp [List.append_assoc]
      rw [h2]
      simp [List.append_assoc]
    · exact content_move_new _ _ _ _
    · exact content_move_old _ _ _ _ (logFile_ne_labelledFile dir s5 e.2)
  · have hmf : matchesTable T = false := by simpa using hmt
    have hd : detect (iter 1) T [] = [] := by
      rw [detect_eq_nil_iff]
      exact ⟨rfl, hmf⟩
    rw [Close_plain _ _ (by simpa using hd)]
    simp only [hone]
    refine ⟨trivial, fun _ => ⟨?_, hcont⟩, fun h => absurd h hmt⟩
    have h2 : ascii "1" ++ ascii " lines" ++ ascii "\n" = ascii "1 lines\n" := by decide
    rw [h2]
    simp [List.append_assoc]

/-- C2 (amended) at Scenario A: the file is `e.log` and holds `hello` and a
newline; the console shows the announcement of `e.log` and `1 lines`. -/
theorem C2_scenario_A_witness :
    (run jsonUnmarshal linuxCreate sampleDir sourceIter
      (scanLines [ascii "==> /" ++ ascii "a" ++ ascii "/" ++ ascii "b" ++ ascii "/" ++ ascii "c" ++
        ascii "/" ++ ascii "d" ++ ascii "/" ++ ascii "e" ++ ascii "/" ++ ascii "pod1" ++ ascii "/" ++
        ascii "0.log <==", jsonLine "hello\\n"]) World.empty).code = 0 ∧
    (run jsonUnmarshal linuxCreate sampleDir sourceIter
      (scanLines [ascii "==> /" ++ ascii "a" ++ ascii "/" ++ ascii "b" ++ ascii "/" ++ ascii "c" ++
        ascii "/" ++ ascii "d" ++ ascii "/" ++ ascii "e" ++ ascii "/" ++ ascii "pod1" ++ ascii "/" ++
        ascii "0.log <==", jsonLine "hello\\n"]) World.empty).world.trace =
      [Effect.stdout (ascii "Writing containers/e.log ... "),
       Effect.create (ascii "/w/containers/e.log"),
       Effect.write (ascii "/w/containers/e.log") (ascii "hello\n"),
       Effect.stdout (ascii "1 lines\n"),
       Effect.close (ascii "/w/containers/e.log")] ∧
    (run jsonUnmarshal linuxCreate sampleDir sourceIter
      (scanLines [ascii "==> /" ++ ascii "a" ++ ascii "/" ++ ascii "b" ++ ascii "/" ++ ascii "c" ++
        ascii "/" ++ ascii "d" ++ ascii "/" ++ ascii "e" ++ ascii "/" ++ ascii "pod1" ++ ascii "/" ++
        ascii "0.log <==", jsonLine "hello\\n"]) World.empty).world.fs.content
        (ascii "/w/containers/e.log") = some (ascii "hello\n") :=
  have h := C2_scenario_A jsonUnmarshal linuxCreate sampleDir sourceIter (ascii "a") (ascii "b")
    (ascii "c") (ascii "d") (ascii "e") (ascii "pod1") (ascii "0.log <==") (jsonLine "hello\\n")
    (ascii "hello\n") World.empty (by decide) (by decide) (by decide) (by decide) (by decide)
    (by decide) (by decide) (by decide)
  ⟨h.1, h.2.1 (by decide)⟩

/-- C3 (counterexample): a session made of one empty line, which is not a
marker, is reported with `0 lines`, not with the one line that lies after its
marker. -/
theorem C3_counterexample :
    ([([] : Bytes)].filter (fun l => !HasPrefix l containerFileToken)).length = 1 ∧
    run jsonUnmarshal linuxCreate sampleDir sourceIter
      (scanLines [ascii "==> a/b/c/d/e/NAME/0.log <==", []]) World.empty =
    { world :=
        { fs := [(ascii "/w/containers/NAME.log", [])]
          handles := []
          trace :=
            [Effect.stdout (ascii "Writing containers/NAME.log ... "),
             Effect.create (ascii "/w/containers/NAME.log"),
             Effect.stdout (ascii "0 lines\n"),
             Effect.close (ascii "/w/containers/NAME.log")] }
      code := 0 } := by
  decide

/-- C3 (amended): in a run that ends with status 0, take the session opened by
the marker `m`, with `payload` the lines up to the next marker or the end of
the input.  The writer that is closed at the end of the session holds as
count the number of non-empty lines of `payload`, and the close, whose
effects are part of the trace of the run, prints exactly one line on standard
output, which reports that number. -/
theorem C3_count_reported (unmarshal : Bytes → Except Bytes Bytes)
    (create : Bytes → Option Bytes) (dir : Bytes)
    (iter : Nat → Order) (pre payload rest : List Bytes) (m : Bytes) (wd0 : World)
    (hm : HasPrefix m containerFileToken = true)
    (hpay : ∀ l ∈ payload, HasPrefix l containerFileToken = false)
    (hrest : ∀ l ∈ rest.head?, HasPrefix l containerFileToken = true)
    (hlen : payload.length < 2 ^ 63)
    (hrun : (run unmarshal create dir iter (scanLines (pre ++ m :: payload ++ rest)) wd0).code = 0) :
    ∃ (st : State) (w : logWriter) (wd1 : World) (es : List Effect),
      mainLoop unmarshal create dir iter (scanLines (pre ++ m :: payload))
        { writer := none, world := wd0 } = Flow.running st ∧
      st.writer = some w ∧
      w.count = ((payload.filter (fun l => l ≠ [])).length : Int) ∧
      w.Close st.world = Ret.ok wd1 ∧
      wd1.trace = st.world.trace ++
        Effect.stdout (fmtInt ((payload.filter (fun l => l ≠ [])).length : Int) ++
          ascii " lines" ++ detectedText w.detectedType ++ ascii "\n") :: es ∧
      (∀ s, Effect.stdout s ∉ es) ∧
      wd1.trace <+:
        (run unmarshal create dir iter (scanLines (pre ++ m :: payload ++ rest)) wd0).world.trace := by
  obtain ⟨name, st0, st, w, wd1, _, _, _, _, hS, hw, _, _, _, hdec, _, _, _, hcnt, _, hcl, htr,
    _, hpre⟩ := session_run unmarshal create dir iter pre payload rest m wd0 hm hpay hrest hrun
  have hlen1 := decodedLogs_length unmarshal payload hdec
  have hle : (payload.filter (fun l => l ≠ [])).length ≤ payload.length :=
    List.length_filter_le _ _
  have hc : w.count = ((payload.filter (fun l => l ≠ [])).length : Int) := by
    rw [hcnt (by omega), hlen1]
  refine ⟨st, w, wd1,
    Effect.close w.fileWriter ::
      (if w.detectedType = [] then [] else [Effect.rename w.logFile w.labelledFile]),
    hS, hw, hc, hcl, ?_, ?_, hpre⟩
  · rw [htr, logWriter.closeEffects, logWriter.countLine, hc]
    rfl
  · intro s hs
    by_cases hl : w.detectedType = [] <;> simp [hl] at hs

/-- C3 (amended) at a session of a line, an empty line and another line. -/
theorem C3_count_reported_witness :
    ∃ (st : State) (w : logWriter) (wd1 : World) (es : List Effect),
      mainLoop jsonUnmarshal linuxCreate sampleDir sourceIter
        (scanLines ([] ++ ascii "==> a/b/c/d/e/NAME/0.log <==" ::
          [jsonLine "one", [], jsonLine "two"]))
        { writer := none, world := World.empty } = Flow.running st ∧
      st.writer = some w ∧
      w.count = (([jsonLine "one", [], jsonLine "two"].filter (fun l => l ≠ [])).length : Int) ∧
      w.Close st.world = Ret.ok wd1 ∧
      wd1.trace = st.world.trace ++
        Effect.stdout
          (fmtInt (([jsonLine "one", [], jsonLine "two"].filter (fun l => l ≠ [])).length : Int) ++
          ascii " lines" ++ detectedText w.detectedType ++ ascii "\n") :: es ∧
      (∀ s, Effect.stdout s ∉ es) ∧
      wd1.trace <+:
        (run jsonUnmarshal linuxCreate sampleDir sourceIter
          (scanLines ([] ++ ascii "==> a/b/c/d/e/NAME/0.log <==" ::
            [jsonLine "one", [], jsonLine "two"] ++ [ascii "==> a/b/c/d/e/OTHER/0.log <=="]))
          World.empty).world.trace :=
  C3_count_reported jsonUnmarshal linuxCreate sampleDir sourceIter [] [jsonLine "one", [], jsonLine "two"]
    [ascii "==> a/b/c/d/e/OTHER/0.log <=="] (ascii "==> a/b/c/d/e/NAME/0.log <==") World.empty
    (by decide) (by decide) (by decide) (by decide) (by decide)

/-- C4: in a run that ends with status 0, take the session opened by the
marker `m`, with `payload` the lines up to the next marker or the end of the
input.  The marker creates the file of the session empty and writes nothing;
every non-empty line of `payload` decodes; between the opening and the close
the only effects are the writes of the decoded texts through the handle of
the session, one per line and in order; at the close the file holds exactly
their concatenation, and it still does after the close, under the name the
close leaves it. -/
theorem C4_payload_round_trip (unmarshal : Bytes → Except Bytes Bytes)
    (create : Bytes → Option Bytes) (dir : Bytes)
    (iter : Nat → Order) (pre payload rest : List Bytes) (m : Bytes) (wd0 : World)
    (hm : HasPrefix m containerFileToken = true)
    (hpay : ∀ l ∈ payload, HasPrefix l containerFileToken = false)
    (hrest : ∀ l ∈ rest.head?, HasPrefix l containerFileToken = true)
    (hrun : (run unmarshal create dir iter (scanLines (pre ++ m :: payload ++ rest)) wd0).code = 0) :
    ∃ (name : Bytes) (st0 st : State) (w : logWriter) (wd1 : World),
      (Split 47 (m.drop 3))[5]? = some name ∧
      mainLoop unmarshal create dir iter (scanLines (pre ++ [m])) { writer := none, world := wd0 } =
        Flow.running st0 ∧
      st0.world.fs.content (pathJoin dir (name ++ ascii ".log")) = some [] ∧
      mainLoop unmarshal create dir iter (scanLines (pre ++ m :: payload))
        { writer := none, world := wd0 } = Flow.running st ∧
      st.writer = some w ∧
      w.fileWriter = pathJoin dir (name ++ ascii ".log") ∧
      (∀ l ∈ payload, l ≠ [] → ∃ log, unmarshal l = Except.ok log) ∧
      st.world.trace = st0.world.trace ++
        (decodedLogs unmarshal payload).map (Effect.write (pathJoin dir (name ++ ascii ".log"))) ∧
      st.world.fs.content (pathJoin dir (name ++ ascii ".log")) =
        some (decodedLogs unmarshal payload).flatten ∧
      w.Close st.world = Ret.ok wd1 ∧
      wd1.fs.content
          (if w.detectedType = [] then pathJoin dir (name ++ ascii ".log")
           else pathJoin dir (name ++ ascii "-" ++ w.detectedType ++ ascii ".log")) =
        some (decodedLogs unmarshal payload).flatten := by
  obtain ⟨name, st0, st, w, wd1, hseg, h0, _, hfs0, hS, hw, hf1, hf2, hf3, hdec, _, hfs, htr, _,
    _, hcl, _, hfs1, _⟩ := session_run unmarshal create dir iter pre payload rest m wd0 hm hpay hrest hrun
  have hcont : st.world.fs.content (pathJoin dir (name ++ ascii ".log")) =
      some (decodedLogs unmarshal payload).flatten := by
    rw [hfs, content_append, hfs0]
    simp
  refine ⟨name, st0, st, w, wd1, hseg, h0, hfs0, hS, hw, hf1, hdec, htr, hcont, hcl, ?_⟩
  by_cases hl : w.detectedType = []
  · rw [hfs1, if_pos hl, if_pos hl]
    exact hcont
  · rw [hfs1, if_neg hl, if_neg hl]
    have : w.labelledFile = pathJoin dir (name ++ ascii "-" ++ w.detectedType ++ ascii ".log") := by
      rw [logWriter.labelledFile, hf2, hf3]
    rw [this]
    exact content_move_new _ _ _ _

/-- C4 at a session of a line, an empty line and another line, followed by
another session. -/
theorem C4_payload_round_trip_witness :
    ∃ (name : Bytes) (st0 st : State) (w : logWriter) (wd1 : World),
      (Split 47 ((ascii "==> a/b/c/d/e/NAME/0.log <==").drop 3))[5]? = some name ∧
      mainLoop jsonUnmarshal linuxCreate sampleDir sourceIter
        (scanLines ([] ++ [ascii "==> a/b/c/d/e/NAME/0.log <=="]))
        { writer := none, world := World.empty } = Flow.running st0 ∧
      st0.world.fs.content (pathJoin sampleDir (name ++ ascii ".log")) = some [] ∧
      mainLoop jsonUnmarshal linuxCreate sampleDir sourceIter
        (scanLines ([] ++ ascii "==> a/b/c/d/e/NAME/0.log <==" ::
          [jsonLine "one", [], jsonLine "two"]))
        { writer := none, world := World.empty } = Flow.running st ∧
      st.writer = some w ∧
      w.fileWriter = pathJoin sampleDir (name ++ ascii ".log") ∧
      (∀ l ∈ [jsonLine "one", [], jsonLine "two"], l ≠ [] →
        ∃ log, jsonUnmarshal l = Except.ok log) ∧
      st.world.trace = st0.world.trace ++
        (decodedLogs jsonUnmarshal [jsonLine "one", [], jsonLine "two"]).map
          (Effect.write (pathJoin sampleDir (name ++ ascii ".log"))) ∧
      st.world.fs.content (pathJoin sampleDir (name ++ ascii ".log")) =
        some (decodedLogs jsonUnmarshal [jsonLine "one", [], jsonLine "two"]).flatten ∧
      w.Close st.world = Ret.ok wd1 ∧
      wd1.fs.content
          (if w.detectedType = [] then pathJoin sampleDir (name ++ ascii ".log")
           else pathJoin sampleDir (name ++ ascii "-" ++ w.detectedType ++ ascii ".log")) =
        some (decodedLogs jsonUnmarshal [jsonLine "one", [], jsonLine "two"]).flatten :=
  C4_payload_round_trip jsonUnmarshal linuxCreate sampleDir sourceIter [] [jsonLine "one", [], jsonLine "two"]
    [ascii "==> a/b/c/d/e/OTHER/0.log <=="] (ascii "==> a/b/c/d/e/NAME/0.log <==") World.empty
    (by decide) (by decide) (by decide) (by decide)

/-- C5 (counterexample): in the session of a marker followed by a line that
matches only the router pattern and a line that matches only the controllers
pattern, the close reports `controllers` and renames the file to
`NAME-controllers.log`: the label of the first matching line is overridden.
Each line matches one pattern, so the order of the map traversal plays no
part. -/
theorem C5_counterexample :
    run jsonUnmarshal linuxCreate sampleDir sourceIter
      (scanLines [ascii "==> a/b/c/d/e/NAME/0.log <==", jsonLine "Starting template router",
        jsonLine "Starting controllers on"]) World.empty =
    { world :=
        { fs := [(ascii "/w/containers/NAME-controllers.log",
            ascii "Starting template routerStarting controllers on")]
          handles := []
          trace :=
            [Effect.stdout (ascii "Writing containers/NAME.log ... "),
             Effect.create (ascii "/w/containers/NAME.log"),
             Effect.write (ascii "/w/containers/NAME.log") (ascii "Starting template router"),
             Effect.write (ascii "/w/containers/NAME.log") (ascii "Starting controllers on"),
             Effect.stdout (ascii "2 lines, detected: controllers\n"),
             Effect.close (ascii "/w/containers/NAME.log"),
             Effect.rename (ascii "/w/containers/NAME.log")
               (ascii "/w/containers/NAME-controllers.log")] }
      code := 0 } := by
  decide

/-- C5 (amended): a `Write` of a line that decodes to a text matching no
pattern leaves the label as it was; a `Write` of a line whose text matches
some pattern sets the label to that of a pattern the text matches, whatever
the label was before. -/
theorem C5_label_follows_each_line (unmarshal : Bytes → Except Bytes Bytes) (order : Order)
    (w : logWriter) (p log : Bytes) (wd : World)
    (hp : p ≠ []) (hu : unmarshal p = Except.ok log) :
    (matchesTable log = false →
      ((w.Write unmarshal order p wd).1).detectedType = w.detectedType) ∧
    (matchesTable log = true →
      ∃ e ∈ contentDetector, Contains log e.1 = true ∧
        ((w.Write unmarshal order p wd).1).detectedType = e.2) := by
  rw [Write_ok unmarshal order w wd p log hp hu]
  constructor
  · intro hno
    refine detect_none order log _ ?_
    intro e he
    by_contra hc
    have : matchesTable log = true := (matchesTable_iff log).mpr ⟨e, he, by simpa using hc⟩
    rw [hno] at this
    exact absurd this (by decide)
  · intro hyes
    exact detect_some order log _ ((matchesTable_iff log).mp hyes)

/-- C5 (amended) at a writer labelled `router` and a line of the controllers. -/
theorem C5_label_follows_each_line_witness :
    (matchesTable (ascii "Starting controllers on") = false →
      (({ fileWriter := ascii "/w/containers/NAME.log", count := 1,
          detectedType := ascii "router", containerName := ascii "NAME",
          dirName := sampleDir } : logWriter).Write jsonUnmarshal sourceOrder
        (jsonLine "Starting controllers on") World.empty).1.detectedType = ascii "router") ∧
    (matchesTable (ascii "Starting controllers on") = true →
      ∃ e ∈ contentDetector, Contains (ascii "Starting controllers on") e.1 = true ∧
        (({ fileWriter := ascii "/w/containers/NAME.log", count := 1,
            detectedType := ascii "router", containerName := ascii "NAME",
            dirName := sampleDir } : logWriter).Write jsonUnmarshal sourceOrder
          (jsonLine "Starting controllers on") World.empty).1.detectedType = e.2) :=
  C5_label_follows_each_line jsonUnmarshal sourceOrder _ (jsonLine "Starting controllers on")
    (ascii "Starting controllers on") World.empty (by decide) (by decide)

/-- C6 (counterexample): the two lines of a session decode to
`Starting template ` and `router`; the file holds `Starting template router`,
which contains a pattern of the table, and yet no label is detected and the
file is not renamed. -/
theorem C6_counterexample :
    Contains (ascii "Starting template router") (ascii "Starting template router") = true ∧
    (ascii "Starting template router", ascii "router") ∈ contentDetector ∧
    run jsonUnmarshal linuxCreate sampleDir sourceIter
      (scanLines [ascii "==> a/b/c/d/e/NAME/0.log <==", jsonLine "Starting template ",
        jsonLine "router"]) World.empty =
    { world :=
        { fs := [(ascii "/w/containers/NAME.log", ascii "Starting template router")]
          handles := []
          trace :=
            [Effect.stdout (ascii "Writing containers/NAME.log ... "),
             Effect.create (ascii "/w/containers/NAME.log"),
             Effect.write (ascii "/w/containers/NAME.log") (ascii "Starting template "),
             Effect.write (ascii "/w/containers/NAME.log") (ascii "router"),
             Effect.stdout (ascii "2 lines\n"),
             Effect.close (ascii "/w/containers/NAME.log")] }
      code := 0 } := by
  decide

/-- C6 (amended): in a run that ends with status 0, take the session opened by
the marker `m`, with `payload` the lines up to the next marker or the end of
the input.  The writer closed at the end of the session has a label exactly
when the decoded text of some single line of `payload` contains a pattern of
the table.  With a label the close ends with the rename of `<name>.log` to
`<name>-<label>.log`, after which the content is under the new name and the
old name is gone; without a label the close renames nothing and leaves the
files as they are. -/
theorem C6_renamed_iff_line_matches (unmarshal : Bytes → Except Bytes Bytes)
    (create : Bytes → Option Bytes) (dir : Bytes)
    (iter : Nat → Order) (pre payload rest : List Bytes) (m : Bytes) (wd0 : World)
    (hm : HasPrefix m containerFileToken = true)
    (hpay : ∀ l ∈ payload, HasPrefix l containerFileToken = false)
    (hrest : ∀ l ∈ rest.head?, HasPrefix l containerFileToken = true)
    (hrun : (run unmarshal create dir iter (scanLines (pre ++ m :: payload ++ rest)) wd0).code = 0) :
    ∃ (name : Bytes) (st : State) (w : logWriter) (wd1 : World),
      (Split 47 (m.drop 3))[5]? = some name ∧
      mainLoop unmarshal create dir iter (scanLines (pre ++ m :: payload))
        { writer := none, world := wd0 } = Flow.running st ∧
      st.writer = some w ∧
      w.Close st.world = Ret.ok wd1 ∧
      wd1.trace <+:
        (run unmarshal create dir iter (scanLines (pre ++ m :: payload ++ rest)) wd0).world.trace ∧
      (w.detectedType ≠ [] ↔
        ∃ log ∈ decodedLogs unmarshal payload, ∃ e ∈ contentDetector, Contains log e.1 = true) ∧
      (w.detectedType ≠ [] →
        wd1.trace = st.world.trace ++
          [Effect.stdout w.countLine, Effect.close w.fileWriter,
           Effect.rename (pathJoin dir (name ++ ascii ".log"))
             (pathJoin dir (name ++ ascii "-" ++ w.detectedType ++ ascii ".log"))] ∧
        wd1.fs.content (pathJoin dir (name ++ ascii "-" ++ w.detectedType ++ ascii ".log")) =
          some (decodedLogs unmarshal payload).flatten ∧
        wd1.fs.content (pathJoin dir (name ++ ascii ".log")) = none) ∧
      (w.detectedType = [] →
        wd1.trace = st.world.trace ++ [Effect.stdout w.countLine, Effect.close w.fileWriter] ∧
        wd1.fs = st.world.fs) := by
  obtain ⟨name, st0, st, w, wd1, hseg, _, _, _, hS, hw, _, hf2, hf3, _, _, _, _, _, hlab, hcl,
    htr, hfs1, hpre⟩ := session_run unmarshal create dir iter pre payload rest m wd0 hm hpay hrest hrun
  have hlog : w.logFile = pathJoin dir (name ++ ascii ".log") := by
    rw [logWriter.logFile, hf2, hf3]
  have hnew : w.labelledFile =
      pathJoin dir (name ++ ascii "-" ++ w.detectedType ++ ascii ".log") := by
    rw [logWriter.labelledFile, hf2, hf3]
  refine ⟨name, st, w, wd1, hseg, hS, hw, hcl, hpre, ?_, ?_, ?_⟩
  · rw [Ne, hlab]
    constructor
    · intro h
      by_contra hno
      apply h
      intro log hlogmem
      by_contra hmt
      have hmt1 : matchesTable log = true := by simpa using hmt
      obtain ⟨e, he, hc⟩ := (matchesTable_iff log).mp hmt1
      exact hno ⟨log, hlogmem, e, he, hc⟩
    · rintro ⟨log, hlogmem, e, he, hc⟩ hall
      have h1 : matchesTable log = true := (matchesTable_iff log).mpr ⟨e, he, hc⟩
      rw [hall log hlogmem] at h1
      exact absurd h1 (by decide)
  · intro hl
    refine ⟨?_, ?_, ?_⟩
    · rw [htr, logWriter.closeEffects, if_neg hl, hlog, hnew]
      rfl
    · rw [hfs1, if_neg hl, hnew]
      exact content_move_new _ _ _ _
    · rw [hfs1, if_neg hl, hlog, hnew]
      exact content_move_old _ _ _ _ (logFile_ne_labelledFile _ _ _)
  · intro hl
    refine ⟨?_, ?_⟩
    · rw [htr, logWriter.closeEffects, if_pos hl]
      rfl
    · rw [hfs1, if_pos hl]

/-- C6 (amended) at a session with one line of the router. -/
theorem C6_renamed_iff_line_matches_witness :
    ∃ (name : Bytes) (st : State) (w : logWriter) (wd1 : World),
      (Split 47 ((ascii "==> a/b/c/d/e/NAME/0.log <==").drop 3))[5]? = some name ∧
      mainLoop jsonUnmarshal linuxCreate sampleDir sourceIter
        (scanLines ([] ++ ascii "==> a/b/c/d/e/NAME/0.log <==" ::
          [jsonLine "x", jsonLine "Starting template router"]))
        { writer := none, world := World.empty } = Flow.running st ∧
      st.writer = some w ∧
      w.Close st.world = Ret.ok wd1 ∧
      wd1.trace <+:
        (run jsonUnmarshal linuxCreate sampleDir sourceIter
          (scanLines ([] ++ ascii "==> a/b/c/d/e/NAME/0.log <==" ::
            [jsonLine "x", jsonLine "Starting template router"] ++ []))
          World.empty).world.trace ∧
      (w.detectedType ≠ [] ↔
        ∃ log ∈ decodedLogs jsonUnmarshal [jsonLine "x", jsonLine "Starting template router"],
          ∃ e ∈ contentDetector, Contains log e.1 = true) ∧
      (w.detectedType ≠ [] →
        wd1.trace = st.world.trace ++
          [Effect.stdout w.countLine, Effect.close w.fileWriter,
           Effect.rename (pathJoin sampleDir (name ++ ascii ".log"))
             (pathJoin sampleDir (name ++ ascii "-" ++ w.detectedType ++ ascii ".log"))] ∧
        wd1.fs.content
            (pathJoin sampleDir (name ++ ascii "-" ++ w.detectedType ++ ascii ".log")) =
          some (decodedLogs jsonUnmarshal
            [jsonLine "x", jsonLine "Starting template router"]).flatten ∧
        wd1.fs.content (pathJoin sampleDir (name ++ ascii ".log")) = none) ∧
      (w.detectedType = [] →
        wd1.trace = st.world.trace ++ [Effect.stdout w.countLine, Effect.close w.fileWriter] ∧
        wd1.fs = st.world.fs) :=
  C6_renamed_iff_line_matches jsonUnmarshal linuxCreate sampleDir sourceIter []
    [jsonLine "x", jsonLine "Starting template router"] []
    (ascii "==> a/b/c/d/e/NAME/0.log <==") World.empty
    (by decide) (by decide) (by decide) (by decide)

/-- C7 (counterexample): three valid inputs.  First, the same marker line
read three times, its first session being classified: the input has three
marker lines, one of them distinct; the run makes three creations and leaves
two files, because the second session creates `NAME.log` anew after the
rename of the first and the third truncates it.  Second, two distinct markers
of the names `NAME` and `NAME-router`, the first session being classified
`router`: the run makes two creations and leaves one file, because the second
session creates the path the file of the first was renamed to.  Third, one
marker with a name of 300 bytes and one line: `os.Create` refuses the path,
the run ends with status 1 and leaves no file. -/
theorem C7_counterexample :
    (([ascii "==> a/b/c/d/e/NAME/0.log <==", ascii "==> a/b/c/d/e/NAME/0.log <==",
      ascii "==> a/b/c/d/e/NAME/0.log <=="].dedup).length = 1 ∧
    run jsonUnmarshal linuxCreate sampleDir sourceIter
      (scanLines [ascii "==> a/b/c/d/e/NAME/0.log <==", jsonLine "Starting template router",
        ascii "==> a/b/c/d/e/NAME/0.log <==", ascii "==> a/b/c/d/e/NAME/0.log <=="])
      World.empty =
    { world :=
        { fs := [(ascii "/w/containers/NAME.log", []),
                 (ascii "/w/containers/NAME-router.log", ascii "Starting template router")]
          handles := []
          trace :=
            [Effect.stdout (ascii "Writing containers/NAME.log ... "),
             Effect.create (ascii "/w/containers/NAME.log"),
             Effect.write (ascii "/w/containers/NAME.log") (ascii "Starting template router"),
             Effect.stdout (ascii "1 lines, detected: router\n"),
             Effect.close (ascii "/w/containers/NAME.log"),
             Effect.rename (ascii "/w/containers/NAME.log")
               (ascii "/w/containers/NAME-router.log"),
             Effect.stdout (ascii "Writing containers/NAME.log ... "),
             Effect.create (ascii "/w/containers/NAME.log"),
             Effect.stdout (ascii "0 lines\n"),
             Effect.close (ascii "/w/containers/NAME.log"),
             Effect.stdout (ascii "Writing containers/NAME.log ... "),
             Effect.create (ascii "/w/containers/NAME.log"),
             Effect.stdout (ascii "0 lines\n"),
             Effect.close (ascii "/w/containers/NAME.log")] }
      code := 0 }) ∧
    (([ascii "==> a/b/c/d/e/NAME/0.log <==",
       ascii "==> a/b/c/d/e/NAME-router/0.log <=="].dedup).length = 2 ∧
    markerNames [ascii "==> a/b/c/d/e/NAME/0.log <==", jsonLine "Starting template router",
      ascii "==> a/b/c/d/e/NAME-router/0.log <=="] = [ascii "NAME", ascii "NAME-router"] ∧
    run jsonUnmarshal linuxCreate sampleDir sourceIter
      (scanLines [ascii "==> a/b/c/d/e/NAME/0.log <==", jsonLine "Starting template router",
        ascii "==> a/b/c/d/e/NAME-router/0.log <=="])
      World.empty =
    { world :=
        { fs := [(ascii "/w/containers/NAME-router.log", [])]
          handles := []
          trace :=
            [Effect.stdout (ascii "Writing containers/NAME.log ... "),
             Effect.create (ascii "/w/containers/NAME.log"),
             Effect.write (ascii "/w/containers/NAME.log") (ascii "Starting template router"),
             Effect.stdout (ascii "1 lines, detected: router\n"),
             Effect.close (ascii "/w/containers/NAME.log"),
             Effect.rename (ascii "/w/containers/NAME.log")
               (ascii "/w/containers/NAME-router.log"),
             Effect.stdout (ascii "Writing containers/NAME-router.log ... "),
             Effect.create (ascii "/w/containers/NAME-router.log"),
             Effect.stdout (ascii "0 lines\n"),
             Effect.close (ascii "/w/containers/NAME-router.log")] }
      code := 0 }) ∧
    ((Split 47 ((ascii "==> a/b/c/d/e/" ++ List.replicate 300 97 ++
      ascii "/0.log <==").drop 3)).length = 7 ∧
    jsonUnmarshal (jsonLine "hello") = Except.ok (ascii "hello") ∧
    run jsonUnmarshal linuxCreate sampleDir sourceIter
      (scanLines [ascii "==> a/b/c/d/e/" ++ List.replicate 300 97 ++ ascii "/0.log <==",
        jsonLine "hello"])
      World.empty =
    { world :=
        { fs := []
          handles := []
          trace :=
            [Effect.stdout (ascii "Writing containers/" ++ List.replicate 300 97 ++
               ascii ".log ... "),
             Effect.stderr (ascii "ERROR: open /w/containers/" ++ List.replicate 300 97 ++
               ascii ".log: file name too long\n")] }
      code := 1 }) := by
  decide

/-- C7 (amended): on a valid input (the first line is a marker, every marker
has at least six segments, every non-empty line without the token decodes)
whose container names are pairwise distinct and do not end in `-<label>` for
a label of the table, and when `os.Create` succeeds on the log file of every
container name, the run, started in an empty world, ends with status 0, makes
as many file creations as the input has marker lines and leaves as many
files. -/
theorem C7_one_file_per_marker (unmarshal : Bytes → Except Bytes Bytes)
    (create : Bytes → Option Bytes) (dir : Bytes)
    (iter : Nat → Order) (lines : List Bytes)
    (hfirst : ∀ l ∈ lines.head?, HasPrefix l containerFileToken = true)
    (hseg : ∀ l ∈ lines, HasPrefix l containerFileToken = true →
      6 ≤ (Split 47 (l.drop 3)).length)
    (hdec : ∀ l ∈ lines, HasPrefix l containerFileToken = false → l ≠ [] →
      ∃ log, unmarshal l = Except.ok log)
    (hnodup : (markerNames lines).Nodup)
    (hsuffix : ∀ n ∈ markerNames lines, ∀ e ∈ contentDetector, ¬ (ascii "-" ++ e.2) <:+ n)
    (hcreate : ∀ n ∈ markerNames lines, create (pathJoin dir (n ++ ascii ".log")) = none) :
    (run unmarshal create dir iter (scanLines lines) World.empty).code = 0 ∧
    (run unmarshal create dir iter (scanLines lines) World.empty).world.fs.length =
      (lines.filter (fun l => HasPrefix l containerFileToken)).length ∧
    ((run unmarshal create dir iter (scanLines lines) World.empty).world.trace.filter
      Effect.isCreate).length =
      (lines.filter (fun l => HasPrefix l containerFileToken)).length := by
  have hgood : GoodNames ((markerNames lines).reverse ++ []) := by
    refine ⟨by simpa using hnodup, ?_⟩
    intro n hn
    exact hsuffix n (by simpa using hn)
  have hstart : FilesInv dir [] { writer := none, world := World.empty } := by
    refine ⟨rfl, rfl, rfl⟩
  obtain ⟨st1, hrun, hinv⟩ := files_loop unmarshal create dir lines iter _ [] hstart
    (fun _ => hfirst) hseg hdec hcreate hgood
  obtain ⟨wd, hc, htr, hlen, _⟩ := close_files dir _ st1 hinv hgood
  have hfin : run unmarshal create dir iter (scanLines lines) World.empty = { world := wd, code := 0 } := by
    unfold run
    rw [hrun]
    simp [finish, deferred, hc]
  have hcount := markerNames_length lines hseg
  rw [hfin]
  refine ⟨rfl, ?_, ?_⟩
  · simp only [hlen]
    simpa using hcount
  · simp only [htr]
    simpa using hcount

/-- C7 (amended) at an input of two sessions, one of them without payload:
two creations, two files. -/
theorem C7_one_file_per_marker_witness :
    (run jsonUnmarshal linuxCreate sampleDir sourceIter
      (scanLines [ascii "==> a/b/c/d/e/ONE/0.log <==", ascii "==> a/b/c/d/e/TWO/0.log <==",
        jsonLine "Starting template router"]) World.empty).code = 0 ∧
    (run jsonUnmarshal linuxCreate sampleDir sourceIter
      (scanLines [ascii "==> a/b/c/d/e/ONE/0.log <==", ascii "==> a/b/c/d/e/TWO/0.log <==",
        jsonLine "Starting template router"]) World.empty).world.fs.length = 2 ∧
    ((run jsonUnmarshal linuxCreate sampleDir sourceIter
      (scanLines [ascii "==> a/b/c/d/e/ONE/0.log <==", ascii "==> a/b/c/d/e/TWO/0.log <==",
        jsonLine "Starting template router"]) World.empty).world.trace.filter
      Effect.isCreate).length = 2 :=
  C7_one_file_per_marker jsonUnmarshal linuxCreate sampleDir sourceIter
    [ascii "==> a/b/c/d/e/ONE/0.log <==", ascii "==> a/b/c/d/e/TWO/0.log <==",
      jsonLine "Starting template router"]
    (by decide) (by decide)
    (by
      intro l hl hm _
      simp only [List.mem_cons, List.mem_singleton, List.not_mem_nil, or_false] at hl
      rcases hl with rfl | rfl | rfl
      · exact absurd hm (by decide)
      · exact absurd hm (by decide)
      · exact ⟨ascii "Starting template router", by decide⟩)
    (by decide) (by decide) (by decide)

/-- C8 (counterexample): three lines that are not a JSON object with a string
field `log`, each read in an open session and followed by the line
`{"log":"hello"}`.  The empty line is not valid JSON (`json.Unmarshal`
rejects it), but `Write` returns on it before decoding: it is skipped and not
counted.  The lines `{}` and `null` are accepted by `json.Unmarshal`, which
leaves the field `Log` empty: each is counted and an empty text is written.
In all three runs the next line is processed and the run ends with status
0. -/
theorem C8_counterexample :
    (jsonUnmarshal [] = Except.error (ascii "unexpected end of JSON input") ∧
    run jsonUnmarshal linuxCreate sampleDir sourceIter
      (scanLines [ascii "==> a/b/c/d/e/NAME/0.log <==", [], jsonLine "hello"]) World.empty =
    { world :=
        { fs := [(ascii "/w/containers/NAME.log", ascii "hello")]
          handles := []
          trace :=
            [Effect.stdout (ascii "Writing containers/NAME.log ... "),
             Effect.create (ascii "/w/containers/NAME.log"),
             Effect.write (ascii "/w/containers/NAME.log") (ascii "hello"),
             Effect.stdout (ascii "1 lines\n"),
             Effect.close (ascii "/w/containers/NAME.log")] }
      code := 0 }) ∧
    (jsonUnmarshal (ascii "\x7b\x7d") = Except.ok [] ∧
    run jsonUnmarshal linuxCreate sampleDir sourceIter
      (scanLines [ascii "==> a/b/c/d/e/NAME/0.log <==", ascii "\x7b\x7d", jsonLine "hello"])
      World.empty =
    { world :=
        { fs := [(ascii "/w/containers/NAME.log", ascii "hello")]
          handles := []
          trace :=
            [Effect.stdout (ascii "Writing containers/NAME.log ... "),
             Effect.create (ascii "/w/containers/NAME.log"),
             Effect.write (ascii "/w/containers/NAME.log") [],
             Effect.write (ascii "/w/containers/NAME.log") (ascii "hello"),
             Effect.stdout (ascii "2 lines\n"),
             Effect.close (ascii "/w/containers/NAME.log")] }
      code := 0 }) ∧
    (jsonUnmarshal (ascii "null") = Except.ok [] ∧
    run jsonUnmarshal linuxCreate sampleDir sourceIter
      (scanLines [ascii "==> a/b/c/d/e/NAME/0.log <==", ascii "null", jsonLine "hello"])
      World.empty =
    { world :=
        { fs := [(ascii "/w/containers/NAME.log", ascii "hello")]
          handles := []
          trace :=
            [Effect.stdout (ascii "Writing containers/NAME.log ... "),
             Effect.create (ascii "/w/containers/NAME.log"),
             Effect.write (ascii "/w/containers/NAME.log") [],
             Effect.write (ascii "/w/containers/NAME.log") (ascii "hello"),
             Effect.stdout (ascii "2 lines\n"),
             Effect.close (ascii "/w/containers/NAME.log")] }
      code := 0 }) := by
  decide

/-- C8 (amended): a non-empty line without the token that reaches an open
session is never skipped; what happens to it is decided by `json.Unmarshal`
alone.  When `json.Unmarshal` returns an error the run ends there: whatever
follows the line in the input, the run ends with status 1 in the world the
line found, with only the error message added on standard error.  When
`json.Unmarshal` returns without error, whatever the line is, the line is
counted, the text of the field `Log` is written to the file of the session
and the loop goes on. -/
theorem C8_malformed_payload_fatal (unmarshal : Bytes → Except Bytes Bytes)
    (create : Bytes → Option Bytes) (dir : Bytes)
    (iter : Nat → Order) (pre rest : List Scanned) (line : Bytes) (w : logWriter)
    (wd0 wd : World)
    (hpre : mainLoop unmarshal create dir iter pre { writer := none, world := wd0 } =
      Flow.running { writer := some w, world := wd })
    (hm : HasPrefix line containerFileToken = false)
    (hne : line ≠ []) :
    (∀ err, unmarshal line = Except.error err →
      run unmarshal create dir iter (pre ++ { err := none, bytes := line } :: rest) wd0 =
        { world :=
            { fs := wd.fs, handles := wd.handles,
              trace := wd.trace ++ [Effect.stderr (ascii "ERROR: " ++ err ++ ascii "\n")] }
          code := 1 }) ∧
    (∀ log, unmarshal line = Except.ok log →
      mainLoop unmarshal create dir iter (pre ++ [{ err := none, bytes := line }])
        { writer := none, world := wd0 } =
        Flow.running
          { writer := some
              { fileWriter := w.fileWriter, count := wrapInt64 (w.count + 1),
                detectedType := detect (iter pre.length) log w.detectedType,
                containerName := w.containerName, dirName := w.dirName }
            world :=
              { fs := wd.fs.append w.fileWriter log, handles := wd.handles,
                trace := wd.trace ++ [Effect.write w.fileWriter log] } }) := by
  constructor
  · intro err hu
    unfold run
    rw [mainLoop_append, hpre]
    simp only [Flow.andThen, mainLoop]
    rw [loopBody_error unmarshal create dir _ line err w wd hm hne hu]
    simp [finish, handleError]
  · intro log hu
    have hcons : Consistent { writer := some w, world := wd } :=
      mainLoop_consistent unmarshal create dir pre iter _ _ (Consistent_start wd0) hpre
    obtain ⟨_, hh, _⟩ := hcons w rfl
    rw [mainLoop_append, hpre]
    simp only [Flow.andThen, mainLoop]
    rw [loopBody_ok unmarshal create dir _ line log w wd hm hne hu hh]
    simp

/-- C8 (amended) at a session holding the line `garbage`, followed by a valid
line that is never read: the run ends with status 1 and the message of
`json.Unmarshal` on standard error. -/
theorem C8_malformed_payload_fatal_witness :
    run jsonUnmarshal linuxCreate sampleDir sourceIter
      (scanLines [ascii "==> a/b/c/d/e/NAME/0.log <=="] ++
        { err := none, bytes := ascii "garbage" } :: scanLines [jsonLine "hello"]) World.empty =
      { world :=
          { fs := [(ascii "/w/containers/NAME.log", [])]
            handles := [ascii "/w/containers/NAME.log"]
            trace :=
              [Effect.stdout (ascii "Writing containers/NAME.log ... "),
               Effect.create (ascii "/w/containers/NAME.log"),
               Effect.stderr (ascii
                 "ERROR: invalid character \x27g\x27 looking for beginning of value\n")] }
        code := 1 } :=
  (C8_malformed_payload_fatal jsonUnmarshal linuxCreate sampleDir sourceIter
    (scanLines [ascii "==> a/b/c/d/e/NAME/0.log <=="]) (scanLines [jsonLine "hello"])
    (ascii "garbage")
    { fileWriter := ascii "/w/containers/NAME.log", count := 0, detectedType := [],
      containerName := ascii "NAME", dirName := sampleDir }
    World.empty
    { fs := [(ascii "/w/containers/NAME.log", [])]
      handles := [ascii "/w/containers/NAME.log"]
      trace :=
        [Effect.stdout (ascii "Writing containers/NAME.log ... "),
         Effect.create (ascii "/w/containers/NAME.log")] }
    (by decide) (by decide) (by decide)).1
    (ascii "invalid character \x27g\x27 looking for beginning of value") (by decide)

/-- C9: a line with the token read in a state `st` of the loop.  When its
remainder splits into fewer than six segments the index expression panics:
the loop stops there with the writer it had, already closed once, whatever
follows in the input; the run ends with a non-zero status and no file is
created for the line.  When the remainder has at least six segments the line
never panics: the loop goes on to the next line when `os.Create` succeeds on
the log file of the segment at index 5, and the only other end is the error
of `os.Create`, reported through `handleError`. -/
theorem C9_short_marker_fatal (unmarshal : Bytes → Except Bytes Bytes)
    (create : Bytes → Option Bytes) (dir : Bytes)
    (iter : Nat → Order) (pre rest : List Scanned) (line : Bytes) (wd0 : World) (st : State)
    (hpre : mainLoop unmarshal create dir iter pre { writer := none, world := wd0 } = Flow.running st)
    (hm : HasPrefix line containerFileToken = true) :
    ((Split 47 (line.drop 3)).length < 6 →
      ∃ wd, closeWriter st.writer st.world = Ret.ok wd ∧
        mainLoop unmarshal create dir iter (pre ++ { err := none, bytes := line } :: rest)
          { writer := none, world := wd0 } =
          Flow.panicked { writer := st.writer, world := wd } ∧
        (run unmarshal create dir iter (pre ++ { err := none, bytes := line } :: rest) wd0).code ≠ 0 ∧
        ∀ p, Effect.create p ∈
            (run unmarshal create dir iter (pre ++ { err := none, bytes := line } :: rest) wd0).world.trace →
          Effect.create p ∈ st.world.trace) ∧
    (6 ≤ (Split 47 (line.drop 3)).length →
      (∀ s, mainLoop unmarshal create dir iter (pre ++ [{ err := none, bytes := line }])
        { writer := none, world := wd0 } ≠ Flow.panicked s) ∧
      ∃ name wd, (Split 47 (line.drop 3))[5]? = some name ∧
        closeWriter st.writer st.world = Ret.ok wd ∧
        (create (pathJoin dir (name ++ ascii ".log")) = none →
          ∃ st1, mainLoop unmarshal create dir iter (pre ++ [{ err := none, bytes := line }])
            { writer := none, world := wd0 } = Flow.running st1) ∧
        (∀ err, create (pathJoin dir (name ++ ascii ".log")) = some err →
          mainLoop unmarshal create dir iter (pre ++ [{ err := none, bytes := line }])
            { writer := none, world := wd0 } =
          Flow.exited (handleError err
            (printOut (ascii "Writing containers/" ++ name ++ ascii ".log ... ") wd)))) := by
  have hcons : Consistent st :=
    mainLoop_consistent unmarshal create dir pre iter _ st (Consistent_start wd0) hpre
  obtain ⟨wd, hc⟩ := closeWriter_consistent st hcons
  have htrim : TrimPrefix line containerFileToken = line.drop 3 := by
    rw [TrimPrefix_of_HasPrefix line _ hm, containerFileToken_length]
  constructor
  · intro hshort
    have hs : (Split 47 (TrimPrefix line containerFileToken))[5]? = none := by
      rw [htrim]
      exact List.getElem?_eq_none (by omega)
    have hloop : mainLoop unmarshal create dir iter (pre ++ { err := none, bytes := line } :: rest)
        { writer := none, world := wd0 } = Flow.panicked { writer := st.writer, world := wd } := by
      rw [mainLoop_append, hpre]
      simp only [Flow.andThen, mainLoop]
      rw [loopBody_marker_short unmarshal create dir _ line st wd hm hc hs]
    refine ⟨wd, hc, hloop, ?_, ?_⟩
    · unfold run
      rw [hloop]
      simp only [finish, deferred]
      cases closeWriter st.writer wd <;> simp
    · intro p hp
      unfold run at hp
      rw [hloop] at hp
      obtain ⟨es1, h1, hn1⟩ := closeWriter_trace st.writer st.world
      obtain ⟨es2, h2, hn2⟩ := closeWriter_trace st.writer wd
      rw [hc] at h1
      simp only [Ret.world] at h1
      have hfin : (finish (Flow.panicked { writer := st.writer, world := wd })).world.trace =
          st.world.trace ++ es1 ++ es2 := by
        simp only [finish, deferred]
        cases hc2 : closeWriter st.writer wd with
        | ok wd2 => rw [hc2] at h2; simp only [Ret.world] at h2; simp [h2, h1]
        | exit wd2 => rw [hc2] at h2; simp only [Ret.world] at h2; simp [h2, h1]
      rw [hfin] at hp
      simp only [List.mem_append] at hp
      rcases hp with (hp | hp) | hp
      · exact hp
      · exact absurd hp (hn1 p)
      · exact absurd hp (hn2 p)
  · intro hlong
    have hlt : 5 < (Split 47 (line.drop 3)).length := by omega
    have hs : (Split 47 (TrimPrefix line containerFileToken))[5]? =
        some ((Split 47 (line.drop 3))[5]) := by
      rw [htrim]
      exact List.getElem?_eq_getElem hlt
    have hstep : mainLoop unmarshal create dir iter (pre ++ [{ err := none, bytes := line }])
        { writer := none, world := wd0 } =
        loopBody unmarshal create dir (iter pre.length) { err := none, bytes := line } st := by
      rw [mainLoop_append, hpre]
      simp only [Flow.andThen, mainLoop, Nat.zero_add]
      cases loopBody unmarshal create dir (iter pre.length) { err := none, bytes := line } st <;>
        rfl
    rw [hstep]
    refine ⟨?_, (Split 47 (line.drop 3))[5], wd, List.getElem?_eq_getElem hlt, hc, ?_, ?_⟩
    · intro s
      cases hcr : create (pathJoin dir ((Split 47 (line.drop 3))[5] ++ ascii ".log")) with
      | none =>
        rw [loopBody_marker_ok unmarshal create dir _ line _ st wd hm hc hs hcr]
        simp
      | some e =>
        rw [loopBody_marker_refused unmarshal create dir _ line _ e st wd hm hc hs hcr]
        simp
    · intro hcr
      exact ⟨_, loopBody_marker_ok unmarshal create dir _ line _ st wd hm hc hs hcr⟩
    · intro err hcr
      exact loopBody_marker_refused unmarshal create dir _ line _ err st wd hm hc hs hcr

/-- C9 at the marker `==> a/b/c`, read after a session of one line. -/
theorem C9_short_marker_fatal_witness :
    ∃ wd,
      closeWriter (some
        { fileWriter := ascii "/w/containers/NAME.log", count := 1, detectedType := [],
          containerName := ascii "NAME", dirName := sampleDir })
        { fs := [(ascii "/w/containers/NAME.log", ascii "hello")]
          handles := [ascii "/w/containers/NAME.log"]
          trace :=
            [Effect.stdout (ascii "Writing containers/NAME.log ... "),
             Effect.create (ascii "/w/containers/NAME.log"),
             Effect.write (ascii "/w/containers/NAME.log") (ascii "hello")] } = Ret.ok wd ∧
      mainLoop jsonUnmarshal linuxCreate sampleDir sourceIter
        (scanLines [ascii "==> a/b/c/d/e/NAME/0.log <==", jsonLine "hello"] ++
          { err := none, bytes := ascii "==> a/b/c" } :: scanLines [jsonLine "more"])
        { writer := none, world := World.empty } =
        Flow.panicked
          { writer := some
              { fileWriter := ascii "/w/containers/NAME.log", count := 1, detectedType := [],
                containerName := ascii "NAME", dirName := sampleDir }
            world := wd } ∧
      (run jsonUnmarshal linuxCreate sampleDir sourceIter
        (scanLines [ascii "==> a/b/c/d/e/NAME/0.log <==", jsonLine "hello"] ++
          { err := none, bytes := ascii "==> a/b/c" } :: scanLines [jsonLine "more"])
        World.empty).code ≠ 0 ∧
      ∀ p, Effect.create p ∈
          (run jsonUnmarshal linuxCreate sampleDir sourceIter
            (scanLines [ascii "==> a/b/c/d/e/NAME/0.log <==", jsonLine "hello"] ++
              { err := none, bytes := ascii "==> a/b/c" } :: scanLines [jsonLine "more"])
            World.empty).world.trace →
        Effect.create p ∈
          [Effect.stdout (ascii "Writing containers/NAME.log ... "),
           Effect.create (ascii "/w/containers/NAME.log"),
           Effect.write (ascii "/w/containers/NAME.log") (ascii "hello")] :=
  (C9_short_marker_fatal jsonUnmarshal linuxCreate sampleDir sourceIter
    (scanLines [ascii "==> a/b/c/d/e/NAME/0.log <==", jsonLine "hello"])
    (scanLines [jsonLine "more"]) (ascii "==> a/b/c") World.empty
    { writer := some
        { fileWriter := ascii "/w/containers/NAME.log", count := 1, detectedType := [],
          containerName := ascii "NAME", dirName := sampleDir }
      world :=
        { fs := [(ascii "/w/containers/NAME.log", ascii "hello")]
          handles := [ascii "/w/containers/NAME.log"]
          trace :=
            [Effect.stdout (ascii "Writing containers/NAME.log ... "),
             Effect.create (ascii "/w/containers/NAME.log"),
             Effect.write (ascii "/w/containers/NAME.log") (ascii "hello")] } }
    (by decide) (by decide)).1 (by decide)

/-- C10: `Close` on a writer with name N, count C and label L, whose log file
exists, prints the line `C lines`, with `, detected: L` exactly when L is not
empty, then closes the handle, then renames `<dir>/N.log` to `<dir>/N-L.log`
only when L is not empty.  Without label the files are untouched; with a
label the content is found under the new name and the old name is gone. -/
theorem C10_close_sequence (w : logWriter) (wd : World) (c : Bytes)
    (hfile : wd.fs.content (pathJoin w.dirName (w.containerName ++ ascii ".log")) = some c) :
    (w.detectedType = [] →
      w.Close wd = Ret.ok
        { fs := wd.fs
          handles := wd.handles.erase w.fileWriter
          trace := wd.trace ++
            [Effect.stdout (fmtInt w.count ++ ascii " lines" ++ ascii "\n"),
             Effect.close w.fileWriter] }) ∧
    (w.detectedType ≠ [] →
      ∃ wd1, w.Close wd = Ret.ok wd1 ∧
        wd1.trace = wd.trace ++
          [Effect.stdout (fmtInt w.count ++ ascii " lines" ++ ascii ", detected: " ++
             w.detectedType ++ ascii "\n"),
           Effect.close w.fileWriter,
           Effect.rename (pathJoin w.dirName (w.containerName ++ ascii ".log"))
             (pathJoin w.dirName
               (w.containerName ++ ascii "-" ++ w.detectedType ++ ascii ".log"))] ∧
        wd1.handles = wd.handles.erase w.fileWriter ∧
        wd1.fs.content (pathJoin w.dirName
          (w.containerName ++ ascii "-" ++ w.detectedType ++ ascii ".log")) = some c ∧
        wd1.fs.content (pathJoin w.dirName (w.containerName ++ ascii ".log")) = none) := by
  constructor
  · intro hl
    exact Close_plain w wd hl
  · intro hl
    refine ⟨_, Close_labelled w wd c hl hfile, ?_, rfl, ?_, ?_⟩
    · simp
    · exact content_move_new _ _ _ _
    · exact content_move_old _ _ _ _ (logFile_ne_labelledFile _ _ _)

/-- C10 at a writer with count 2 and label `router`, which prints
`2 lines, detected: router`, closes and renames, and at a writer with count
12 and no label, which prints `12 lines` and closes. -/
theorem C10_close_sequence_witness :
    (∃ wd1,
      ({ fileWriter := ascii "/w/containers/NAME.log", count := 2,
         detectedType := ascii "router", containerName := ascii "NAME",
         dirName := sampleDir } : logWriter).Close
        { fs := [(ascii "/w/containers/NAME.log", ascii "xy")]
          handles := [ascii "/w/containers/NAME.log"], trace := [] } = Ret.ok wd1 ∧
      wd1.trace =
        [Effect.stdout (ascii "2 lines, detected: router\n"),
         Effect.close (ascii "/w/containers/NAME.log"),
         Effect.rename (ascii "/w/containers/NAME.log")
           (ascii "/w/containers/NAME-router.log")] ∧
      wd1.handles = [] ∧
      wd1.fs.content (ascii "/w/containers/NAME-router.log") = some (ascii "xy") ∧
      wd1.fs.content (ascii "/w/containers/NAME.log") = none) ∧
    ({ fileWriter := ascii "/w/containers/NAME.log", count := 12,
       detectedType := [], containerName := ascii "NAME",
       dirName := sampleDir } : logWriter).Close
      { fs := [(ascii "/w/containers/NAME.log", ascii "xy")]
        handles := [ascii "/w/containers/NAME.log"], trace := [] } =
      Ret.ok
        { fs := [(ascii "/w/containers/NAME.log", ascii "xy")]
          handles := []
          trace :=
            [Effect.stdout (ascii "12 lines\n"),
             Effect.close (ascii "/w/containers/NAME.log")] } :=
  ⟨(C10_close_sequence
      { fileWriter := ascii "/w/containers/NAME.log", count := 2,
        detectedType := ascii "router", containerName := ascii "NAME", dirName := sampleDir }
      { fs := [(ascii "/w/containers/NAME.log", ascii "xy")]
        handles := [ascii "/w/containers/NAME.log"], trace := [] }
      (ascii "xy") (by decide)).2 (by decide),
   (C10_close_sequence
      { fileWriter := ascii "/w/containers/NAME.log", count := 12,
        detectedType := [], containerName := ascii "NAME", dirName := sampleDir }
      { fs := [(ascii "/w/containers/NAME.log", ascii "xy")]
        handles := [ascii "/w/containers/NAME.log"], trace := [] }
      (ascii "xy") (by decide)).1 (by decide)⟩

/-- C11: in every run of the loop from the empty world the handles of the
final world are those the trace leaves open, and at no moment of the trace,
that is after no prefix of it, is more than one output handle open: the close
of a session comes before the creation of the next file.  In every state the
loop reaches the only open handle is that of the writer, none when there is
no writer; and unless the process left through `os.Exit` no handle is open at
the end.  The same bound holds at every moment of the whole of `main`. -/
theorem C11_one_open_handle (unmarshal : Bytes → Except Bytes Bytes)
    (create : Bytes → Option Bytes) (dir : Bytes)
    (iter : Nat → Order) (scans : List Scanned) :
    (∀ t, t <+: (run unmarshal create dir iter scans World.empty).world.trace →
      (openHandles t).length ≤ 1) ∧
    (run unmarshal create dir iter scans World.empty).world.handles =
      openHandles (run unmarshal create dir iter scans World.empty).world.trace ∧
    (∀ st, mainLoop unmarshal create dir iter scans { writer := none, world := World.empty } =
        Flow.running st →
      st.world.handles.length ≤ 1 ∧
      (st.writer = none → st.world.handles = []) ∧
      (∀ w, st.writer = some w → st.world.handles = [w.fileWriter])) ∧
    ((run unmarshal create dir iter scans World.empty).code ≠ 1 →
      (run unmarshal create dir iter scans World.empty).world.handles = []) ∧
    (∀ (env : Env) (t : List Effect),
      t <+: (main unmarshal iter env World.empty).world.trace → (openHandles t).length ≤ 1) := by
  have hstart : LoopHandles { writer := none, world := World.empty } :=
    ⟨fun _ => rfl, fun w hw => by simp at hw⟩
  have hloop := mainLoop_handles unmarshal create dir scans iter
    { writer := none, world := World.empty } HandlesOk_empty hstart
  obtain ⟨hfin, hend⟩ := finish_handles _ hloop
  refine ⟨hfin.2, hfin.1, ?_, hend, ?_⟩
  · intro st hst
    rw [hst] at hloop
    exact ⟨HandlesOk_length _ hloop.1, hloop.2.1, hloop.2.2⟩
  · intro env
    exact (main_handles unmarshal iter env World.empty HandlesOk_empty rfl).2

/-- C12: in a run that ends with status 0, take the session opened by the
marker `m`, with `payload` the lines up to the next marker or the end of the
input.  When the pattern of the table entry `e` occurs in the decoded text of
some line of `payload` and no pattern of another entry occurs in any, the
writer closed at the end of the session has the label of `e`, whatever the
orders of the map traversals; the close prints the count followed by
`, detected: <label>` and renames `<name>.log` to `<name>-<label>.log`, where
the content of the session then is. -/
theorem C12_single_pattern_label (unmarshal : Bytes → Except Bytes Bytes)
    (create : Bytes → Option Bytes) (dir : Bytes)
    (iter : Nat → Order) (pre payload rest : List Bytes) (m : Bytes) (wd0 : World)
    (e : Bytes × Bytes)
    (hm : HasPrefix m containerFileToken = true)
    (hpay : ∀ l ∈ payload, HasPrefix l containerFileToken = false)
    (hrest : ∀ l ∈ rest.head?, HasPrefix l containerFileToken = true)
    (hrun : (run unmarshal create dir iter (scanLines (pre ++ m :: payload ++ rest)) wd0).code = 0)
    (he : e ∈ contentDetector)
    (hsome : ∃ log ∈ decodedLogs unmarshal payload, Contains log e.1 = true)
    (honly : ∀ log ∈ decodedLogs unmarshal payload, ∀ e1 ∈ contentDetector,
      Contains log e1.1 = true → e1 = e) :
    ∃ (name : Bytes) (st : State) (w : logWriter) (wd1 : World),
      (Split 47 (m.drop 3))[5]? = some name ∧
      mainLoop unmarshal create dir iter (scanLines (pre ++ m :: payload))
        { writer := none, world := wd0 } = Flow.running st ∧
      st.writer = some w ∧
      w.detectedType = e.2 ∧
      w.Close st.world = Ret.ok wd1 ∧
      wd1.trace = st.world.trace ++
        [Effect.stdout (fmtInt w.count ++ ascii " lines" ++ ascii ", detected: " ++ e.2 ++
           ascii "\n"),
         Effect.close (pathJoin dir (name ++ ascii ".log")),
         Effect.rename (pathJoin dir (name ++ ascii ".log"))
           (pathJoin dir (name ++ ascii "-" ++ e.2 ++ ascii ".log"))] ∧
      wd1.fs.content (pathJoin dir (name ++ ascii "-" ++ e.2 ++ ascii ".log")) =
        some (decodedLogs unmarshal payload).flatten ∧
      wd1.fs.content (pathJoin dir (name ++ ascii ".log")) = none ∧
      wd1.trace <+:
        (run unmarshal create dir iter (scanLines (pre ++ m :: payload ++ rest)) wd0).world.trace := by
  obtain ⟨name, st0, st, w, wd1, hseg, h0, hw0, _, hS, hw, hf1, hf2, hf3, _, _, _, _, _, _, hcl,
    htr, hfs1, hpre⟩ := session_run unmarshal create dir iter pre payload rest m wd0 hm hpay hrest hrun
  have hone : ∀ log ∈ decodedLogs unmarshal payload, MatchesOnce log := by
    intro log hlog a ha b hb hca hcb
    rw [honly log hlog a ha hca, honly log hlog b hb hcb]
  have hlab := session_label unmarshal create dir iter pre payload m name wd0 st0 st w hpay hone h0 hw0
    hS hw
  have hlabel : w.detectedType = e.2 := by
    rw [hlab, lastLabel_eq]
    obtain ⟨log, hlog, hc⟩ := hsome
    have hmem : log ∈ (decodedLogs unmarshal payload).filter matchesTable :=
      List.mem_filter.mpr ⟨hlog, (matchesTable_iff log).mpr ⟨e, he, hc⟩⟩
    cases hlast : ((decodedLogs unmarshal payload).filter matchesTable).getLast? with
    | none =>
      rw [List.getLast?_eq_none_iff] at hlast
      rw [hlast] at hmem
      simp at hmem
    | some x =>
      have hx : x ∈ (decodedLogs unmarshal payload).filter matchesTable :=
        List.mem_of_getLast?_eq_some hlast
      obtain ⟨hx1, hx2⟩ := List.mem_filter.mp hx
      obtain ⟨e1, he1, hc1⟩ := (matchesTable_iff x).mp hx2
      have := honly x hx1 e1 he1 hc1
      subst this
      simp only [Option.map_some', Option.getD_some]
      exact tableLabel_of_mem x e1 he1 hc1 (hone x hx1)
  have hne : w.detectedType ≠ [] := by
    rw [hlabel]
    exact label_ne_nil e he
  have hlog : w.logFile = pathJoin dir (name ++ ascii ".log") := by
    rw [logWriter.logFile, hf2, hf3]
  have hnew : w.labelledFile = pathJoin dir (name ++ ascii "-" ++ e.2 ++ ascii ".log") := by
    rw [logWriter.labelledFile, hf2, hf3, hlabel]
  refine ⟨name, st, w, wd1, hseg, hS, hw, hlabel, hcl, ?_, ?_, ?_, hpre⟩
  · rw [htr, logWriter.closeEffects, if_neg hne, hlog, hnew, logWriter.countLine,
      detectedText_ne _ hne, hlabel, hf1]
    simp
  · rw [hfs1, if_neg hne, hnew]
    exact content_move_new _ _ _ _
  · rw [hfs1, if_neg hne, hlog, hnew]
    exact content_move_old _ _ _ _ (logFile_ne_labelledFile _ _ _)

/-- C12 at Scenario B: a session with a plain line and a line of the router. -/
theorem C12_single_pattern_label_witness :
    ∃ (name : Bytes) (st : State) (w : logWriter) (wd1 : World),
      (Split 47 ((ascii "==> a/b/c/d/e/NAME/0.log <==").drop 3))[5]? = some name ∧
      mainLoop jsonUnmarshal linuxCreate sampleDir sourceIter
        (scanLines ([] ++ ascii "==> a/b/c/d/e/NAME/0.log <==" ::
          [jsonLine "x", jsonLine "Starting template router"]))
        { writer := none, world := World.empty } = Flow.running st ∧
      st.writer = some w ∧
      w.detectedType = (ascii "Starting template router", ascii "router").2 ∧
      w.Close st.world = Ret.ok wd1 ∧
      wd1.trace = st.world.trace ++
        [Effect.stdout (fmtInt w.count ++ ascii " lines" ++ ascii ", detected: " ++
           (ascii "Starting template router", ascii "router").2 ++ ascii "\n"),
         Effect.close (pathJoin sampleDir (name ++ ascii ".log")),
         Effect.rename (pathJoin sampleDir (name ++ ascii ".log"))
           (pathJoin sampleDir (name ++ ascii "-" ++
             (ascii "Starting template router", ascii "router").2 ++ ascii ".log"))] ∧
      wd1.fs.content (pathJoin sampleDir (name ++ ascii "-" ++
          (ascii "Starting template router", ascii "router").2 ++ ascii ".log")) =
        some (decodedLogs jsonUnmarshal
          [jsonLine "x", jsonLine "Starting template router"]).flatten ∧
      wd1.fs.content (pathJoin sampleDir (name ++ ascii ".log")) = none ∧
      wd1.trace <+:
        (run jsonUnmarshal linuxCreate sampleDir sourceIter
          (scanLines ([] ++ ascii "==> a/b/c/d/e/NAME/0.log <==" ::
            [jsonLine "x", jsonLine "Starting template router"] ++ []))
          World.empty).world.trace :=
  C12_single_pattern_label jsonUnmarshal linuxCreate sampleDir sourceIter []
    [jsonLine "x", jsonLine "Starting template router"] []
    (ascii "==> a/b/c/d/e/NAME/0.log <==") World.empty
    (ascii "Starting template router", ascii "router")
    (by decide) (by decide) (by decide) (by decide) (by decide) (by decide) (by decide)

/-- C13: for a process started with its program name and `rest` as further
arguments, `main` ends with the usage error, that is with status 1 after
nothing but the line `ERROR: usage: <program> containers.log` on standard
error (no file opened, no directory made, no file created), exactly when
`rest` does not hold one argument. -/
theorem C13_usage_error (unmarshal : Bytes → Except Bytes Bytes) (iter : Nat → Order)
    (env : Env) (wd : World) (prog : Bytes) (rest : List Bytes)
    (hargs : env.args = prog :: rest) :
    main unmarshal iter env wd =
      { world :=
          { fs := wd.fs, handles := wd.handles,
            trace := wd.trace ++
              [Effect.stderr (ascii "ERROR: usage: " ++ prog ++ ascii " containers.log\n")] }
        code := 1 } ↔ rest.length ≠ 1 := by
  constructor
  · intro h hlen
    obtain ⟨path, hp⟩ : ∃ path, rest = [path] := List.length_eq_one.mp hlen
    subst hp
    obtain ⟨es, hes⟩ := main_trace_of_two unmarshal iter env wd prog path hargs
    rw [h] at hes
    have := List.append_cancel_left hes
    simp at this
  · intro hlen
    have h2 : env.args.length ≠ 2 := by
      rw [hargs]
      simpa using hlen
    have hmsg : ascii "ERROR: " ++ (ascii "usage: " ++ prog ++ ascii " containers.log") ++
        ascii "\n" = ascii "ERROR: usage: " ++ prog ++ ascii " containers.log\n" := by
      have h1 : ascii "ERROR: usage: " = ascii "ERROR: " ++ ascii "usage: " := by decide
      have h3 : ascii " containers.log\n" = ascii " containers.log" ++ ascii "\n" := by decide
      rw [h1, h3]
      simp
    unfold main
    rw [if_pos h2]
    simp only [hargs, List.getElem?_cons_zero, handleError, hmsg]

/-- C13 at a start without argument and at a start with two arguments. -/
theorem C13_usage_error_witness :
    main jsonUnmarshal sourceIter
      (sampleEnv [ascii "logparse"] { scans := [], final := none }) World.empty =
      { world :=
          { fs := [], handles := [],
            trace := [] ++
              [Effect.stderr (ascii "ERROR: usage: " ++ ascii "logparse" ++
                ascii " containers.log\n")] }
        code := 1 } ∧
    main jsonUnmarshal sourceIter
      (sampleEnv [ascii "logparse", ascii "a.log", ascii "b.log"] { scans := [], final := none })
      World.empty =
      { world :=
          { fs := [], handles := [],
            trace := [] ++
              [Effect.stderr (ascii "ERROR: usage: " ++ ascii "logparse" ++
                ascii " containers.log\n")] }
        code := 1 } :=
  ⟨(C13_usage_error jsonUnmarshal sourceIter
      (sampleEnv [ascii "logparse"] { scans := [], final := none }) World.empty
      (ascii "logparse") [] rfl).mpr (by decide),
   (C13_usage_error jsonUnmarshal sourceIter
      (sampleEnv [ascii "logparse", ascii "a.log", ascii "b.log"] { scans := [], final := none })
      World.empty (ascii "logparse") [ascii "a.log", ascii "b.log"] rfl).mpr (by decide)⟩

/-- C14 (the code at the failing input): the scanner yields a marker line and
then stops on a line longer than its buffer, so that `scan.Scan()` returns
false and `scan.Err()` is `bufio.Scanner: token too long`; `main` ends with
status 0, having closed the session as at the end of the input, and writes
nothing on standard error.  More generally the outcome of `main` is the same
whatever error stopped the scanner. -/
theorem C14_read_error_ignored :
    (∀ (unmarshal : Bytes → Except Bytes Bytes) (iter : Nat → Order) (args : List Bytes)
        (scans : List Scanned) (err : Bytes) (wd : World),
      main unmarshal iter (sampleEnv args { scans := scans, final := some err }) wd =
        main unmarshal iter (sampleEnv args { scans := scans, final := none }) wd) ∧
    main jsonUnmarshal sourceIter
      (sampleEnv [ascii "logparse", ascii "in.log"]
        { scans := scanLines [ascii "==> a/b/c/d/e/NAME/0.log <=="]
          final := some (ascii "bufio.Scanner: token too long") })
      World.empty =
      { world :=
          { fs := [(ascii "/w/containers/NAME.log", [])]
            handles := []
            trace :=
              [Effect.openInput (ascii "in.log"),
               Effect.mkdirAll (ascii "/w/containers"),
               Effect.stdout (ascii "Writing containers/NAME.log ... "),
               Effect.create (ascii "/w/containers/NAME.log"),
               Effect.stdout (ascii "0 lines\n"),
               Effect.close (ascii "/w/containers/NAME.log"),
               Effect.closeInput (ascii "in.log")] }
        code := 0 } := by
  refine ⟨?_, by decide⟩
  intro unmarshal iter args scans err wd
  rfl

/-- C15 (counterexample): two sessions of the same container name, the second
of which meets a line that does not decode.  The first session was closed
with `x` in `NAME.log`, as the run of its two lines shows; when the run
aborts, `NAME.log` is empty: the creation of the file of the second session
has truncated the file of the first. -/
theorem C15_counterexample :
    (run jsonUnmarshal linuxCreate sampleDir sourceIter
      (scanLines [ascii "==> a/b/c/d/e/NAME/0.log <==", jsonLine "x"]) World.empty).world.fs =
      [(ascii "/w/containers/NAME.log", ascii "x")] ∧
    run jsonUnmarshal linuxCreate sampleDir sourceIter
      (scanLines [ascii "==> a/b/c/d/e/NAME/0.log <==", jsonLine "x",
        ascii "==> a/b/c/d/e/NAME/1.log <==", ascii "garbage"]) World.empty =
    { world :=
        { fs := [(ascii "/w/containers/NAME.log", [])]
          handles := [ascii "/w/containers/NAME.log"]
          trace :=
            [Effect.stdout (ascii "Writing containers/NAME.log ... "),
             Effect.create (ascii "/w/containers/NAME.log"),
             Effect.write (ascii "/w/containers/NAME.log") (ascii "x"),
             Effect.stdout (ascii "1 lines\n"),
             Effect.close (ascii "/w/containers/NAME.log"),
             Effect.stdout (ascii "Writing containers/NAME.log ... "),
             Effect.create (ascii "/w/containers/NAME.log"),
             Effect.stderr (ascii
               "ERROR: invalid character \x27g\x27 looking for beginning of value\n")] }
      code := 1 } := by
  decide

/-- C15 (amended): let the loop get through the lines `pre`, and let them be
followed by a marker `m` of at least six segments, on the log file of which
`os.Create` succeeds, by lines `payload` without the token that are empty or
decode, and by a non-empty line `bad` without the token that the decoder
rejects.  Then, whatever follows, the run ends with
status 1 in the world in which `bad` was read, with only the error message
added.  Since the close of the sessions before (world `wdc`) that world has
seen the announcement and the creation of the file of the session and the
writes of its decoded texts, and nothing else: no count line, no close, no
rename.  The file of the session holds exactly the decoded texts, its handle
is still open, and the file at any other path is as it was in `wdc`. -/
theorem C15_abort_keeps_files (unmarshal : Bytes → Except Bytes Bytes)
    (create : Bytes → Option Bytes) (dir : Bytes)
    (iter : Nat → Order) (pre payload rest : List Bytes) (m bad err : Bytes) (wd0 : World)
    (stP : State)
    (hpre : mainLoop unmarshal create dir iter (scanLines pre) { writer := none, world := wd0 } =
      Flow.running stP)
    (hm : HasPrefix m containerFileToken = true)
    (hseg : 6 ≤ (Split 47 (m.drop 3)).length)
    (hcr : ∀ name, (Split 47 (m.drop 3))[5]? = some name →
      create (pathJoin dir (name ++ ascii ".log")) = none)
    (hpay : ∀ l ∈ payload, HasPrefix l containerFileToken = false)
    (hdec : ∀ l ∈ payload, l ≠ [] → ∃ log, unmarshal l = Except.ok log)
    (hbad : HasPrefix bad containerFileToken = false)
    (hne : bad ≠ [])
    (hu : unmarshal bad = Except.error err) :
    ∃ (name : Bytes) (wdc : World) (st : State),
      (Split 47 (m.drop 3))[5]? = some name ∧
      closeWriter stP.writer stP.world = Ret.ok wdc ∧
      mainLoop unmarshal create dir iter (scanLines (pre ++ m :: payload))
        { writer := none, world := wd0 } = Flow.running st ∧
      run unmarshal create dir iter (scanLines (pre ++ m :: payload ++ bad :: rest)) wd0 =
        { world :=
            { fs := st.world.fs, handles := st.world.handles,
              trace := st.world.trace ++
                [Effect.stderr (ascii "ERROR: " ++ err ++ ascii "\n")] }
          code := 1 } ∧
      st.world.trace = wdc.trace ++
        [Effect.stdout (ascii "Writing containers/" ++ name ++ ascii ".log ... "),
         Effect.create (pathJoin dir (name ++ ascii ".log"))] ++
        (decodedLogs unmarshal payload).map (Effect.write (pathJoin dir (name ++ ascii ".log"))) ∧
      st.world.fs.content (pathJoin dir (name ++ ascii ".log")) =
        some (decodedLogs unmarshal payload).flatten ∧
      pathJoin dir (name ++ ascii ".log") ∈ st.world.handles ∧
      ∀ p, p ≠ pathJoin dir (name ++ ascii ".log") →
        st.world.fs.content p = wdc.fs.content p := by
  have cP : Consistent stP :=
    mainLoop_consistent unmarshal create dir _ iter _ stP (Consistent_start wd0) hpre
  obtain ⟨wdc, hc⟩ := closeWriter_consistent stP cP
  have htrim : TrimPrefix m containerFileToken = m.drop 3 := by
    rw [TrimPrefix_of_HasPrefix m _ hm, containerFileToken_length]
  have hlt : 5 < (Split 47 (m.drop 3)).length := by omega
  have hs : (Split 47 (TrimPrefix m containerFileToken))[5]? =
      some ((Split 47 (m.drop 3))[5]) := by
    rw [htrim]
    exact List.getElem?_eq_getElem hlt
  have hcr0 := hcr _ (List.getElem?_eq_getElem hlt)
  have hh0 : (openWriter dir ((Split 47 (m.drop 3))[5]) wdc).1.fileWriter ∈
      (openWriter dir ((Split 47 (m.drop 3))[5]) wdc).2.handles := by
    simp [openWriter, osCreate]
  obtain ⟨st, hS⟩ := mainLoop_payload_total unmarshal create dir payload
    (fun n => iter (n + (scanLines [m]).length + (scanLines pre).length)) _ _ hpay hh0 hdec
  obtain ⟨_, w, hw, hf1, _, _, hhd, hfs, htr, _, _⟩ :=
    mainLoop_payload unmarshal create dir payload _ _ _ st hpay hh0 hS
  have hSfull : mainLoop unmarshal create dir iter (scanLines (pre ++ m :: payload))
      { writer := none, world := wd0 } = Flow.running st := by
    have : scanLines (pre ++ m :: payload) =
        scanLines pre ++ (scanLines [m] ++ scanLines payload) := by simp [scanLines]
    rw [this, mainLoop_append, hpre]
    simp only [Flow.andThen]
    rw [mainLoop_append]
    simp only [scanLines, List.map_cons, List.map_nil, mainLoop]
    rw [loopBody_marker_ok unmarshal create dir _ m _ stP wdc hm hc hs hcr0]
    simp only [Flow.andThen]
    exact hS
  have hst : st = { writer := some w, world := st.world } := by
    rw [← hw]
  have hrun : run unmarshal create dir iter (scanLines (pre ++ m :: payload ++ bad :: rest)) wd0 =
      { world :=
          { fs := st.world.fs, handles := st.world.handles,
            trace := st.world.trace ++ [Effect.stderr (ascii "ERROR: " ++ err ++ ascii "\n")] }
        code := 1 } := by
    have : scanLines (pre ++ m :: payload ++ bad :: rest) =
        scanLines (pre ++ m :: payload) ++ ({ err := none, bytes := bad } :: scanLines rest) := by
      simp [scanLines]
    unfold run
    rw [this, mainLoop_append, hSfull]
    simp only [Flow.andThen, mainLoop]
    rw [hst, loopBody_error unmarshal create dir _ bad err w st.world hbad hne hu]
    simp [finish, handleError]
  have hpath : (openWriter dir ((Split 47 (m.drop 3))[5]) wdc).1.fileWriter =
      pathJoin dir ((Split 47 (m.drop 3))[5] ++ ascii ".log") := rfl
  rw [hpath] at hfs htr
  refine ⟨(Split 47 (m.drop 3))[5], wdc, st, List.getElem?_eq_getElem hlt, hc, hSfull, hrun,
    ?_, ?_, ?_, ?_⟩
  · rw [htr]
    simp [openWriter, osCreate, printOut]
  · rw [hfs, content_append]
    simp [openWriter, osCreate, FS.content]
  · rw [hhd]
    simp [openWriter, osCreate]
  · intro p hp
    rw [hfs, content_append]
    simp only [openWriter, osCreate, printOut]
    rw [content_cons_ne _ _ _ _ (Ne.symm hp), content_filter_ne _ _ _ hp]
    simp [hp]

/-- C15 (amended) at a session of one line and the line `garbage`, opened
after a session that is closed. -/
theorem C15_abort_keeps_files_witness :
    ∃ (name : Bytes) (wdc : World) (st : State),
      (Split 47 ((ascii "==> a/b/c/d/e/NAME/0.log <==").drop 3))[5]? = some name ∧
      closeWriter (some
        { fileWriter := ascii "/w/containers/OLD.log", count := 1, detectedType := [],
          containerName := ascii "OLD", dirName := sampleDir })
        { fs := [(ascii "/w/containers/OLD.log", ascii "x")]
          handles := [ascii "/w/containers/OLD.log"]
          trace :=
            [Effect.stdout (ascii "Writing containers/OLD.log ... "),
             Effect.create (ascii "/w/containers/OLD.log"),
             Effect.write (ascii "/w/containers/OLD.log") (ascii "x")] } = Ret.ok wdc ∧
      mainLoop jsonUnmarshal linuxCreate sampleDir sourceIter
        (scanLines ([ascii "==> a/b/c/d/e/OLD/0.log <==", jsonLine "x"] ++
          ascii "==> a/b/c/d/e/NAME/0.log <==" :: [jsonLine "one"]))
        { writer := none, world := World.empty } = Flow.running st ∧
      run jsonUnmarshal linuxCreate sampleDir sourceIter
        (scanLines ([ascii "==> a/b/c/d/e/OLD/0.log <==", jsonLine "x"] ++
          ascii "==> a/b/c/d/e/NAME/0.log <==" :: [jsonLine "one"] ++
          ascii "garbage" :: [jsonLine "more"])) World.empty =
        { world :=
            { fs := st.world.fs, handles := st.world.handles,
              trace := st.world.trace ++
                [Effect.stderr (ascii "ERROR: " ++
                  ascii "invalid character \x27g\x27 looking for beginning of value" ++ ascii "\n")] }
          code := 1 } ∧
      st.world.trace = wdc.trace ++
        [Effect.stdout (ascii "Writing containers/" ++ name ++ ascii ".log ... "),
         Effect.create (pathJoin sampleDir (name ++ ascii ".log"))] ++
        (decodedLogs jsonUnmarshal [jsonLine "one"]).map
          (Effect.write (pathJoin sampleDir (name ++ ascii ".log"))) ∧
      st.world.fs.content (pathJoin sampleDir (name ++ ascii ".log")) =
        some (decodedLogs jsonUnmarshal [jsonLine "one"]).flatten ∧
      pathJoin sampleDir (name ++ ascii ".log") ∈ st.world.handles ∧
      ∀ p, p ≠ pathJoin sampleDir (name ++ ascii ".log") →
        st.world.fs.content p = wdc.fs.content p :=
  C15_abort_keeps_files jsonUnmarshal linuxCreate sampleDir sourceIter
    [ascii "==> a/b/c/d/e/OLD/0.log <==", jsonLine "x"] [jsonLine "one"] [jsonLine "more"]
    (ascii "==> a/b/c/d/e/NAME/0.log <==") (ascii "garbage")
    (ascii "invalid character \x27g\x27 looking for beginning of value") World.empty
    { writer := some
        { fileWriter := ascii "/w/containers/OLD.log", count := 1, detectedType := [],
          containerName := ascii "OLD", dirName := sampleDir }
      world :=
        { fs := [(ascii "/w/containers/OLD.log", ascii "x")]
          handles := [ascii "/w/containers/OLD.log"]
          trace :=
            [Effect.stdout (ascii "Writing containers/OLD.log ... "),
             Effect.create (ascii "/w/containers/OLD.log"),
             Effect.write (ascii "/w/containers/OLD.log") (ascii "x")] } }
    (by decide) (by decide) (by decide)
    (by
      intro name hn
      have h : (Split 47 ((ascii "==> a/b/c/d/e/NAME/0.log <==").drop 3))[5]? =
          some (ascii "NAME") := by decide
      rw [h] at hn
      simp only [Option.some.injEq] at hn
      subst hn
      decide)
    (by decide)
    (by
      intro l hl _
      simp only [List.mem_singleton] at hl
      subst hl
      exact ⟨ascii "one", by decide⟩)
    (by decide) (by decide) (by decide)

/-- C16: when the first line of the input does not start with the token,
whatever the line and whatever follows it, the call of `Write` on the nil
writer panics: the run ends with status 2 in the world it started in, with
no effect at all, so no file is created and nothing is printed. -/
theorem C16_payload_before_marker (unmarshal : Bytes → Except Bytes Bytes)
    (create : Bytes → Option Bytes) (dir : Bytes)
    (iter : Nat → Order) (line : Bytes) (rest : List Scanned) (wd : World)
    (hm : HasPrefix line containerFileToken = false) :
    mainLoop unmarshal create dir iter ({ err := none, bytes := line } :: rest)
      { writer := none, world := wd } = Flow.panicked { writer := none, world := wd } ∧
    run unmarshal create dir iter ({ err := none, bytes := line } :: rest) wd =
      { world := wd, code := 2 } := by
  have h : mainLoop unmarshal create dir iter ({ err := none, bytes := line } :: rest)
      { writer := none, world := wd } = Flow.panicked { writer := none, world := wd } := by
    simp [mainLoop, loopBody, hm]
  refine ⟨h, ?_⟩
  unfold run
  rw [h]
  simp [finish, deferred, closeWriter]

/-- C16 at an input that starts with the empty line. -/
theorem C16_payload_before_marker_witness :
    mainLoop jsonUnmarshal linuxCreate sampleDir sourceIter
      ({ err := none, bytes := [] } :: scanLines [ascii "==> a/b/c/d/e/NAME/0.log <=="])
      { writer := none, world := World.empty } =
      Flow.panicked { writer := none, world := World.empty } ∧
    run jsonUnmarshal linuxCreate sampleDir sourceIter
      ({ err := none, bytes := [] } :: scanLines [ascii "==> a/b/c/d/e/NAME/0.log <=="])
      World.empty = { world := World.empty, code := 2 } :=
  C16_payload_before_marker jsonUnmarshal linuxCreate sampleDir sourceIter []
    (scanLines [ascii "==> a/b/c/d/e/NAME/0.log <=="]) World.empty (by decide)

/-- C17: a `Write` of a zero-length line returns without error and without
calling the decoder (the result is the same for every decoder, also one that
rejects the empty input): the writer, with its count and label, and the
world, with its files, are as before; in the loop an empty line read in an
open session leaves the state as it is. -/
theorem C17_empty_line_ignored (unmarshal : Bytes → Except Bytes Bytes)
    (create : Bytes → Option Bytes) (dir : Bytes)
    (order : Order) (w : logWriter) (wd : World) :
    w.Write unmarshal order [] wd = (w, Except.ok wd) ∧
    loopBody unmarshal create dir order { err := none, bytes := [] } { writer := some w, world := wd } =
      Flow.running { writer := some w, world := wd } :=
  ⟨Write_empty unmarshal order w wd, loopBody_empty unmarshal create dir order w wd⟩

/-- C18: in a run that ends with status 0, take the session opened by the
marker `m`, with `payload` the lines up to the next marker or the end of the
input, the decoded text of each of which matches at most one entry of the
table.  The label of the writer that is closed at the end of the session is
the label the table gives the last decoded text that matches the table, and
it is empty when no text matches; lines that match nothing play no part.
For such texts the label the table gives is that of the entry they match. -/
theorem C18_last_matching_line (unmarshal : Bytes → Except Bytes Bytes)
    (create : Bytes → Option Bytes) (dir : Bytes)
    (iter : Nat → Order) (pre payload rest : List Bytes) (m : Bytes) (wd0 : World)
    (hm : HasPrefix m containerFileToken = true)
    (hpay : ∀ l ∈ payload, HasPrefix l containerFileToken = false)
    (hrest : ∀ l ∈ rest.head?, HasPrefix l containerFileToken = true)
    (hrun : (run unmarshal create dir iter (scanLines (pre ++ m :: payload ++ rest)) wd0).code = 0)
    (honce : ∀ log ∈ decodedLogs unmarshal payload, ∀ e ∈ contentDetector,
      ∀ e1 ∈ contentDetector, Contains log e.1 = true → Contains log e1.1 = true → e = e1) :
    ∃ (st : State) (w : logWriter) (wd1 : World),
      mainLoop unmarshal create dir iter (scanLines (pre ++ m :: payload))
        { writer := none, world := wd0 } = Flow.running st ∧
      st.writer = some w ∧
      w.detectedType =
        ((((decodedLogs unmarshal payload).filter matchesTable).getLast?).map tableLabel).getD
          [] ∧
      (∀ log ∈ decodedLogs unmarshal payload, ∀ e ∈ contentDetector,
        Contains log e.1 = true → tableLabel log = e.2) ∧
      w.Close st.world = Ret.ok wd1 ∧
      wd1.trace = st.world.trace ++ w.closeEffects ∧
      wd1.trace <+:
        (run unmarshal create dir iter (scanLines (pre ++ m :: payload ++ rest)) wd0).world.trace := by
  obtain ⟨name, st0, st, w, wd1, _, h0, hw0, _, hS, hw, _, _, _, _, _, _, _, _, _, hcl, htr, _,
    hpre⟩ := session_run unmarshal create dir iter pre payload rest m wd0 hm hpay hrest hrun
  have hlab := session_label unmarshal create dir iter pre payload m name wd0 st0 st w hpay honce h0
    hw0 hS hw
  refine ⟨st, w, wd1, hS, hw, ?_, ?_, hcl, htr, hpre⟩
  · rw [hlab, lastLabel_eq]
  · intro log hlog e he hc
    exact tableLabel_of_mem log e he hc (honce log hlog)

/-- C18 at a session with a line of the router, a line of the controllers and
a plain line: the label is `controllers`. -/
theorem C18_last_matching_line_witness :
    ∃ (st : State) (w : logWriter) (wd1 : World),
      mainLoop jsonUnmarshal linuxCreate sampleDir sourceIter
        (scanLines ([] ++ ascii "==> a/b/c/d/e/NAME/0.log <==" ::
          [jsonLine "Starting template router", jsonLine "Starting controllers on",
            jsonLine "x"]))
        { writer := none, world := World.empty } = Flow.running st ∧
      st.writer = some w ∧
      w.detectedType =
        ((((decodedLogs jsonUnmarshal
          [jsonLine "Starting template router", jsonLine "Starting controllers on",
            jsonLine "x"]).filter matchesTable).getLast?).map tableLabel).getD [] ∧
      (∀ log ∈ decodedLogs jsonUnmarshal
          [jsonLine "Starting template router", jsonLine "Starting controllers on",
            jsonLine "x"],
        ∀ e ∈ contentDetector, Contains log e.1 = true → tableLabel log = e.2) ∧
      w.Close st.world = Ret.ok wd1 ∧
      wd1.trace = st.world.trace ++ w.closeEffects ∧
      wd1.trace <+:
        (run jsonUnmarshal linuxCreate sampleDir sourceIter
          (scanLines ([] ++ ascii "==> a/b/c/d/e/NAME/0.log <==" ::
            [jsonLine "Starting template router", jsonLine "Starting controllers on",
              jsonLine "x"] ++ []))
          World.empty).world.trace :=
  C18_last_matching_line jsonUnmarshal linuxCreate sampleDir sourceIter []
    [jsonLine "Starting template router", jsonLine "Starting controllers on", jsonLine "x"] []
    (ascii "==> a/b/c/d/e/NAME/0.log <==") World.empty
    (by decide) (by decide) (by decide) (by decide) (by decide)

end Logparse
